import Mathlib

/-!
Verification of the LiveLedger spreadsheet engine core (sheet.c).

This file gives a shallow embedding of the engine's data model and
operations: the cell/sheet structures, the cell-reference grammar, the
recursive-descent formula evaluator, the recalculation sweep, the
structural grid edits, the sizing operations and the CSV codec, together
with theorems settling the specification's quantified claims about them.

C `double` values are modelled as exact rationals (`Rat`); C `int`
parameters are modelled as `Int` with the source's sign guards, while the
grid itself is addressed by `Nat`.  Fallible recursion (the
recursive-descent parser) is made total with an explicit fuel parameter.
-/

namespace LiveLedger

/-! ### C character classification ("C" locale) -/

def c_isalpha (c : Char) : Bool :=
  ('A' ≤ c && c ≤ 'Z') || ('a' ≤ c && c ≤ 'z')

def c_isdigit (c : Char) : Bool :=
  '0' ≤ c && c ≤ '9'

def c_isspace (c : Char) : Bool :=
  c = ' ' || c = '\t' || c = '\n' || c = '\x0b' || c = '\x0c' || c = '\r'

def c_toupper (c : Char) : Char :=
  if 'a' ≤ c && c ≤ 'z' then Char.ofNat (c.toNat - 32) else c

/-! ### Value model: cell and error taxonomy (sheet.h) -/

inductive CellType where
  | empty
  | number
  | string
  | formula
  | error
deriving DecidableEq, Repr

inductive ErrorType where
  | none
  | divZero
  | ref
  | value
  | parse
  | na
deriving DecidableEq, Repr

inductive DataFormat where
  | general
  | number
  | percentage
  | currency
  | date
  | time
  | datetime
deriving DecidableEq, Repr

/-- One cell.  The C `union` is flattened into separate fields; every read
in the source is guarded by `type`, so the flattening is faithful. -/
structure Cell where
  type : CellType
  number : Rat := 0
  string : String := ""
  expression : String := ""
  cached_value : Rat := 0
  cached_string : Option String := Option.none
  is_string_result : Bool := false
  error : ErrorType := ErrorType.none
  width : Int := 10
  precision : Nat := 2
  align : Int := 2
  format : DataFormat := DataFormat.general
  format_style : Nat := 0
  text_color : Int := -1
  background_color : Int := -1
  row_height : Int := -1
  row : Nat
  col : Nat
deriving DecidableEq, Repr

/-- `cell_new(row, col)` (sheet.c): calloc'ed cell with the source's
field initialisation. -/
def cell_new (row col : Nat) : Cell :=
  { type := CellType.empty
    row := row
    col := col
    width := 10
    precision := 2
    align := 2
    format := DataFormat.general
    format_style := 0
    text_color := -1
    background_color := -1
    row_height := -1 }

/-- `cell_clear` (sheet.c): kind becomes empty, owned data is freed,
formatting is kept. -/
def cell_clear (cell : Cell) : Cell :=
  { cell with
    type := CellType.empty
    string := ""
    expression := ""
    cached_string := Option.none }

/-- `cell_set_number` (sheet.c). -/
def cell_set_number (cell : Cell) (value : Rat) : Cell :=
  { cell_clear cell with type := CellType.number, number := value }

/-- `cell_set_string` (sheet.c): also left-aligns. -/
def cell_set_string (cell : Cell) (str : String) : Cell :=
  { cell_clear cell with type := CellType.string, string := str, align := 0 }

/-- `cell_set_formula` (sheet.c). -/
def cell_set_formula (cell : Cell) (formula : String) : Cell :=
  { cell_clear cell with
    type := CellType.formula
    expression := formula
    cached_value := 0
    cached_string := Option.none
    is_string_result := false
    error := ErrorType.none }

/-- `cell_set_format` (sheet.c). -/
def cell_set_format (cell : Cell) (format : DataFormat) (style : Nat) : Cell :=
  { cell with format := format, format_style := style }

/-! ### Sheet container (sheet.h / sheet.c) -/

structure RangeSelection where
  start_row : Int := 0
  start_col : Int := 0
  end_row : Int := 0
  end_col : Int := 0
  is_active : Bool := false
deriving DecidableEq, Repr

structure RangeClipboard where
  cells : Nat → Nat → Option Cell := fun _ _ => Option.none
  rows : Nat := 0
  cols : Nat := 0
  is_active : Bool := false

structure Sheet where
  cells : Nat → Nat → Option Cell
  rows : Nat
  cols : Nat
  col_widths : Nat → Int
  row_heights : Nat → Int
  name : String := "Sheet1"
  needs_recalc : Bool := false
  selection : RangeSelection := {}
  range_clipboard : RangeClipboard := {}

def DEFAULT_COLUMN_WIDTH : Int := 10
def MIN_COLUMN_WIDTH : Int := 1
def MAX_COLUMN_WIDTH : Int := 50
def MIN_ROW_HEIGHT : Int := 1
def MAX_ROW_HEIGHT : Int := 10
def MAX_RANGE_VALUES : Nat := 1000

/-- `FLOAT_COMPARISON_EPSILON = 1e-10` (constants.h). -/
def FLOAT_COMPARISON_EPSILON : Rat := 1 / 10000000000

/-- `sheet_new(rows, cols)` (sheet.c). -/
def sheet_new (rows cols : Nat) : Sheet :=
  { cells := fun _ _ => Option.none
    rows := rows
    cols := cols
    col_widths := fun _ => DEFAULT_COLUMN_WIDTH
    row_heights := fun _ => 1
    name := "Sheet1"
    needs_recalc := false
    selection := {}
    range_clipboard := {} }

/-- `sheet_get_cell` (sheet.c): bounds-checked lookup. -/
def sheet_get_cell (sheet : Sheet) (row col : Int) : Option Cell :=
  if row < 0 || row ≥ (sheet.rows : Int) || col < 0 || col ≥ (sheet.cols : Int) then
    Option.none
  else
    sheet.cells row.toNat col.toNat

/-- Write one grid slot (the C code mutates `sheet->cells[r][c]`). -/
def sheet_put_cell (sheet : Sheet) (row col : Nat) (cell : Option Cell) : Sheet :=
  { sheet with
    cells := fun r c => if r = row ∧ c = col then cell else sheet.cells r c }

/-- `sheet_get_or_create_cell` (sheet.c): returns the (possibly fresh) cell
together with the updated sheet; `Option.none` for out-of-bounds. -/
def sheet_get_or_create_cell (sheet : Sheet) (row col : Int) :
    Option (Cell × Sheet) :=
  if row < 0 || row ≥ (sheet.rows : Int) || col < 0 || col ≥ (sheet.cols : Int) then
    Option.none
  else
    match sheet.cells row.toNat col.toNat with
    | Option.some cell => Option.some (cell, sheet)
    | Option.none =>
        let cell := cell_new row.toNat col.toNat
        Option.some (cell, sheet_put_cell sheet row.toNat col.toNat (Option.some cell))

/-- `sheet_set_number` (sheet.c): write, then `needs_recalc = 1`. -/
def sheet_set_number (sheet : Sheet) (row col : Int) (value : Rat) : Sheet :=
  match sheet_get_or_create_cell sheet row col with
  | Option.none => sheet
  | Option.some (cell, sheet') =>
      { sheet_put_cell sheet' row.toNat col.toNat
          (Option.some (cell_set_number cell value)) with
        needs_recalc := true }

/-- `sheet_set_string` (sheet.c): note that, unlike the other writes, this
function does **not** touch `needs_recalc`. -/
def sheet_set_string (sheet : Sheet) (row col : Int) (str : String) : Sheet :=
  match sheet_get_or_create_cell sheet row col with
  | Option.none => sheet
  | Option.some (cell, sheet') =>
      sheet_put_cell sheet' row.toNat col.toNat
        (Option.some (cell_set_string cell str))

/-- `sheet_set_formula` (sheet.c): write, then `needs_recalc = 1`. -/
def sheet_set_formula (sheet : Sheet) (row col : Int) (formula : String) : Sheet :=
  match sheet_get_or_create_cell sheet row col with
  | Option.none => sheet
  | Option.some (cell, sheet') =>
      { sheet_put_cell sheet' row.toNat col.toNat
          (Option.some (cell_set_formula cell formula)) with
        needs_recalc := true }

/-- `sheet_clear_cell` (sheet.c): clears only an existing cell, and only
then sets `needs_recalc`. -/
def sheet_clear_cell (sheet : Sheet) (row col : Int) : Sheet :=
  match sheet_get_cell sheet row col with
  | Option.none => sheet
  | Option.some cell =>
      { sheet_put_cell sheet row.toNat col.toNat (Option.some (cell_clear cell)) with
        needs_recalc := true }

/-! ### Column/row sizing (sheet.c) -/

/-- `sheet_set_column_width` (sheet.c): rejects `col` out of range and
`width < 1`; stores the width verbatim otherwise (no upper clamp). -/
def sheet_set_column_width (sheet : Sheet) (col width : Int) : Sheet :=
  if col < 0 || col ≥ (sheet.cols : Int) || width < 1 then sheet
  else
    { sheet with
      col_widths := fun c => if c = col.toNat then width else sheet.col_widths c }

/-- `sheet_set_row_height` (sheet.c): same shape as the column version. -/
def sheet_set_row_height (sheet : Sheet) (row height : Int) : Sheet :=
  if row < 0 || row ≥ (sheet.rows : Int) || height < 1 then sheet
  else
    { sheet with
      row_heights := fun r => if r = row.toNat then height else sheet.row_heights r }

/-- `sheet_get_column_width` (sheet.c). -/
def sheet_get_column_width (sheet : Sheet) (col : Int) : Int :=
  if col < 0 || col ≥ (sheet.cols : Int) then DEFAULT_COLUMN_WIDTH
  else sheet.col_widths col.toNat

/-- `sheet_get_row_height` (sheet.c). -/
def sheet_get_row_height (sheet : Sheet) (row : Int) : Int :=
  if row < 0 || row ≥ (sheet.rows : Int) then 1
  else sheet.row_heights row.toNat

/-- Clamp of `sheet_resize_columns_in_range`'s loop body. -/
def clampWidth (w : Int) : Int :=
  if w < MIN_COLUMN_WIDTH then MIN_COLUMN_WIDTH
  else if w > MAX_COLUMN_WIDTH then MAX_COLUMN_WIDTH
  else w

def clampHeight (h : Int) : Int :=
  if h < MIN_ROW_HEIGHT then MIN_ROW_HEIGHT
  else if h > MAX_ROW_HEIGHT then MAX_ROW_HEIGHT
  else h

/-- `sheet_resize_columns_in_range` (sheet.c): add `delta`, clamped into
`[MIN_COLUMN_WIDTH, MAX_COLUMN_WIDTH]`, over `start_col..end_col`. -/
def sheet_resize_columns_in_range (sheet : Sheet) (start_col end_col delta : Int) :
    Sheet :=
  if start_col < 0 || end_col ≥ (sheet.cols : Int) || start_col > end_col then sheet
  else
    { sheet with
      col_widths := fun c =>
        if start_col ≤ (c : Int) ∧ (c : Int) ≤ end_col then
          clampWidth (sheet.col_widths c + delta)
        else sheet.col_widths c }

/-- `sheet_resize_rows_in_range` (sheet.c). -/
def sheet_resize_rows_in_range (sheet : Sheet) (start_row end_row delta : Int) :
    Sheet :=
  if start_row < 0 || end_row ≥ (sheet.rows : Int) || start_row > end_row then sheet
  else
    { sheet with
      row_heights := fun r =>
        if start_row ≤ (r : Int) ∧ (r : Int) ≤ end_row then
          clampHeight (sheet.row_heights r + delta)
        else sheet.row_heights r }

/-! ### Structural edits (sheet.c)

The shifting loops are translated literally, one fold step per outer-loop
iteration, because their order of evaluation is observable (in particular
`sheet_insert_row` never clears the last row, so a cell there survives
whenever the slot above it is empty). -/

/-- One iteration (`r`) of `sheet_insert_row`'s shifting loop: for every
in-range column, if slot `r-1` holds a cell it is moved to slot `r` (and
re-stamped), otherwise slot `r` is left as it is; the row height is always
copied down. -/
def insert_row_step (s : Sheet) (r : Nat) : Sheet :=
  { s with
    cells := fun r' c =>
      if c < s.cols then
        if r' = r then
          match s.cells (r - 1) c with
          | Option.some x => Option.some { x with row := r }
          | Option.none => s.cells r' c
        else if r' = r - 1 then
          match s.cells (r - 1) c with
          | Option.some _ => Option.none
          | Option.none => s.cells r' c
        else s.cells r' c
      else s.cells r' c
    row_heights := fun r' => if r' = r then s.row_heights (r - 1) else s.row_heights r' }

/-- `sheet_insert_row` (sheet.c): shift rows `row+1 .. rows-1` down (loop
running from the bottom), then clear row `row`, reset its height, and mark
for recalculation. -/
def sheet_insert_row (sheet : Sheet) (row : Int) : Sheet :=
  if row < 0 || row ≥ (sheet.rows : Int) then sheet
  else
    let rn := row.toNat
    let s1 := ((List.range' (rn + 1) (sheet.rows - 1 - rn)).reverse).foldl
      insert_row_step sheet
    { s1 with
      cells := fun r c => if r = rn ∧ c < s1.cols then Option.none else s1.cells r c
      row_heights := fun r => if r = rn then 1 else s1.row_heights r
      needs_recalc := true }

/-- One iteration (`c`) of `sheet_insert_column`'s shifting loop. -/
def insert_col_step (s : Sheet) (c : Nat) : Sheet :=
  { s with
    cells := fun r c' =>
      if r < s.rows then
        if c' = c then
          match s.cells r (c - 1) with
          | Option.some x => Option.some { x with col := c }
          | Option.none => s.cells r c'
        else if c' = c - 1 then
          match s.cells r (c - 1) with
          | Option.some _ => Option.none
          | Option.none => s.cells r c'
        else s.cells r c'
      else s.cells r c'
    col_widths := fun c' => if c' = c then s.col_widths (c - 1) else s.col_widths c' }

/-- `sheet_insert_column` (sheet.c). -/
def sheet_insert_column (sheet : Sheet) (col : Int) : Sheet :=
  if col < 0 || col ≥ (sheet.cols : Int) then sheet
  else
    let cn := col.toNat
    let s1 := ((List.range' (cn + 1) (sheet.cols - 1 - cn)).reverse).foldl
      insert_col_step sheet
    { s1 with
      cells := fun r c => if c = cn ∧ r < s1.rows then Option.none else s1.cells r c
      col_widths := fun c => if c = cn then DEFAULT_COLUMN_WIDTH else s1.col_widths c
      needs_recalc := true }

/-- One iteration (`r`) of `sheet_delete_row`'s shifting loop: slot `r+1`
moves up to slot `r` when occupied. -/
def delete_row_step (s : Sheet) (r : Nat) : Sheet :=
  { s with
    cells := fun r' c =>
      if c < s.cols then
        if r' = r then
          match s.cells (r + 1) c with
          | Option.some x => Option.some { x with row := r }
          | Option.none => s.cells r' c
        else if r' = r + 1 then
          match s.cells (r + 1) c with
          | Option.some _ => Option.none
          | Option.none => s.cells r' c
        else s.cells r' c
      else s.cells r' c
    row_heights := fun r' => if r' = r then s.row_heights (r + 1) else s.row_heights r' }

/-- `sheet_delete_row` (sheet.c): free row `row`, shift the rows below it
up, clear the last row and reset its height. -/
def sheet_delete_row (sheet : Sheet) (row : Int) : Sheet :=
  if row < 0 || row ≥ (sheet.rows : Int) then sheet
  else
    let rn := row.toNat
    let s0 := { sheet with
      cells := fun r c =>
        if r = rn ∧ c < sheet.cols then Option.none else sheet.cells r c }
    let s1 := (List.range' rn (sheet.rows - 1 - rn)).foldl delete_row_step s0
    { s1 with
      cells := fun r c =>
        if r = sheet.rows - 1 ∧ c < s1.cols then Option.none else s1.cells r c
      row_heights := fun r => if r = sheet.rows - 1 then 1 else s1.row_heights r
      needs_recalc := true }

/-- One iteration (`c`) of `sheet_delete_column`'s shifting loop. -/
def delete_col_step (s : Sheet) (c : Nat) : Sheet :=
  { s with
    cells := fun r c' =>
      if r < s.rows then
        if c' = c then
          match s.cells r (c + 1) with
          | Option.some x => Option.some { x with col := c }
          | Option.none => s.cells r c'
        else if c' = c + 1 then
          match s.cells r (c + 1) with
          | Option.some _ => Option.none
          | Option.none => s.cells r c'
        else s.cells r c'
      else s.cells r c'
    col_widths := fun c' => if c' = c then s.col_widths (c + 1) else s.col_widths c' }

/-- `sheet_delete_column` (sheet.c). -/
def sheet_delete_column (sheet : Sheet) (col : Int) : Sheet :=
  if col < 0 || col ≥ (sheet.cols : Int) then sheet
  else
    let cn := col.toNat
    let s0 := { sheet with
      cells := fun r c =>
        if c = cn ∧ r < sheet.rows then Option.none else sheet.cells r c }
    let s1 := (List.range' cn (sheet.cols - 1 - cn)).foldl delete_col_step s0
    { s1 with
      cells := fun r c =>
        if c = sheet.cols - 1 ∧ r < s1.rows then Option.none else s1.cells r c
      col_widths := fun c => if c = sheet.cols - 1 then DEFAULT_COLUMN_WIDTH
        else s1.col_widths c
      needs_recalc := true }

/-! ### Range selection and the range clipboard (sheet.c) -/

/-- `sheet_start_range_selection` (sheet.c). -/
def sheet_start_range_selection (sheet : Sheet) (row col : Int) : Sheet :=
  { sheet with selection :=
      { start_row := row, start_col := col, end_row := row, end_col := col
        is_active := true } }

/-- `sheet_extend_range_selection` (sheet.c). -/
def sheet_extend_range_selection (sheet : Sheet) (row col : Int) : Sheet :=
  if sheet.selection.is_active then
    { sheet with selection := { sheet.selection with end_row := row, end_col := col } }
  else sheet

/-- `sheet_clear_range_selection` (sheet.c). -/
def sheet_clear_range_selection (sheet : Sheet) : Sheet :=
  { sheet with selection := { sheet.selection with is_active := false } }

/-- `sheet_is_in_selection` (sheet.c). -/
def sheet_is_in_selection (sheet : Sheet) (row col : Int) : Bool :=
  if !sheet.selection.is_active then false
  else
    let mnr := min sheet.selection.start_row sheet.selection.end_row
    let mxr := max sheet.selection.start_row sheet.selection.end_row
    let mnc := min sheet.selection.start_col sheet.selection.end_col
    let mxc := max sheet.selection.start_col sheet.selection.end_col
    mnr ≤ row && row ≤ mxr && mnc ≤ col && col ≤ mxc

/-- The per-slot deep copy performed by `sheet_copy_range` (sheet.c):
kind-directed copy of the data (formula cells also keep `cached_value` and
`error`), plus width, precision, alignment and format. -/
def copy_range_cell (src : Cell) (row col : Nat) : Cell :=
  let base := cell_new row col
  let withData :=
    match src.type with
    | CellType.number => cell_set_number base src.number
    | CellType.string => cell_set_string base src.string
    | CellType.formula =>
        { cell_set_formula base src.expression with
          cached_value := src.cached_value
          error := src.error }
    | _ => base
  { withData with
    width := src.width
    precision := src.precision
    align := src.align
    format := src.format
    format_style := src.format_style }

/-- `sheet_copy_range` (sheet.c): capture the selected rectangle into the
range clipboard. -/
def sheet_copy_range (sheet : Sheet) : Sheet :=
  if !sheet.selection.is_active then sheet
  else
    let mnr := min sheet.selection.start_row sheet.selection.end_row
    let mxr := max sheet.selection.start_row sheet.selection.end_row
    let mnc := min sheet.selection.start_col sheet.selection.end_col
    let mxc := max sheet.selection.start_col sheet.selection.end_col
    let rows := (mxr - mnr + 1).toNat
    let cols := (mxc - mnc + 1).toNat
    { sheet with range_clipboard :=
        { rows := rows
          cols := cols
          is_active := true
          cells := fun i j =>
            if i < rows ∧ j < cols then
              match sheet_get_cell sheet (mnr + i) (mnc + j) with
              | Option.some src =>
                  Option.some (copy_range_cell src (mnr + i).toNat (mnc + j).toNat)
              | Option.none => Option.none
            else Option.none } }

/-! ### Reference grammar (sheet.c) -/

/-- `skip_whitespace` (sheet.c), on the remaining input. -/
def skip_whitespace : List Char → List Char
  | [] => []
  | c :: cs => if c_isspace c then skip_whitespace cs else c :: cs

/-- The column-letter loop of `cell_reference_to_string`: emit the
bijective base-26 digits of the 1-based column number `m` (the first
argument is fuel; the caller passes `m` itself, which always suffices). -/
def colLettersAux : Nat → Nat → List Char
  | _, 0 => []
  | 0, _ + 1 => []
  | fuel + 1, m + 1 => colLettersAux fuel (m / 26) ++ [Char.ofNat (65 + m % 26)]

/-- The decimal digits emitted by `%d` for a positive number (fuelled). -/
def natDigitsAux : Nat → Nat → List Char
  | _, 0 => []
  | 0, _ + 1 => []
  | fuel + 1, m + 1 => natDigitsAux fuel ((m + 1) / 10) ++ [Char.ofNat (48 + (m + 1) % 10)]

/-- `cell_reference_to_string` (sheet.c): bijective base-26 column letters
followed by the 1-based row, truncated by `snprintf` to the 16-byte
buffer (15 characters). -/
def cell_reference_to_string (row col : Nat) : List Char :=
  List.take 15 (colLettersAux (col + 1) (col + 1) ++ natDigitsAux (row + 1) (row + 1))

/-- Column-letter accumulation step of `parse_cell_reference`. -/
def colStep (acc : Int) (c : Char) : Int :=
  acc * 26 + (((c_toupper c).toNat : Int) - 65 + 1)

/-- Row-digit accumulation step of `parse_cell_reference`. -/
def rowStep (acc : Int) (c : Char) : Int :=
  acc * 10 + ((c.toNat : Int) - 48)

/-- The `while (*p && isalpha(*p))` loop of `parse_cell_reference`. -/
def parseColRun : List Char → Int → Int × List Char
  | [], acc => (acc, [])
  | c :: cs, acc =>
      if c_isalpha c then parseColRun cs (colStep acc c) else (acc, c :: cs)

/-- The `while (*p && isdigit(*p))` loop of `parse_cell_reference`. -/
def parseRowRun : List Char → Int → Int × List Char
  | [], acc => (acc, [])
  | c :: cs, acc =>
      if c_isdigit c then parseRowRun cs (rowStep acc c) else (acc, c :: cs)

/-- `parse_cell_reference` (sheet.c): returns `(row, col)` 0-based, or
`Option.none` where the C function returns 0. -/
def parse_cell_reference (ref : List Char) : Option (Int × Int) :=
  let p := skip_whitespace ref
  match p with
  | [] => Option.none
  | c :: _ =>
    if ¬ c_isalpha c then Option.none
    else
      let (colv, p2) := parseColRun p 0
      match p2 with
      | [] => Option.none
      | d :: _ =>
        if ¬ c_isdigit d then Option.none
        else
          let (rowv, p3) := parseRowRun p2 0
          let p4 := skip_whitespace p3
          if p4 = [] then Option.some (rowv - 1, colv - 1) else Option.none

/-- Range parsing result (`CellRange` in sheet.c). -/
structure CellRange where
  start_row : Int
  start_col : Int
  end_row : Int
  end_col : Int
deriving DecidableEq, Repr

/-- `strchr(range_str, ':')`: split at the first colon. -/
def splitFirstColon : List Char → Option (List Char × List Char)
  | [] => Option.none
  | c :: cs =>
      if c = ':' then Option.some ([], cs)
      else
        match splitFirstColon cs with
        | Option.some (a, b) => Option.some (c :: a, b)
        | Option.none => Option.none

/-- `parse_range` (sheet.c): parse both endpoints of `<cell>:<cell>` and
normalise so that start ≤ end componentwise. -/
def parse_range (range_str : List Char) : Option CellRange :=
  match splitFirstColon range_str with
  | Option.none => Option.none
  | Option.some (start_ref, end_ref) =>
      if start_ref.length ≥ 16 then Option.none
      else
        match parse_cell_reference start_ref with
        | Option.none => Option.none
        | Option.some (sr, sc) =>
            match parse_cell_reference end_ref with
            | Option.none => Option.none
            | Option.some (er, ec) =>
                Option.some
                  { start_row := min sr er
                    start_col := min sc ec
                    end_row := max sr er
                    end_col := max sc ec }

/-! ### Numeric text: `strtod` and `printf`-style formatting

C `double`s are modelled as exact rationals, so `strtod` reads the exact
decimal value and the formatter renders it with round-to-nearest-even at
the requested precision (the tie behaviour of the C library's binary
conversion on exactly representable values). -/

/-- Numeric value of a run of decimal digit characters. -/
def digitsVal (cs : List Char) : Nat :=
  cs.foldl (fun a c => a * 10 + (c.toNat - 48)) 0

/-- Decimal `strtod` (the forms exercised by this program): optional
whitespace and sign, digits with an optional fractional part, and an
optional exponent that is consumed only when at least one exponent digit
follows.  Returns the value and the number of characters consumed, or
`(0, 0)` when no conversion is performed. -/
def strtod (cs : List Char) : Rat × Nat :=
  let ws := cs.takeWhile c_isspace
  let rest := cs.drop ws.length
  let (sgn, signLen, rest1) :=
    match rest with
    | '-' :: t => ((-1 : Rat), 1, t)
    | '+' :: t => ((1 : Rat), 1, t)
    | t => ((1 : Rat), 0, t)
  let intDigits := rest1.takeWhile c_isdigit
  let rest2 := rest1.drop intDigits.length
  let (fracDigits, fracLen, rest3) :=
    match rest2 with
    | '.' :: t =>
        let fd := t.takeWhile c_isdigit
        (fd, fd.length + 1, t.drop fd.length)
    | t => (([] : List Char), 0, t)
  if intDigits.length + fracDigits.length = 0 then (0, 0)
  else
    let mant : Rat := sgn *
      ((digitsVal intDigits : Rat) + (digitsVal fracDigits : Rat) / 10 ^ fracDigits.length)
    let mantLen := ws.length + signLen + intDigits.length + fracLen
    let (value, expLen) :=
      match rest3 with
      | e :: t =>
          if e = 'e' ∨ e = 'E' then
            let (esgn, esl, t1) :=
              match t with
              | '-' :: u => ((-1 : Int), 1, u)
              | '+' :: u => ((1 : Int), 1, u)
              | u => ((1 : Int), 0, u)
            let expDigits := t1.takeWhile c_isdigit
            if expDigits.length = 0 then (mant, 0)
            else (mant * (10 : Rat) ^ (esgn * (digitsVal expDigits : Int)),
                  1 + esl + expDigits.length)
          else (mant, 0)
      | [] => (mant, 0)
    (value, mantLen + expLen)

/-- Whether `strtod` consumes the whole field and converts (the CSV
loader's numeric classification `*endptr == '\0'`). -/
def strtodFull (cs : List Char) : Bool :=
  (strtod cs).2 = cs.length ∧ cs.length ≠ 0

/-- Decimal digits of `n` (printing `0` as `"0"`). -/
def natToChars (n : Nat) : List Char :=
  if n = 0 then ['0'] else natDigitsAux n n

/-- Two-digit zero padding (`%02d`). -/
def pad2 (n : Nat) : List Char :=
  if n < 10 then '0' :: natToChars n else natToChars n

/-- Round to the nearest integer, ties to even. -/
def roundHalfEven (q : Rat) : Int :=
  let f := ⌊q⌋
  let r := q - (f : Rat)
  if r < 1 / 2 then f
  else if 1 / 2 < r then f + 1
  else if f % 2 = 0 then f else f + 1

/-- `%.*f`: fixed-point rendering with `prec` fractional digits. -/
def formatFixed (v : Rat) (prec : Nat) : List Char :=
  let neg := v < 0
  let n := (roundHalfEven (|v| * 10 ^ prec)).toNat
  let ip := n / 10 ^ prec
  let fp := n % 10 ^ prec
  let fracChars :=
    if prec = 0 then ([] : List Char)
    else
      let ds := natToChars fp
      '.' :: (List.replicate (prec - ds.length) '0' ++ ds)
  (if neg then ['-'] else []) ++ natToChars ip ++ fracChars

/-- The trailing-zero stripping of `format_cell_value`'s general branch:
only when a decimal point is present, drop trailing zeros and then a
trailing point. -/
def stripZeros (s : List Char) : List Char :=
  if '.' ∈ s then
    let r := s.reverse.dropWhile (fun c => c = '0')
    let r' := match r with
      | '.' :: t => t
      | t => t
    r'.reverse
  else s

/-- `format_number_as_percentage` (sheet.c). -/
def format_number_as_percentage (value : Rat) (precision : Nat) : List Char :=
  formatFixed (value * 100) precision ++ ['%']

/-- `format_number_as_currency` (sheet.c). -/
def format_number_as_currency (value : Rat) : List Char :=
  if value < 0 then '-' :: '$' :: formatFixed (-value) 2
  else '$' :: formatFixed value 2

/-! ### Date/time formatting (sheet.c)

The serial is `1900-01-01` based with the Excel leap-year adjustment baked
into `EXCEL_BASE_TIME = -2209161600`; `gmtime_s` (MSVC) fails for negative
`time_t`, rendering `#DATE!`. -/

def EXCEL_BASE_TIME : Int := -2209161600

/-- Days-since-1970 to `(year, month, day)` (civil calendar). -/
def civilFromDays (z0 : Nat) : Nat × Nat × Nat :=
  let z := z0 + 719468
  let era := z / 146097
  let doe := z % 146097
  let yoe := (doe - doe / 1460 + doe / 36524 - doe / 146096) / 365
  let y := yoe + era * 400
  let doy := doe - (365 * yoe + yoe / 4 - yoe / 100)
  let mp := (5 * doy + 2) / 153
  let d := doy - (153 * mp + 2) / 5 + 1
  let m := if mp < 10 then mp + 3 else mp - 9
  (if m ≤ 2 then y + 1 else y, m, d)

def monthName (m : Nat) : List Char :=
  match m with
  | 1 => ['J', 'a', 'n']
  | 2 => ['F', 'e', 'b']
  | 3 => ['M', 'a', 'r']
  | 4 => ['A', 'p', 'r']
  | 5 => ['M', 'a', 'y']
  | 6 => ['J', 'u', 'n']
  | 7 => ['J', 'u', 'l']
  | 8 => ['A', 'u', 'g']
  | 9 => ['S', 'e', 'p']
  | 10 => ['O', 'c', 't']
  | 11 => ['N', 'o', 'v']
  | _ => ['D', 'e', 'c']

/-- The `time_t` obtained from a serial `value` (C truncates the product
toward zero when casting to `time_t`). -/
def serialToTime (value : Rat) : Int :=
  EXCEL_BASE_TIME + Rat.floor value * 86400 +
    (Rat.floor ((value - (Rat.floor value : Rat)) * 86400))

/-- Style indices of the `FormatStyle` enum (sheet.h). -/
def DATE_STYLE_MM_DD_YYYY : Nat := 0
def DATE_STYLE_DD_MM_YYYY : Nat := 1
def DATE_STYLE_YYYY_MM_DD : Nat := 2
def DATE_STYLE_MON_DD_YYYY : Nat := 3
def DATE_STYLE_DD_MON_YYYY : Nat := 4
def DATE_STYLE_YYYY_MON_DD : Nat := 5
def DATE_STYLE_SHORT_DATE : Nat := 6
def TIME_STYLE_12HR : Nat := 7
def TIME_STYLE_24HR : Nat := 8
def TIME_STYLE_SECONDS : Nat := 9
def TIME_STYLE_12HR_SECONDS : Nat := 10
def DATETIME_STYLE_SHORT : Nat := 11
def DATETIME_STYLE_LONG : Nat := 12
def DATETIME_STYLE_ISO : Nat := 13

/-- `format_number_as_date` (sheet.c). -/
def format_number_as_date (value : Rat) (style : Nat) : List Char :=
  let t := serialToTime value
  if t < 0 then ['#', 'D', 'A', 'T', 'E', '!']
  else
    let (y, m, d) := civilFromDays (t.toNat / 86400)
    if style = DATE_STYLE_MM_DD_YYYY then
      pad2 m ++ ['/'] ++ pad2 d ++ ['/'] ++ natToChars y
    else if style = DATE_STYLE_DD_MM_YYYY then
      pad2 d ++ ['/'] ++ pad2 m ++ ['/'] ++ natToChars y
    else if style = DATE_STYLE_MON_DD_YYYY then
      monthName m ++ [' '] ++ pad2 d ++ [',', ' '] ++ natToChars y
    else if style = DATE_STYLE_DD_MON_YYYY then
      pad2 d ++ [' '] ++ monthName m ++ [' '] ++ natToChars y
    else if style = DATE_STYLE_YYYY_MON_DD then
      natToChars y ++ [' '] ++ monthName m ++ [' '] ++ pad2 d
    else if style = DATE_STYLE_SHORT_DATE then
      pad2 m ++ ['/'] ++ pad2 d ++ ['/'] ++ pad2 (y % 100)
    else
      natToChars y ++ ['-'] ++ pad2 m ++ ['-'] ++ pad2 d

/-- The hours/minutes/seconds extracted from a serial's day fraction. -/
def timeParts (value : Rat) : Nat × Nat × Nat :=
  let frac := value - (Rat.floor value : Rat)
  let total := (Rat.floor (frac * 86400)).toNat
  (total / 3600, total % 3600 / 60, total % 60)

def hours12 (h : Nat) : Nat × List Char :=
  if h = 0 then (12, ['A', 'M'])
  else if h = 12 then (12, ['P', 'M'])
  else if h > 12 then (h - 12, ['P', 'M'])
  else (h, ['A', 'M'])

/-- `format_number_as_time` (sheet.c). -/
def format_number_as_time (value : Rat) (style : Nat) : List Char :=
  let (h, m, s) := timeParts value
  if style = TIME_STYLE_12HR then
    let (dh, ap) := hours12 h
    natToChars dh ++ [':'] ++ pad2 m ++ [' '] ++ ap
  else if style = TIME_STYLE_12HR_SECONDS then
    let (dh, ap) := hours12 h
    natToChars dh ++ [':'] ++ pad2 m ++ [':'] ++ pad2 s ++ [' '] ++ ap
  else if style = TIME_STYLE_SECONDS then
    pad2 h ++ [':'] ++ pad2 m ++ [':'] ++ pad2 s
  else
    pad2 h ++ [':'] ++ pad2 m

/-- `format_number_as_datetime` (sheet.c). -/
def format_number_as_datetime (value : Rat) (date_style time_style : Nat) :
    List Char :=
  format_number_as_date value date_style ++ [' '] ++
    format_number_as_time value time_style

/-- `format_number_as_enhanced_datetime` (sheet.c). -/
def format_number_as_enhanced_datetime (value : Rat) (style : Nat) : List Char :=
  let t := serialToTime value
  if t < 0 then ['#', 'D', 'A', 'T', 'E', '!']
  else
    let (y, mo, d) := civilFromDays (t.toNat / 86400)
    let (h, mi, s) := timeParts value
    if style = DATETIME_STYLE_SHORT then
      let (dh, ap) := hours12 h
      natToChars mo ++ ['/'] ++ natToChars d ++ ['/'] ++ pad2 (y % 100) ++ [' '] ++
        natToChars dh ++ [':'] ++ pad2 mi ++ [' '] ++ ap
    else if style = DATETIME_STYLE_LONG then
      let (dh, ap) := hours12 h
      monthName mo ++ [' '] ++ pad2 d ++ [',', ' '] ++ natToChars y ++ [' '] ++
        natToChars dh ++ [':'] ++ pad2 mi ++ [':'] ++ pad2 s ++ [' '] ++ ap
    else if style = DATETIME_STYLE_ISO then
      natToChars y ++ ['-'] ++ pad2 mo ++ ['-'] ++ pad2 d ++ ['T'] ++
        pad2 h ++ [':'] ++ pad2 mi ++ [':'] ++ pad2 s
    else
      format_number_as_datetime value DATE_STYLE_MM_DD_YYYY TIME_STYLE_12HR

/-! ### `format_cell_value` and the display entry points (sheet.c) -/

/-- `format_cell_value` (sheet.c). -/
def format_cell_value (cell? : Option Cell) : List Char :=
  match cell? with
  | Option.none => []
  | Option.some cell =>
    if cell.type = CellType.empty then []
    else
      match cell.type with
      | CellType.string => cell.string.data
      | CellType.formula =>
          if cell.error ≠ ErrorType.none then
            match cell.error with
            | ErrorType.divZero => "#DIV/0!".data
            | ErrorType.ref => "#REF!".data
            | ErrorType.value => "#VALUE!".data
            | ErrorType.parse => "#PARSE!".data
            | ErrorType.na => "#N/A!".data
            | _ => "#ERROR!".data
          else if cell.is_string_result ∧ cell.cached_string.isSome then
            (cell.cached_string.getD "").data
          else
            formatValueWithFormat cell cell.cached_value
      | CellType.number => formatValueWithFormat cell cell.number
      | _ => []
where
  /-- The numeric-format dispatch shared by the number and formula paths. -/
  formatValueWithFormat (cell : Cell) (value : Rat) : List Char :=
    match cell.format with
    | DataFormat.percentage => format_number_as_percentage value cell.precision
    | DataFormat.currency => format_number_as_currency value
    | DataFormat.date => format_number_as_date value cell.format_style
    | DataFormat.time => format_number_as_time value cell.format_style
    | DataFormat.datetime =>
        if cell.format_style = DATETIME_STYLE_SHORT ∨
           cell.format_style = DATETIME_STYLE_LONG ∨
           cell.format_style = DATETIME_STYLE_ISO then
          format_number_as_enhanced_datetime value cell.format_style
        else
          format_number_as_datetime value DATE_STYLE_MM_DD_YYYY TIME_STYLE_12HR
    | _ => stripZeros (formatFixed value cell.precision)

/-- `cell_get_display_value` (sheet.c). -/
def cell_get_display_value (cell? : Option Cell) : List Char :=
  format_cell_value cell?

/-- `sheet_get_display_value` (sheet.c). -/
def sheet_get_display_value (sheet : Sheet) (row col : Int) : List Char :=
  cell_get_display_value (sheet_get_cell sheet row col)

/-! ### The expression evaluator (sheet.c)

State for the recursive descent: the remaining input models the moving
`const char**`, `err` models the sticky `ErrorType*` out-parameter,
`readF` records whether any formula-typed cell was consulted during
evaluation (used to state the recalculation-consistency theorem), and
`ifRes` models the side effect of `func_if_enhanced` on the currently
evaluating cell (`Option.some Option.none` = reset only;
`Option.some (Option.some s)` = a string result was attached). -/

structure EvalSt where
  cs : List Char
  err : ErrorType := ErrorType.none
  readF : Bool := false
  ifRes : Option (Option String) := Option.none
deriving DecidableEq, Repr

def M (α : Type) := Sheet → EvalSt → α × EvalSt

instance : Monad M where
  pure a := fun _ st => (a, st)
  bind m k := fun s st =>
    let (a, st') := m s st
    k a s st'

def getRest : M (List Char) := fun _ st => (st.cs, st)

def setRest (cs : List Char) : M Unit := fun _ st => ((), { st with cs := cs })

def getErr : M ErrorType := fun _ st => (st.err, st)

def setErr (e : ErrorType) : M Unit := fun _ st => ((), { st with err := e })

/-- Fail like the C code: set the error and produce `0.0`. -/
def failWith (e : ErrorType) : M Rat := fun _ st => (0, { st with err := e })

def setIfRes (r : Option (Option String)) : M Unit :=
  fun _ st => ((), { st with ifRes := r })

/-- `skip_whitespace(expr)` as an action on the cursor. -/
def skipWs : M Unit := fun _ st => ((), { st with cs := skip_whitespace st.cs })

/-- The cell-value read of `parse_factor`'s single-reference branch. -/
def factorRefValue (row col : Int) : M Rat := fun s st =>
  match sheet_get_cell s row col with
  | Option.none => (0, st)
  | Option.some cell =>
    match cell.type with
    | CellType.empty => (0, st)
    | CellType.number => (cell.number, st)
    | CellType.formula =>
        let st := { st with readF := true }
        if cell.error ≠ ErrorType.none then (0, { st with err := cell.error })
        else (cell.cached_value, st)
    | _ => (0, { st with err := ErrorType.value })

/-- `get_cell_string_value` (sheet.c). -/
def get_cell_string_value (ref : List Char) : M (Option String) := fun s st =>
  match parse_cell_reference ref with
  | Option.none => (Option.none, st)
  | Option.some (row, col) =>
    match sheet_get_cell s row col with
    | Option.none => (Option.none, st)
    | Option.some cell =>
      match cell.type with
      | CellType.string => (Option.some cell.string, st)
      | CellType.formula =>
          let st := { st with readF := true }
          if cell.is_string_result ∧ cell.cached_string.isSome then
            (cell.cached_string, st)
          else (Option.none, st)
      | _ => (Option.none, st)

/-- One slot's treatment in `get_range_values` (sheet.c): the appended
values and whether a formula-typed cell was consulted. -/
def rangeCellStep (cell? : Option Cell) : List Rat × Bool :=
  match cell? with
  | Option.none => ([0], false)
  | Option.some cell =>
    match cell.type with
    | CellType.number => ([cell.number], false)
    | CellType.formula =>
        (if cell.error = ErrorType.none then [cell.cached_value] else [], true)
    | CellType.empty => ([0], false)
    | _ => ([], false)

/-- The index list of a C `for (i = a; i <= b; i++)` loop over ints. -/
def intRange (start : Int) (n : Nat) : List Int :=
  (List.range n).map (fun i => start + Int.ofNat i)

/-- One inner-loop iteration of `get_range_values`: nothing happens once
the cap is reached; otherwise the slot's values are appended and the
formula flag merged. -/
def grvStep (s : Sheet) (max_values : Nat) (row : Int)
    (acc : List Rat × Bool) (col : Int) : List Rat × Bool :=
  if max_values ≤ acc.1.length then acc
  else
    let (vs, f) := rangeCellStep (sheet_get_cell s row col)
    (acc.1 ++ vs, acc.2 || f)

/-- `get_range_values` (sheet.c): row-major collection over the rectangle
with the `max_values` cap (cells beyond the cap are not examined).
Returns the collected values and the formula-consulted flag. -/
def get_range_values (s : Sheet) (range : CellRange) (max_values : Nat) :
    List Rat × Bool :=
  let rowIdx := intRange range.start_row ((range.end_row - range.start_row + 1).toNat)
  let colIdx := intRange range.start_col ((range.end_col - range.start_col + 1).toNat)
  rowIdx.foldl
    (fun acc row => colIdx.foldl (grvStep s max_values row) acc)
    ([], false)

/-- `get_range_values` wrapped as an evaluator action. -/
def getRangeValuesM (range : CellRange) (max_values : Nat) : M (List Rat) :=
  fun s st =>
    let (vs, f) := get_range_values s range max_values
    (vs, { st with readF := st.readF || f })

/-! Aggregation functions (sheet.c). -/

def func_sum (values : List Rat) : Rat := values.foldl (· + ·) 0

def func_avg (values : List Rat) : Rat :=
  if values.length = 0 then 0 else func_sum values / (values.length : Rat)

def func_max (values : List Rat) : Rat :=
  match values with
  | [] => 0
  | v :: rest => rest.foldl max v

def func_min (values : List Rat) : Rat :=
  match values with
  | [] => 0
  | v :: rest => rest.foldl min v

/-- Insertion into a sorted list (ascending), modelling `qsort` with
`compare_double`. -/
def insertSorted (x : Rat) : List Rat → List Rat
  | [] => [x]
  | y :: ys => if x ≤ y then x :: y :: ys else y :: insertSorted x ys

def sortRats (l : List Rat) : List Rat := l.foldr insertSorted []

def func_median (values : List Rat) : Rat :=
  if values.length = 0 then 0
  else
    let sorted := sortRats values
    if values.length % 2 = 0 then
      (sorted.getD (values.length / 2 - 1) 0 + sorted.getD (values.length / 2) 0) / 2
    else sorted.getD (values.length / 2) 0

def func_mode (values : List Rat) : Rat :=
  match values with
  | [] => 0
  | v0 :: _ =>
      (values.enum.foldl
        (fun acc iv =>
          let cnt := 1 + ((values.drop (iv.1 + 1)).filter
            (fun w => |iv.2 - w| < FLOAT_COMPARISON_EPSILON)).length
          if acc.2 < cnt then (iv.2, cnt) else acc)
        (v0, 1)).1

/-- `func_power` (sheet.c) calls `pow`; the rational model is exact for
integral exponents (the only exponents exactly representable here) and
returns 0 otherwise. -/
def func_power (base exponent : Rat) : Rat :=
  if exponent.den = 1 then
    if 0 ≤ exponent.num then base ^ exponent.num.toNat
    else (base ^ exponent.num.natAbs)⁻¹
  else 0

def func_if (condition true_val false_val : Rat) : Rat :=
  if condition ≠ 0 then true_val else false_val

/-! ### `func_xlookup` (sheet.c) -/

/-- `strcmp` sign on character lists (byte order). -/
def strcmpChars : List Char → List Char → Int
  | [], [] => 0
  | [], _ :: _ => -1
  | _ :: _, [] => 1
  | a :: as, b :: bs =>
      if a.toNat < b.toNat then -1
      else if b.toNat < a.toNat then 1
      else strcmpChars as bs

/-- Numeric view of a cell in XLOOKUP's searches: the value (`Option.none`
means the cell is skipped) and whether a formula cell was consulted. -/
def xlookupNumCell (cell? : Option Cell) : Option Rat × Bool :=
  match cell? with
  | Option.none => (Option.none, false)
  | Option.some c =>
    match c.type with
    | CellType.number => (Option.some c.number, false)
    | CellType.formula =>
        (if c.error = ErrorType.none then Option.some c.cached_value else Option.none,
         true)
    | _ => (Option.none, false)

/-- The approximate-match "better match later" scan of `func_xlookup`. -/
def xlookupBetterScan (s : Sheet) (key cur : Rat) :
    List (Int × Int) → Bool × Bool
  | [] => (false, false)
  | (r, c) :: rest =>
      let (v?, f) := xlookupNumCell (sheet_get_cell s r c)
      match v? with
      | Option.none =>
          let (b, f2) := xlookupBetterScan s key cur rest
          (b, f || f2)
      | Option.some v =>
          if v ≤ key ∧ cur < v then (true, f)
          else
            let (b, f2) := xlookupBetterScan s key cur rest
            (b, f || f2)

/-- The search loop of `func_xlookup`.  Returns the found value
(`Option.none` = `#N/A!`) and the formula-consulted flag.  A matching
entry whose return-range counterpart is a text cell or an errored formula
continues the search (the C `break` out of the result `switch`). -/
def xlookupSearch (s : Sheet) (pos rpos : Nat → Int × Int)
    (lookup_str : Option String) (key : Rat) (exact : Bool) :
    List Nat → Option Rat × Bool
  | [] => (Option.none, false)
  | i :: rest =>
      let cont := fun (f : Bool) =>
        let (r, f2) := xlookupSearch s pos rpos lookup_str key exact rest
        (r, f || f2)
      match sheet_get_cell s (pos i).1 (pos i).2 with
      | Option.none => cont false
      | Option.some cell =>
          let (matched, mflag) :=
            match lookup_str with
            | Option.some ls =>
                match cell.type with
                | CellType.string =>
                    (decide (strcmpChars cell.string.data ls.data = 0), false)
                | CellType.formula =>
                    ((if cell.is_string_result ∧ cell.cached_string.isSome then
                        decide (strcmpChars (cell.cached_string.getD "").data ls.data = 0)
                      else false), true)
                | _ => (false, false)
            | Option.none =>
                let (v?, f) := xlookupNumCell (Option.some cell)
                match v? with
                | Option.none => (false, f)
                | Option.some v =>
                    if exact then (decide (|v - key| < FLOAT_COMPARISON_EPSILON), f)
                    else
                      if v ≤ key then
                        let (better, f2) :=
                          xlookupBetterScan s key v (rest.map pos)
                        (!better, f || f2)
                      else (false, f)
          if matched then
            match sheet_get_cell s (rpos i).1 (rpos i).2 with
            | Option.none => (Option.some 0, mflag)
            | Option.some rc =>
                match rc.type with
                | CellType.number => (Option.some rc.number, mflag)
                | CellType.formula =>
                    if rc.error = ErrorType.none then
                      (Option.some rc.cached_value, mflag || true)
                    else cont (mflag || true)
                | CellType.empty => (Option.some 0, mflag)
                | _ => cont mflag
          else cont mflag

/-- `func_xlookup` (sheet.c): returns value, error and the
formula-consulted flag. -/
def func_xlookup (s : Sheet) (lookup_value : Rat) (lookup_str : Option String)
    (lookup_array return_array : List Char) (exact_match : Bool) :
    Rat × ErrorType × Bool :=
  match parse_range lookup_array with
  | Option.none => (0, ErrorType.ref, false)
  | Option.some lr =>
    match parse_range return_array with
    | Option.none => (0, ErrorType.ref, false)
    | Option.some rr =>
      let lrows := lr.end_row - lr.start_row + 1
      let lcols := lr.end_col - lr.start_col + 1
      let rrows := rr.end_row - rr.start_row + 1
      let rcols := rr.end_col - rr.start_col + 1
      if lrows ≠ rrows ∨ lcols ≠ rcols then (0, ErrorType.ref, false)
      else
        let vertical := 1 < lrows
        let count := (if vertical then lrows else lcols).toNat
        let pos := fun (i : Nat) =>
          if vertical then (lr.start_row + (i : Int), lr.start_col)
          else (lr.start_row, lr.start_col + (i : Int))
        let rpos := fun (i : Nat) =>
          if vertical then (rr.start_row + (i : Int), rr.start_col)
          else (rr.start_row, rr.start_col + (i : Int))
        match xlookupSearch s pos rpos lookup_str lookup_value exact_match
          (List.range count) with
        | (Option.some v, f) => (v, ErrorType.none, f)
        | (Option.none, f) => (0, ErrorType.na, f)

/-! ### Pure scanners used by the recursive descent (sheet.c) -/

/-- Bounded `takeWhile` modelling the C extraction loops with their
buffer caps; returns the run and the remaining input. -/
def takeWhileCap (p : Char → Bool) : Nat → List Char → List Char × List Char
  | _, [] => ([], [])
  | 0, cs => ([], cs)
  | cap + 1, c :: cs =>
      if p c then
        let (a, b) := takeWhileCap p cap cs
        (c :: a, b)
      else ([], c :: cs)

/-- The argument scan of the `SUM`-family branch of `parse_function`:
consume until the parenthesis depth (starting at 1) returns to zero;
the closing parenthesis is not part of the argument and is skipped. -/
def scanArgEnd : List Char → Nat → List Char × List Char
  | [], _ => ([], [])
  | c :: cs, depth =>
      if c = '(' then
        let (a, b) := scanArgEnd cs (depth + 1)
        (c :: a, b)
      else if c = ')' then
        if depth = 1 then ([], cs)
        else
          let (a, b) := scanArgEnd cs (depth - 1)
          (c :: a, b)
      else
        let (a, b) := scanArgEnd cs depth
        (c :: a, b)

/-- The comma scan of the `IF` branch: stop at a depth-0 comma (left in
the remainder); parentheses adjust the depth, which may go negative. -/
def scanCommaD : List Char → Int → List Char × List Char
  | [], _ => ([], [])
  | c :: cs, depth =>
      if c = '(' then
        let (a, b) := scanCommaD cs (depth + 1)
        (c :: a, b)
      else if c = ')' then
        let (a, b) := scanCommaD cs (depth - 1)
        (c :: a, b)
      else if c = ',' ∧ depth = 0 then ([], c :: cs)
      else
        let (a, b) := scanCommaD cs depth
        (c :: a, b)

/-- The closing-parenthesis scan of the `IF` false branch: stop at a
depth-0 `)` (left in the remainder). -/
def scanCloseD : List Char → Int → List Char × List Char
  | [], _ => ([], [])
  | c :: cs, depth =>
      if c = '(' then
        let (a, b) := scanCloseD cs (depth + 1)
        (c :: a, b)
      else if c = ')' then
        if depth = 0 then ([], c :: cs)
        else
          let (a, b) := scanCloseD cs (depth - 1)
          (c :: a, b)
      else
        let (a, b) := scanCloseD cs depth
        (c :: a, b)

/-- The comparison-operator extraction of `evaluate_comparison`'s
string-comparison sniff. -/
def parseCmpOp : List Char → List Char × List Char
  | [] => ([], [])
  | c :: cs =>
      if c = '=' ∨ c = '<' ∨ c = '>' then
        match cs with
        | c2 :: cs2 =>
            if c2 = '=' ∨ (c2 = '>' ∧ c = '<') then ([c, c2], cs2) else ([c], cs)
        | [] => ([c], [])
      else ([], c :: cs)

/-! ### The recursive-descent arms

Each C parse function becomes an arm over the recursion knot `g`, which is
tied with an explicit fuel in `evalStep`. -/

inductive Tag where
  | cmp
  | arith
  | arithLoop (acc : Rat)
  | term
  | termLoop (acc : Rat)
  | factor
  | fn
deriving DecidableEq, Repr

/-- `func_xlookup` wrapped as an evaluator action (it resets and then
stores the error out-parameter). -/
def xlookupM (lookup_value : Rat) (lookup_str : Option String)
    (lookup_array return_array : List Char) (exact_match : Bool) : M Rat :=
  fun s st =>
    let (v, e, f) := func_xlookup s lookup_value lookup_str lookup_array
      return_array exact_match
    (v, { st with err := e, readF := st.readF || f })

/-- The single-cell argument case of the `SUM`-family branch of
`parse_function`; `Option.none` models the early `ERROR_VALUE` return. -/
def aggSingleCell (row col : Int) : M (Option (List Rat)) := fun s st =>
  match sheet_get_cell s row col with
  | Option.none => (Option.some [0], st)
  | Option.some cell =>
    match cell.type with
    | CellType.number => (Option.some [cell.number], st)
    | CellType.formula =>
        let st := { st with readF := true }
        if cell.error = ErrorType.none then (Option.some [cell.cached_value], st)
        else (Option.some [], st)
    | CellType.empty => (Option.some [0], st)
    | _ => (Option.none, { st with err := ErrorType.value })

/-- `evaluate_comparison` (sheet.c). -/
def armCmp (g : Tag → M Rat) : M Rat := do
  let p ← getRest
  let (left_ref, _) := takeWhileCap (fun c => c_isalpha c || c_isdigit c) 31 p
  let is_left := left_ref ≠ [] ∧ (parse_cell_reference left_ref).isSome
  let temp1 := skip_whitespace (p.drop left_ref.length)
  let (op, temp2) := parseCmpOp temp1
  let temp3 := skip_whitespace temp2
  if is_left ∧ op ≠ [] ∧ temp3.head? = Option.some '"' then do
    let ls? ← get_cell_string_value left_ref
    let (lit, _) := takeWhileCap (fun c => !(c = '"')) 255 (temp3.drop 1)
    let cmp := strcmpChars (ls?.getD "").data lit
    if op = ['='] then pure (if cmp = 0 then 1 else 0)
    else if op = ['<', '>'] then pure (if cmp ≠ 0 then 1 else 0)
    else if op = ['<'] then pure (if cmp < 0 then 1 else 0)
    else if op = ['<', '='] then pure (if cmp ≤ 0 then 1 else 0)
    else if op = ['>'] then pure (if 0 < cmp then 1 else 0)
    else if op = ['>', '='] then pure (if 0 ≤ cmp then 1 else 0)
    else failWith ErrorType.parse
  else do
    let left ← g Tag.arith
    let e ← getErr
    if e ≠ ErrorType.none then pure left
    else do
      skipWs
      let rest ← getRest
      match rest with
      | '>' :: t =>
          (match t with
          | '=' :: t2 => do
              setRest t2
              let right ← g Tag.arith
              pure (if right ≤ left then 1 else 0)
          | _ => do
              setRest t
              let right ← g Tag.arith
              pure (if right < left then 1 else 0))
      | '<' :: t =>
          (match t with
          | '=' :: t2 => do
              setRest t2
              let right ← g Tag.arith
              pure (if left ≤ right then 1 else 0)
          | '>' :: t2 => do
              setRest t2
              let right ← g Tag.arith
              pure (if left ≠ right then 1 else 0)
          | _ => do
              setRest t
              let right ← g Tag.arith
              pure (if left < right then 1 else 0))
      | '=' :: t => do
          setRest t
          let right ← g Tag.arith
          pure (if |left - right| < FLOAT_COMPARISON_EPSILON then 1 else 0)
      | _ => pure left

/-- `parse_arithmetic_expression` (sheet.c). -/
def armArith (g : Tag → M Rat) : M Rat := do
  let t ← g Tag.term
  let e ← getErr
  if e ≠ ErrorType.none then pure 0 else g (Tag.arithLoop t)

/-- The `+`/`-` loop of `parse_arithmetic_expression`. -/
def armArithLoop (g : Tag → M Rat) (acc : Rat) : M Rat := do
  skipWs
  let rest ← getRest
  match rest with
  | '+' :: t => do
      setRest t
      let r ← g Tag.term
      let e ← getErr
      if e ≠ ErrorType.none then pure 0 else g (Tag.arithLoop (acc + r))
  | '-' :: t => do
      setRest t
      let r ← g Tag.term
      let e ← getErr
      if e ≠ ErrorType.none then pure 0 else g (Tag.arithLoop (acc - r))
  | _ => pure acc

/-- `parse_term` (sheet.c). -/
def armTerm (g : Tag → M Rat) : M Rat := do
  let f ← g Tag.factor
  let e ← getErr
  if e ≠ ErrorType.none then pure 0 else g (Tag.termLoop f)

/-- The `*`/`/` loop of `parse_term`, including the divide-by-zero
check. -/
def armTermLoop (g : Tag → M Rat) (acc : Rat) : M Rat := do
  skipWs
  let rest ← getRest
  match rest with
  | '*' :: t => do
      setRest t
      let r ← g Tag.factor
      let e ← getErr
      if e ≠ ErrorType.none then pure 0 else g (Tag.termLoop (acc * r))
  | '/' :: t => do
      setRest t
      let r ← g Tag.factor
      let e ← getErr
      if e ≠ ErrorType.none then pure 0
      else if r = 0 then failWith ErrorType.divZero
      else g (Tag.termLoop (acc / r))
  | _ => pure acc

/-- `parse_factor` (sheet.c). -/
def armFactor (g : Tag → M Rat) : M Rat := do
  skipWs
  let rest ← getRest
  match rest with
  | '(' :: t => do
      setRest t
      let v ← g Tag.arith
      let e ← getErr
      if e ≠ ErrorType.none then pure 0
      else do
        skipWs
        let rest2 ← getRest
        match rest2 with
        | ')' :: t2 => do
            setRest t2
            pure v
        | _ => failWith ErrorType.parse
  | _ =>
      let la := skip_whitespace (rest.dropWhile (fun c => c_isalpha c))
      if la.head? = Option.some '(' then g Tag.fn
      else do
        let (ref_buf, rest') :=
          takeWhileCap (fun c => c_isalpha c || c_isdigit c || c = ':') 31 rest
        setRest rest'
        if ref_buf ≠ [] ∧ ref_buf.contains ':' then
          match parse_range ref_buf with
          | Option.some range => do
              let vals ← getRangeValuesM range 1000
              pure (func_sum vals)
          | Option.none => failWith ErrorType.parse
        else
          match (if ref_buf ≠ [] then parse_cell_reference ref_buf
                 else Option.none) with
          | Option.some (row, col) => factorRefValue row col
          | Option.none => do
              setRest rest
              let (v, consumed) := strtod rest
              if 0 < consumed then do
                setRest (rest.drop consumed)
                pure v
              else failWith ErrorType.parse

/-- The `SUM`/`AVG`/`MAX`/`MIN`/`MEDIAN`/`MODE` branch of
`parse_function`. -/
def aggArm (name : List Char) : M Rat := do
  skipWs
  let rest ← getRest
  let (arg, rest') := scanArgEnd rest 1
  if 256 ≤ arg.length then failWith ErrorType.parse
  else do
    let vals? ←
      if arg.contains ':' then
        match parse_range arg with
        | Option.some range => do
            let vs ← getRangeValuesM range MAX_RANGE_VALUES
            pure (Option.some vs)
        | Option.none => do
            let _ ← failWith ErrorType.parse
            pure Option.none
      else
        match parse_cell_reference arg with
        | Option.some (row, col) => aggSingleCell row col
        | Option.none =>
            let (v, consumed) := strtod arg
            if consumed = arg.length then pure (Option.some [v])
            else do
              let _ ← failWith ErrorType.parse
              pure Option.none
    match vals? with
    | Option.none => pure 0
    | Option.some vals => do
        setRest rest'
        pure (if name = "SUM".data then func_sum vals
          else if name = "AVG".data then func_avg vals
          else if name = "MAX".data then func_max vals
          else if name = "MIN".data then func_min vals
          else if name = "MEDIAN".data then func_median vals
          else func_mode vals)

/-- The `POWER` branch of `parse_function`. -/
def powerArm (g : Tag → M Rat) : M Rat := do
  skipWs
  let base ← g Tag.arith
  let e ← getErr
  if e ≠ ErrorType.none then pure 0
  else do
    skipWs
    let rest ← getRest
    match rest with
    | ',' :: t => do
        setRest t
        let exp ← g Tag.arith
        let e2 ← getErr
        if e2 ≠ ErrorType.none then pure 0
        else do
          skipWs
          let rest2 ← getRest
          match rest2 with
          | ')' :: t2 => do
              setRest t2
              pure (func_power base exp)
          | _ => failWith ErrorType.parse
    | _ => failWith ErrorType.parse

/-- One value branch of `IF`: either a quoted literal (no escape handling:
the scan stops at the first quote) or an arithmetic sub-expression parsed
from a bounded copy of the segment up to the delimiter.  `Option.none`
models the early error returns. -/
def ifValueArm (g : Tag → M Rat) (scanClose : Bool) :
    M (Option (Option (List Char) × Rat)) := do
  skipWs
  let rest ← getRest
  match rest with
  | '"' :: t =>
      let (lit, restL) := takeWhileCap (fun c => !(c = '"')) 255 t
      (match restL with
      | '"' :: t2 => do
          setRest t2
          pure (Option.some (Option.some lit, 0))
      | _ => do
          setRest restL
          let _ ← failWith ErrorType.parse
          pure Option.none)
  | _ =>
      let (seg, rest') :=
        if scanClose then scanCloseD rest 0 else scanCommaD rest 0
      if 256 ≤ seg.length then do
        let _ ← failWith ErrorType.parse
        pure Option.none
      else do
        setRest seg
        let v ← g Tag.arith
        let e ← getErr
        setRest rest'
        if e ≠ ErrorType.none then pure Option.none
        else pure (Option.some (Option.none, v))

/-- The `IF` branch of `parse_function`, including `func_if_enhanced`'s
reset-then-store side effect on the currently evaluating cell. -/
def ifArm (g : Tag → M Rat) : M Rat := do
  skipWs
  let save ← getRest
  let cond ← g Tag.cmp
  let e ← getErr
  if e ≠ ErrorType.none then pure 0
  else do
    let (_, rest1) := scanCommaD save 0
    setRest rest1
    match rest1 with
    | ',' :: t => do
        setRest t
        let tv? ← ifValueArm g false
        match tv? with
        | Option.none => pure 0
        | Option.some (tstr?, tval) => do
            skipWs
            let rest3 ← getRest
            match rest3 with
            | ',' :: t2 => do
                setRest t2
                let fv? ← ifValueArm g true
                match fv? with
                | Option.none => pure 0
                | Option.some (fstr?, fval) => do
                    skipWs
                    let rest4 ← getRest
                    match rest4 with
                    | ')' :: t3 => do
                        setRest t3
                        if tstr?.isSome ∨ fstr?.isSome then do
                          setIfRes (Option.some Option.none)
                          if cond ≠ 0 then
                            match tstr? with
                            | Option.some l => do
                                setIfRes (Option.some (Option.some (String.mk l)))
                                pure 1
                            | Option.none => pure tval
                          else
                            match fstr? with
                            | Option.some l => do
                                setIfRes (Option.some (Option.some (String.mk l)))
                                pure 0
                            | Option.none => pure fval
                        else pure (func_if cond tval fval)
                    | _ => failWith ErrorType.parse
            | _ => failWith ErrorType.parse
    | _ => failWith ErrorType.parse

/-- The tail of the `XLOOKUP` branch after the lookup key. -/
def xlookupAfterKey (g : Tag → M Rat) (key : Rat) (kstr : Option String) :
    M Rat := do
  skipWs
  let rest ← getRest
  match rest with
  | ',' :: t => do
      setRest t
      skipWs
      let rest2 ← getRest
      let (lookupArr, rest3) := takeWhileCap (fun c => !(c = ',')) 63 rest2
      setRest rest3
      skipWs
      let rest4 ← getRest
      match rest4 with
      | ',' :: t2 => do
          setRest t2
          skipWs
          let rest5 ← getRest
          let (returnArr, rest6) :=
            takeWhileCap (fun c => !(c = ',') && !(c = ')')) 63 rest5
          setRest rest6
          skipWs
          let rest7 ← getRest
          let ex? ←
            match rest7 with
            | ',' :: t3 => do
                setRest t3
                skipWs
                let mode ← g Tag.arith
                let e ← getErr
                if e ≠ ErrorType.none then pure Option.none
                else pure (Option.some (decide (mode = 0)))
            | _ => pure (Option.some true)
          match ex? with
          | Option.none => pure 0
          | Option.some ex => do
              skipWs
              let rest8 ← getRest
              match rest8 with
              | ')' :: t4 => do
                  setRest t4
                  xlookupM key kstr lookupArr returnArr ex
              | _ => failWith ErrorType.parse
      | _ => failWith ErrorType.parse
  | _ => failWith ErrorType.parse

/-- The `XLOOKUP` branch of `parse_function`. -/
def xlookupArm (g : Tag → M Rat) : M Rat := do
  skipWs
  let rest ← getRest
  match rest with
  | '"' :: t =>
      let (lit, restL) := takeWhileCap (fun c => !(c = '"')) 255 t
      (match restL with
      | '"' :: t2 => do
          setRest t2
          xlookupAfterKey g 0 (Option.some (String.mk lit))
      | _ => failWith ErrorType.parse)
  | _ => do
      let v ← g Tag.arith
      let e ← getErr
      if e ≠ ErrorType.none then pure 0
      else xlookupAfterKey g v Option.none

/-- `parse_function` (sheet.c): extract the name, expect `(`, dispatch. -/
def armFn (g : Tag → M Rat) : M Rat := do
  skipWs
  let rest ← getRest
  let (nameRaw, rest1) := takeWhileCap c_isalpha 31 rest
  let name := nameRaw.map c_toupper
  setRest rest1
  skipWs
  let rest2 ← getRest
  match rest2 with
  | '(' :: t => do
      setRest t
      if name = "XLOOKUP".data then xlookupArm g
      else if name = "SUM".data ∨ name = "AVG".data ∨ name = "MAX".data ∨
          name = "MIN".data ∨ name = "MEDIAN".data ∨ name = "MODE".data then
        aggArm name
      else if name = "POWER".data then powerArm g
      else if name = "IF".data then ifArm g
      else failWith ErrorType.parse
  | _ => failWith ErrorType.parse

/-- One dispatch layer of the recursive descent. -/
def evalArms (g : Tag → M Rat) : Tag → M Rat
  | Tag.cmp => armCmp g
  | Tag.arith => armArith g
  | Tag.arithLoop acc => armArithLoop g acc
  | Tag.term => armTerm g
  | Tag.termLoop acc => armTermLoop g acc
  | Tag.factor => armFactor g
  | Tag.fn => armFn g

/-- The fuelled recursion knot of the evaluator. -/
def evalStep : Nat → Tag → M Rat
  | 0, _ => failWith ErrorType.parse
  | n + 1, tag => evalArms (evalStep n) tag

/-- `evaluate_formula` (sheet.c): reset the error, strip a leading `=`,
evaluate as a comparison. -/
def evaluate_formula (fuel : Nat) (s : Sheet) (formula : List Char) :
    Rat × EvalSt :=
  let body := if formula.head? = Option.some '=' then formula.drop 1 else formula
  evalStep fuel Tag.cmp s
    { cs := body, err := ErrorType.none, readF := false, ifRes := Option.none }

/-! ### Recalculation (sheet.c) -/

/-- The row-major enumeration of formula cells built by
`sheet_recalculate_smart`. -/
def formulaCellsRowMajor (s : Sheet) : List (Nat × Nat) :=
  (List.range s.rows).flatMap fun r =>
    (List.range s.cols).filterMap fun c =>
      match s.cells r c with
      | Option.some cell =>
          if cell.type = CellType.formula then Option.some (r, c) else Option.none
      | Option.none => Option.none

/-- One evaluation of the recalculation sweep: run the evaluator on the
cell's expression, store the value and error, and apply the pending
`func_if_enhanced` write to `cached_string` / `is_string_result`. -/
def recalcCellStep (fuel : Nat) (s : Sheet) (rc : Nat × Nat) : Sheet :=
  match s.cells rc.1 rc.2 with
  | Option.none => s
  | Option.some cell =>
      let (v, st) := evaluate_formula fuel s cell.expression.data
      let cell' := { cell with cached_value := v, error := st.err }
      let cell'' :=
        match st.ifRes with
        | Option.none => cell'
        | Option.some Option.none =>
            { cell' with cached_string := Option.none, is_string_result := false }
        | Option.some (Option.some str) =>
            { cell' with cached_string := Option.some str, is_string_result := true }
      sheet_put_cell s rc.1 rc.2 (Option.some cell'')

/-- `sheet_recalculate_smart` (sheet.c): a single row-major sweep over all
formula cells. -/
def sheet_recalculate_smart (fuel : Nat) (s : Sheet) : Sheet :=
  (formulaCellsRowMajor s).foldl (recalcCellStep fuel) s

/-- `sheet_recalculate` (sheet.c): no-op without `needs_recalc`; clears
the flag afterwards. -/
def sheet_recalculate (fuel : Nat) (s : Sheet) : Sheet :=
  if !s.needs_recalc then s
  else { sheet_recalculate_smart fuel s with needs_recalc := false }

/-! ### Cell copy and range paste (sheet.c) -/

/-- `sheet_copy_cell` (sheet.c). -/
def sheet_copy_cell (fuel : Nat) (s : Sheet)
    (src_row src_col dest_row dest_col : Int) : Sheet :=
  match sheet_get_cell s src_row src_col with
  | Option.none => sheet_clear_cell s dest_row dest_col
  | Option.some src =>
      let s1 :=
        match src.type with
        | CellType.number => sheet_set_number s dest_row dest_col src.number
        | CellType.string => sheet_set_string s dest_row dest_col src.string
        | CellType.formula => sheet_set_formula s dest_row dest_col src.expression
        | _ => sheet_clear_cell s dest_row dest_col
      let s2 :=
        match sheet_get_cell s1 dest_row dest_col with
        | Option.none => s1
        | Option.some dest =>
            sheet_put_cell s1 dest_row.toNat dest_col.toNat
              (Option.some { dest with
                width := src.width
                precision := src.precision
                align := src.align
                text_color := src.text_color
                background_color := src.background_color
                row_height := src.row_height })
      sheet_recalculate fuel s2

/-- One destination slot of `sheet_paste_range` (sheet.c). -/
def paste_cell_step (start_row start_col : Int) (clip : RangeClipboard)
    (s : Sheet) (i j : Nat) : Sheet :=
  let dest_row := start_row + (i : Int)
  let dest_col := start_col + (j : Int)
  if dest_row ≥ (s.rows : Int) || dest_col ≥ (s.cols : Int) then s
  else
    match clip.cells i j with
    | Option.some src =>
        (match sheet_get_or_create_cell s dest_row dest_col with
        | Option.none => s
        | Option.some (dest, s') =>
            let d1 :=
              match src.type with
              | CellType.number => cell_set_number dest src.number
              | CellType.string => cell_set_string dest src.string
              | CellType.formula => cell_set_formula dest src.expression
              | _ => cell_clear dest
            sheet_put_cell s' dest_row.toNat dest_col.toNat
              (Option.some { d1 with
                width := src.width
                precision := src.precision
                align := src.align
                format := src.format
                format_style := src.format_style }))
    | Option.none => sheet_clear_cell s dest_row dest_col

/-- `sheet_paste_range` (sheet.c): write the clipboard block with its
top-left at `(start_row, start_col)`, clipping at the sheet bounds, then
recalculate. -/
def sheet_paste_range (fuel : Nat) (s : Sheet) (start_row start_col : Int) :
    Sheet :=
  if !s.range_clipboard.is_active then s
  else
    let clip := s.range_clipboard
    let s' := (List.range clip.rows).foldl
      (fun s i => (List.range clip.cols).foldl
        (fun s j => paste_cell_step start_row start_col clip s i j) s)
      s
    sheet_recalculate fuel s'

/-! ### CSV codec (sheet.c) -/

/-- `escape_csv_string` (sheet.c). -/
def escape_csv_string (str : List Char) : List Char :=
  let needs_escape := str.any (fun c => c = ',' || c = '\n' || c = '\r' || c = '"')
  if !needs_escape then str
  else
    '"' :: (str.flatMap (fun c => if c = '"' then ['"', '"'] else [c])) ++ ['"']

/-- The quoted-field loop of `parse_csv_field`: content and remainder
(after the closing quote); stops at end of line. -/
def quotedLoop : List Char → List Char × List Char
  | [] => ([], [])
  | '"' :: '"' :: cs =>
      let (a, b) := quotedLoop cs
      ('"' :: a, b)
  | '"' :: cs => ([], cs)
  | c :: cs =>
      if c = '\n' ∨ c = '\r' then ([], c :: cs)
      else
        let (a, b) := quotedLoop cs
        (c :: a, b)

/-- Strip trailing spaces and tabs (the unquoted-field trim). -/
def trimTrailing (cs : List Char) : List Char :=
  (cs.reverse.dropWhile (fun c => c = ' ' || c = '\t')).reverse

/-- `parse_csv_field` (sheet.c): returns the field (`Option.none` models
the NULL empty-field-at-end return), the rest of the line, and `is_end`. -/
def parse_csv_field (line : List Char) : Option (List Char) × List Char × Bool :=
  let p := line.dropWhile (fun c => c = ' ' || c = '\t')
  match p with
  | [] => (Option.none, [], true)
  | c :: _ =>
    if c = '\n' ∨ c = '\r' then (Option.none, p, true)
    else if c = '"' then
      let (content, rest) := quotedLoop (p.drop 1)
      let rest2 := rest.dropWhile
        (fun c => !(c = ',' || c = '\n' || c = '\r'))
      match rest2 with
      | ',' :: t => (Option.some content, t, false)
      | _ => (Option.some content, rest2, true)
    else
      let raw := p.takeWhile (fun c => !(c = ',' || c = '\n' || c = '\r'))
      let rest := p.drop raw.length
      let content := trimTrailing raw
      match rest with
      | ',' :: t => (Option.some content, t, false)
      | _ => (Option.some content, rest, true)

/-- The used-range computation of `sheet_save_csv`. -/
def slotNonEmpty (s : Sheet) (r c : Nat) : Bool :=
  match s.cells r c with
  | Option.some cell => cell.type ≠ CellType.empty
  | Option.none => false

def csvMaxRow (s : Sheet) : Nat :=
  (List.range s.rows).foldl
    (fun m r => if (List.range s.cols).any (fun c => slotNonEmpty s r c) then
      max m r else m) 0

def csvMaxCol (s : Sheet) : Nat :=
  (List.range s.cols).foldl
    (fun m c => if (List.range s.rows).any (fun r => slotNonEmpty s r c) then
      max m c else m) 0

/-- One field of `sheet_save_csv`'s output. -/
def csvField (s : Sheet) (preserve : Bool) (r c : Nat) : List Char :=
  match s.cells r c with
  | Option.some cell =>
      if cell.type = CellType.empty then []
      else if preserve ∧ cell.type = CellType.formula then
        escape_csv_string cell.expression.data
      else
        let dv := sheet_get_display_value s (r : Int) (c : Int)
        if 0 < dv.length then escape_csv_string dv else []
  | Option.none => []

/-- `sheet_save_csv` (sheet.c): the emitted file content. -/
def sheet_save_csv (s : Sheet) (preserve : Bool) : List Char :=
  let max_row := csvMaxRow s
  let max_col := csvMaxCol s
  ((List.range (max_row + 1)).map fun r =>
    ((List.range (max_col + 1)).map fun c =>
      (if 0 < c then [','] else []) ++ csvField s preserve r c).flatten
    ++ ['\n']).flatten

/-- One `fgets` read into the 4096-byte line buffer: up to 4095
characters, stopping after a newline. -/
def fgetsChunk (cs : List Char) : List Char × List Char :=
  let head := cs.take 4095
  match head.findIdx? (fun c => c = '\n') with
  | Option.some i => (cs.take (i + 1), cs.drop (i + 1))
  | Option.none => (head, cs.drop 4095)

/-- The sequence of lines produced by repeated `fgets` calls (fuelled by
the content length). -/
def fgetsLines : Nat → List Char → List (List Char)
  | 0, _ => []
  | _, [] => []
  | fuel + 1, cs =>
      let (a, b) := fgetsChunk cs
      a :: fgetsLines fuel b

/-- Store one CSV field per `sheet_load_csv`'s classification. -/
def csvStoreField (s : Sheet) (preserve : Bool) (row col : Nat)
    (f : List Char) : Sheet :=
  if preserve ∧ f.head? = Option.some '=' then
    sheet_set_formula s (row : Int) (col : Int) (String.mk f)
  else
    let (v, consumed) := strtod f
    if consumed = f.length then sheet_set_number s (row : Int) (col : Int) v
    else sheet_set_string s (row : Int) (col : Int) (String.mk f)

/-- The field loop of `sheet_load_csv` over one line (the counter is the
number of remaining columns, so the loop is bounded as in C by
`col < sheet->cols`). -/
def loadFields (preserve : Bool) (row : Nat) :
    Nat → Nat → Sheet → List Char → Sheet
  | 0, _, s, _ => s
  | n + 1, col, s, rest =>
      let (field?, rest', is_end) := parse_csv_field rest
      let s' :=
        match field? with
        | Option.some f => if 0 < f.length then csvStoreField s preserve row col f else s
        | Option.none => s
      if is_end then s' else loadFields preserve row n (col + 1) s' rest'

/-- `sheet_load_csv` (sheet.c).  The file is modelled as
`Option (List Char)`: `Option.none` is a failed `fopen`, in which case the
function returns 0 before touching the sheet. -/
def sheet_load_csv (fuel : Nat) (s : Sheet) (file : Option (List Char))
    (preserve : Bool) : Sheet × Bool :=
  match file with
  | Option.none => (s, false)
  | Option.some content =>
      let s1 := (List.range s.rows).foldl
        (fun (s2 : Sheet) (r : Nat) => (List.range s.cols).foldl
          (fun (s3 : Sheet) (c : Nat) =>
            sheet_clear_cell s3 (Int.ofNat r) (Int.ofNat c)) s2) s
      let lines := fgetsLines content.length content
      let s2 := ((lines.take s1.rows).enum.foldl
        (fun s (row_line : Nat × List Char) =>
          loadFields preserve row_line.1 s.cols 0 s row_line.2) s1)
      let s3 := if preserve then sheet_recalculate fuel s2 else s2
      (s3, true)

/-! ### Operation words over the public API

Used to quantify over "any sequence of operations" in the invariant
claims. -/

/-- The sizing operations of the public API. -/
inductive SizeOp where
  | setW (col width : Int)
  | setH (row height : Int)
  | resizeW (start_col end_col delta : Int)
  | resizeH (start_row end_row delta : Int)

def applySizeOp (s : Sheet) : SizeOp → Sheet
  | SizeOp.setW col width => sheet_set_column_width s col width
  | SizeOp.setH row height => sheet_set_row_height s row height
  | SizeOp.resizeW a b d => sheet_resize_columns_in_range s a b d
  | SizeOp.resizeH a b d => sheet_resize_rows_in_range s a b d

def applySizeOps (s : Sheet) (ops : List SizeOp) : Sheet :=
  ops.foldl applySizeOp s

/-- The public mutations of the sheet API (the `fuel` arguments belong to
the operations that trigger recalculation). -/
inductive Op where
  | setNumber (row col : Int) (value : Rat)
  | setString (row col : Int) (str : String)
  | setFormula (row col : Int) (formula : String)
  | clearCell (row col : Int)
  | insertRow (row : Int)
  | insertColumn (col : Int)
  | deleteRow (row : Int)
  | deleteColumn (col : Int)
  | startSelection (row col : Int)
  | extendSelection (row col : Int)
  | clearSelection
  | copyRange
  | pasteRange (fuel : Nat) (row col : Int)
  | copyCell (fuel : Nat) (src_row src_col dest_row dest_col : Int)
  | sizing (op : SizeOp)
  | recalculate (fuel : Nat)

def applyOp (s : Sheet) : Op → Sheet
  | Op.setNumber r c v => sheet_set_number s r c v
  | Op.setString r c str => sheet_set_string s r c str
  | Op.setFormula r c f => sheet_set_formula s r c f
  | Op.clearCell r c => sheet_clear_cell s r c
  | Op.insertRow r => sheet_insert_row s r
  | Op.insertColumn c => sheet_insert_column s c
  | Op.deleteRow r => sheet_delete_row s r
  | Op.deleteColumn c => sheet_delete_column s c
  | Op.startSelection r c => sheet_start_range_selection s r c
  | Op.extendSelection r c => sheet_extend_range_selection s r c
  | Op.clearSelection => sheet_clear_range_selection s
  | Op.copyRange => sheet_copy_range s
  | Op.pasteRange fuel r c => sheet_paste_range fuel s r c
  | Op.copyCell fuel sr sc dr dc => sheet_copy_cell fuel s sr sc dr dc
  | Op.sizing op => applySizeOp s op
  | Op.recalculate fuel => sheet_recalculate fuel s

def applyOps (s : Sheet) (ops : List Op) : Sheet :=
  ops.foldl applyOp s

/-- The position-stamping invariant of claim-level interest: every stored
cell carries its own slot coordinates. -/
def WellStamped (s : Sheet) : Prop :=
  ∀ r c cell, s.cells r c = Option.some cell → cell.row = r ∧ cell.col = c

/-- The numeric contribution of one slot as collected by
`get_range_values`: errored formulas and text cells contribute nothing
(modelled as 0 for the purposes of `SUM`), empty slots contribute 0. -/
def cellContrib (cell? : Option Cell) : Rat :=
  match cell? with
  | Option.none => 0
  | Option.some cell =>
    match cell.type with
    | CellType.number => cell.number
    | CellType.formula => if cell.error = ErrorType.none then cell.cached_value else 0
    | _ => 0

/-- The specification-level sum over a rectangle of the per-cell numeric
contributions. -/
def rangeContribSum (s : Sheet) (range : CellRange) : Rat :=
  ((intRange range.start_row ((range.end_row - range.start_row + 1).toNat)).map
    fun r =>
      ((intRange range.start_col ((range.end_col - range.start_col + 1).toNat)).map
        fun c => cellContrib (sheet_get_cell s r c)).sum).sum

/-- Example fixture: a sheet where the range `A1:A2` contains an errored
formula (`=1/0` at A1) and the number 5 at A2, with `=SUM(A1:A2)` at B2. -/
def exampleSumErrSheet : Sheet :=
  sheet_set_formula
    (sheet_set_number (sheet_set_formula (sheet_new 3 3) 0 0 "=1/0") 1 0 5)
    1 1 "=SUM(A1:A2)"

/-- Two sheets that agree on everything the evaluator reads outside the
formula caches: dimensions, slot occupancy, cell kinds, numbers and
strings (the cache fields `cached_value`, `cached_string`,
`is_string_result` and `error` are only consulted on formula-typed cells,
which the `readF` flag records). -/
def Agree (s t : Sheet) : Prop :=
  s.rows = t.rows ∧ s.cols = t.cols ∧
  ∀ r c : Nat,
    match s.cells r c, t.cells r c with
    | Option.none, Option.none => True
    | Option.some a, Option.some b =>
        a.type = b.type ∧ a.number = b.number ∧ a.string = b.string
    | _, _ => False

/-- A computation that never clears the formula-consulted flag and whose
result depends only on the `Agree` class of the sheet whenever it
consults no formula cell. -/
def GoodM {α : Type} (m : M α) : Prop :=
  (∀ s st, st.readF = true → (m s st).2.readF = true) ∧
  (∀ s t st, Agree s t → (m t st).2.readF = false → m s st = m t st)

/-- The cell written by one recalculation step for an existing cell. -/
def recalcResult (fuel : Nat) (u : Sheet) (cell : Cell) : Cell :=
  let (v, st) := evaluate_formula fuel u cell.expression.data
  let cell' := { cell with cached_value := v, error := st.err }
  match st.ifRes with
  | Option.none => cell'
  | Option.some Option.none =>
      { cell' with cached_string := Option.none, is_string_result := false }
  | Option.some (Option.some str) =>
      { cell' with cached_string := Option.some str, is_string_result := true }

/-- Prefixes (after optional leading whitespace and sign) that the C
library `strtod` called by the loader and by `parse_factor` can convert
beyond the decimal forms modelled by `strtod` above: hexadecimal floats
(`0x…`/`0X…`) and the case-insensitive `INF`/`INFINITY`/`NAN` spellings
(C99 7.20.1.3).  On text free of these prefixes the library accepts
exactly the decimal forms, so the decimal model classifies it the same
way the real program does. -/
def libStrtodPrefix (cs : List Char) : Bool :=
  let rest := cs.dropWhile c_isspace
  let body :=
    match rest with
    | '+' :: t => t
    | '-' :: t => t
    | t => t
  match body.map c_toupper with
  | '0' :: 'X' :: _ => true
  | 'I' :: 'N' :: 'F' :: _ => true
  | 'N' :: 'A' :: 'N' :: _ => true
  | _ => false

/-- Text that survives the CSV round-trip verbatim: nonempty, free of the
separator/quote/newline characters, no leading or trailing blank to trim,
not formula-classified (leading `=`), not number-classified (a full
`strtod` parse), and free of the hex/`INF`/`NAN` prefixes that only the
library `strtod` accepts, so the decimal model is faithful on it. -/
def csvSafeText (f : List Char) : Bool :=
  (f ≠ ([] : List Char)) &&
  f.all (fun c => !(c = ',' || c = '\n' || c = '\r' || c = '"')) &&
  (match f.head? with
   | Option.some c => !(c = ' ' || c = '\t' || c = '=')
   | Option.none => true) &&
  (match f.getLast? with
   | Option.some c => !(c = ' ' || c = '\t')
   | Option.none => true) &&
  !(strtodFull f) &&
  !(libStrtodPrefix f)

/-- A slot acceptable to the restricted round-trip: absent, an
empty-typed cell, or a string cell with safe text. -/
def cellTextOK (cell? : Option Cell) : Bool :=
  match cell? with
  | Option.none => true
  | Option.some cell =>
      decide (cell.type = CellType.empty) ||
      (decide (cell.type = CellType.string) && csvSafeText cell.string.data)

/-- All in-range slots of the sheet are round-trip safe. -/
def TextOnlySheet (s : Sheet) : Prop :=
  ∀ r, r < s.rows → ∀ c, c < s.cols → cellTextOK (s.cells r c) = true

/-- One CSV line as the concatenation of its fields, comma-separated,
newline-terminated. -/
def joinLine : List (List Char) → List Char
  | [] => ['\n']
  | [f] => f ++ ['\n']
  | f :: g :: rest => f ++ ',' :: joinLine (g :: rest)

/-- The field list of one saved row. -/
def fieldsOf (s : Sheet) (r : Nat) : List (List Char) :=
  (List.range (csvMaxCol s + 1)).map (fun c => csvField s true r c)

/-- The effect of loading one line of safe text fields: store each
nonempty field as a string cell in consecutive columns. -/
def applyFields (row : Nat) : Nat → Sheet → List (List Char) → Sheet
  | _, s, [] => s
  | col, s, f :: rest =>
      applyFields row (col + 1)
        (if 0 < f.length then
          sheet_set_string s (row : Int) (col : Int) (String.mk f)
         else s) rest

/-- The formula text `=SUM(<ref1>:<ref2>)` over two printed cell
references. -/
def sumFormulaText (r1 c1 r2 c2 : Nat) : List Char :=
  '=' :: 'S' :: 'U' :: 'M' :: '(' ::
    ((cell_reference_to_string r1 c1 ++ ':' :: cell_reference_to_string r2 c2)
      ++ [')'])

/-- Example fixture: a number cell carrying a non-default format. -/
def exampleFormatCell : Cell :=
  cell_set_format (cell_set_number (cell_new 0 0) 5) DataFormat.currency 3

/-- Example fixture: a 2×2 sheet holding `exampleFormatCell` at (0,0). -/
def exampleFormatSheet : Sheet :=
  sheet_put_cell (sheet_new 2 2) 0 0 (Option.some exampleFormatCell)

/-! ### Lemmas: the reference grammar round-trips -/

theorem upperChar_facts (d : Nat) (h : d < 26) :
    c_isalpha (Char.ofNat (65 + d)) = true ∧
    c_isdigit (Char.ofNat (65 + d)) = false ∧
    c_isspace (Char.ofNat (65 + d)) = false ∧
    c_toupper (Char.ofNat (65 + d)) = Char.ofNat (65 + d) ∧
    (Char.ofNat (65 + d)).toNat = 65 + d := by
  interval_cases d <;> exact ⟨by decide, by decide, by decide, by decide, by decide⟩

theorem digitChar_facts (d : Nat) (h : d < 10) :
    c_isdigit (Char.ofNat (48 + d)) = true ∧
    c_isalpha (Char.ofNat (48 + d)) = false ∧
    c_isspace (Char.ofNat (48 + d)) = false ∧
    (Char.ofNat (48 + d)).toNat = 48 + d := by
  interval_cases d <;> exact ⟨by decide, by decide, by decide, by decide⟩

theorem colLettersAux_mem {f m : Nat} {c : Char} (h : c ∈ colLettersAux f m) :
    ∃ d, d < 26 ∧ c = Char.ofNat (65 + d) := by
  induction f generalizing m with
  | zero => cases m <;> simp [colLettersAux] at h
  | succ f ih =>
      cases m with
      | zero => simp [colLettersAux] at h
      | succ m =>
          simp only [colLettersAux, List.mem_append, List.mem_singleton] at h
          rcases h with h | h
          · exact ih h
          · exact ⟨m % 26, Nat.mod_lt _ (by norm_num), h⟩

theorem natDigitsAux_mem {f m : Nat} {c : Char} (h : c ∈ natDigitsAux f m) :
    ∃ d, d < 10 ∧ c = Char.ofNat (48 + d) := by
  induction f generalizing m with
  | zero => cases m <;> simp [natDigitsAux] at h
  | succ f ih =>
      cases m with
      | zero => simp [natDigitsAux] at h
      | succ m =>
          simp only [natDigitsAux, List.mem_append, List.mem_singleton] at h
          rcases h with h | h
          · exact ih h
          · exact ⟨(m + 1) % 10, Nat.mod_lt _ (by norm_num), h⟩

theorem parseColRun_append {L : List Char} (rest : List Char) (acc : Int)
    (hL : ∀ c ∈ L, c_isalpha c = true) :
    parseColRun (L ++ rest) acc = parseColRun rest (L.foldl colStep acc) := by
  induction L generalizing acc with
  | nil => simp
  | cons c cs ih =>
      simp only [List.cons_append, parseColRun, hL c (by simp), if_true, List.foldl]
      exact ih _ fun x hx => hL x (by simp [hx])

theorem parseRowRun_append {L : List Char} (rest : List Char) (acc : Int)
    (hL : ∀ c ∈ L, c_isdigit c = true) :
    parseRowRun (L ++ rest) acc = parseRowRun rest (L.foldl rowStep acc) := by
  induction L generalizing acc with
  | nil => simp
  | cons c cs ih =>
      simp only [List.cons_append, parseRowRun, hL c (by simp), if_true, List.foldl]
      exact ih _ fun x hx => hL x (by simp [hx])

theorem colLettersAux_foldl : ∀ f m, m ≤ f →
    (colLettersAux f m).foldl colStep 0 = (m : Int) := by
  intro f
  induction f with
  | zero => intro m hm; interval_cases m; simp [colLettersAux]
  | succ f ih =>
      intro m hm
      cases m with
      | zero => simp [colLettersAux]
      | succ m =>
          have hrec : m / 26 ≤ f :=
            le_trans (Nat.div_le_self m 26) (Nat.lt_succ_iff.mp hm)
          have hfacts := upperChar_facts (m % 26) (Nat.mod_lt _ (by norm_num))
          simp only [colLettersAux, List.foldl_append, ih _ hrec, List.foldl,
            colStep, hfacts.2.2.2.1, hfacts.2.2.2.2]
          push_cast
          have := Nat.div_add_mod m 26
          omega

theorem natDigitsAux_foldl : ∀ f m, m ≤ f →
    (natDigitsAux f m).foldl rowStep 0 = (m : Int) := by
  intro f
  induction f with
  | zero => intro m hm; interval_cases m; simp [natDigitsAux]
  | succ f ih =>
      intro m hm
      cases m with
      | zero => simp [natDigitsAux]
      | succ m =>
          have hrec : (m + 1) / 10 ≤ f := by
            have := Nat.div_lt_self (Nat.succ_pos m) (by norm_num : 1 < 10)
            omega
          have hfacts := digitChar_facts ((m + 1) % 10) (Nat.mod_lt _ (by norm_num))
          simp only [natDigitsAux, List.foldl_append, ih _ hrec, List.foldl,
            rowStep, hfacts.2.2.2]
          push_cast
          have := Nat.div_add_mod (m + 1) 10
          omega

theorem colLettersAux_ne_nil (m : Nat) : colLettersAux (m + 1) (m + 1) ≠ [] := by
  simp [colLettersAux]

theorem natDigitsAux_ne_nil (m : Nat) : natDigitsAux (m + 1) (m + 1) ≠ [] := by
  simp [natDigitsAux]

theorem parse_of_print (row col : Nat)
    (h : (colLettersAux (col + 1) (col + 1)).length +
         (natDigitsAux (row + 1) (row + 1)).length ≤ 15) :
    parse_cell_reference (cell_reference_to_string row col) =
      Option.some ((row : Int), (col : Int)) := by
  have hLalpha : ∀ c ∈ colLettersAux (col + 1) (col + 1), c_isalpha c = true := by
    intro c hc
    obtain ⟨d, hd, rfl⟩ := colLettersAux_mem hc
    exact (upperChar_facts d hd).1
  have hLspace : ∀ c ∈ colLettersAux (col + 1) (col + 1), c_isspace c = false := by
    intro c hc
    obtain ⟨d, hd, rfl⟩ := colLettersAux_mem hc
    exact (upperChar_facts d hd).2.2.1
  have hDdigit : ∀ c ∈ natDigitsAux (row + 1) (row + 1), c_isdigit c = true := by
    intro c hc
    obtain ⟨d, hd, rfl⟩ := natDigitsAux_mem hc
    exact (digitChar_facts d hd).1
  have hDalpha : ∀ c ∈ natDigitsAux (row + 1) (row + 1), c_isalpha c = false := by
    intro c hc
    obtain ⟨d, hd, rfl⟩ := natDigitsAux_mem hc
    exact (digitChar_facts d hd).2.1
  obtain ⟨l0, L', hLeq⟩ := List.exists_cons_of_ne_nil (colLettersAux_ne_nil col)
  obtain ⟨d0, D', hDeq⟩ := List.exists_cons_of_ne_nil (natDigitsAux_ne_nil row)
  have hprint : cell_reference_to_string row col =
      colLettersAux (col + 1) (col + 1) ++ natDigitsAux (row + 1) (row + 1) := by
    unfold cell_reference_to_string
    exact List.take_of_length_le (by simpa using h)
  have hl0 : l0 ∈ colLettersAux (col + 1) (col + 1) := by simp [hLeq]
  have hd0 : d0 ∈ natDigitsAux (row + 1) (row + 1) := by simp [hDeq]
  have hsw : skip_whitespace
      (colLettersAux (col + 1) (col + 1) ++ natDigitsAux (row + 1) (row + 1)) =
      l0 :: (L' ++ natDigitsAux (row + 1) (row + 1)) := by
    rw [hLeq]
    simp [skip_whitespace, hLspace l0 hl0]
  have hcolrun : parseColRun
      (l0 :: (L' ++ natDigitsAux (row + 1) (row + 1))) 0 =
      ((col : Int) + 1, natDigitsAux (row + 1) (row + 1)) := by
    have : l0 :: (L' ++ natDigitsAux (row + 1) (row + 1)) =
        colLettersAux (col + 1) (col + 1) ++ natDigitsAux (row + 1) (row + 1) := by
      rw [hLeq]; simp
    rw [this, parseColRun_append _ _ hLalpha, hDeq, parseColRun,
      hDalpha d0 hd0]
    simp only [Bool.false_eq_true, if_false, ← hDeq]
    rw [colLettersAux_foldl (col + 1) (col + 1) le_rfl]
    push_cast
    ring_nf
  have hrowrun : parseRowRun (natDigitsAux (row + 1) (row + 1)) 0 =
      ((row : Int) + 1, []) := by
    have : natDigitsAux (row + 1) (row + 1) =
        natDigitsAux (row + 1) (row + 1) ++ [] := by simp
    rw [this, parseRowRun_append _ _ hDdigit, parseRowRun,
      natDigitsAux_foldl (row + 1) (row + 1) le_rfl]
    push_cast
    ring_nf
  unfold parse_cell_reference
  rw [hprint, hsw]
  simp only [hLalpha l0 hl0, not_true, if_false, hcolrun, hrowrun]
  rw [hDeq]
  simp only [hDdigit d0 hd0, not_true, Bool.not_eq_true, Bool.true_eq_false,
    if_false, skip_whitespace, if_true]
  norm_num



/-! ### Lemmas: evaluator application equations -/

theorem M_bind_apply {α β : Type} (m : M α) (k : α → M β) (s : Sheet)
    (st : EvalSt) :
    (m >>= k) s st = k (m s st).1 s (m s st).2 := rfl

theorem M_pure_apply {α : Type} (a : α) (s : Sheet) (st : EvalSt) :
    (pure a : M α) s st = (a, st) := rfl

theorem getRest_apply (s : Sheet) (st : EvalSt) : getRest s st = (st.cs, st) := rfl

theorem setRest_apply (cs : List Char) (s : Sheet) (st : EvalSt) :
    setRest cs s st = ((), { st with cs := cs }) := rfl

theorem getErr_apply (s : Sheet) (st : EvalSt) : getErr s st = (st.err, st) := rfl

theorem skipWs_apply (s : Sheet) (st : EvalSt) :
    skipWs s st = ((), { st with cs := skip_whitespace st.cs }) := rfl

theorem failWith_apply (e : ErrorType) (s : Sheet) (st : EvalSt) :
    failWith e s st = (0, { st with err := e }) := rfl

theorem getRangeValuesM_apply (range : CellRange) (mx : Nat) (s : Sheet)
    (st : EvalSt) :
    getRangeValuesM range mx s st =
      ((get_range_values s range mx).1,
        { st with readF := st.readF || (get_range_values s range mx).2 }) := rfl

/-! ### Lemmas: characters of printed references -/

theorem printRef_mem {row col : Nat} {c : Char}
    (h : c ∈ cell_reference_to_string row col) :
    (∃ d, d < 26 ∧ c = Char.ofNat (65 + d)) ∨
    (∃ d, d < 10 ∧ c = Char.ofNat (48 + d)) := by
  unfold cell_reference_to_string at h
  have h2 := List.mem_of_mem_take h
  rcases List.mem_append.mp h2 with h3 | h3
  · exact Or.inl (colLettersAux_mem h3)
  · exact Or.inr (natDigitsAux_mem h3)

theorem printChar_classes {c : Char}
    (h : (∃ d, d < 26 ∧ c = Char.ofNat (65 + d)) ∨
         (∃ d, d < 10 ∧ c = Char.ofNat (48 + d))) :
    c ≠ '(' ∧ c ≠ ')' ∧ c ≠ ':' ∧ c ≠ ',' ∧ c ≠ '"' ∧
    c_isspace c = false ∧ (c_isalpha c || c_isdigit c) = true := by
  rcases h with ⟨d, hd, rfl⟩ | ⟨d, hd, rfl⟩ <;> interval_cases d <;>
    exact ⟨by decide, by decide, by decide, by decide, by decide, by decide,
      by decide⟩

theorem skip_whitespace_not_space {c : Char} (h : c_isspace c = false)
    (cs : List Char) : skip_whitespace (c :: cs) = c :: cs := by
  unfold skip_whitespace
  rw [h]
  simp

/-- `scanArgEnd` over paren-free text followed by the closing paren. -/
theorem scanArgEnd_no_paren {xs : List Char}
    (h : ∀ c ∈ xs, c ≠ '(' ∧ c ≠ ')') (rest : List Char) :
    scanArgEnd (xs ++ ')' :: rest) 1 = (xs, rest) := by
  induction xs with
  | nil => simp [scanArgEnd]
  | cons c cs ih =>
      have hc := h c (by simp)
      simp only [List.cons_append, scanArgEnd, if_neg hc.1, if_neg hc.2,
        List.append_eq]
      rw [ih (fun x hx => h x (by simp [hx]))]

/-- `splitFirstColon` over colon-free text followed by an explicit colon. -/
theorem splitFirstColon_append {xs : List Char} (h : ∀ c ∈ xs, c ≠ ':')
    (rest : List Char) :
    splitFirstColon (xs ++ ':' :: rest) = Option.some (xs, rest) := by
  induction xs with
  | nil => simp [splitFirstColon]
  | cons c cs ih =>
      have hc := h c (by simp)
      simp only [List.cons_append, splitFirstColon, if_neg hc, List.append_eq]
      rw [ih (fun x hx => h x (by simp [hx]))]

/-- `takeWhileCap` over a run whose characters all satisfy the predicate,
followed by a breaking character. -/
theorem takeWhileCap_append {p : Char → Bool} {xs : List Char}
    (hall : ∀ c ∈ xs, p c = true) (hlen : xs.length ≤ cap) {b : Char}
    (hb : p b = false) (rest : List Char) :
    takeWhileCap p cap (xs ++ b :: rest) = (xs, b :: rest) := by
  induction xs generalizing cap with
  | nil =>
      cases cap with
      | zero => simp [takeWhileCap, hb]
      | succ n => simp [takeWhileCap, hb]
  | cons c cs ih =>
      cases cap with
      | zero => exact absurd hlen (by simp)
      | succ n =>
          simp only [List.cons_append, takeWhileCap, hall c (by simp), if_true,
            List.append_eq]
          rw [ih (fun x hx => hall x (by simp [hx])) (by simpa using hlen)]

/-! ### Lemmas: `get_range_values` without the cap -/

theorem rangeCellStep_len (cell? : Option Cell) :
    (rangeCellStep cell?).1.length ≤ 1 := by
  cases cell? with
  | none => simp [rangeCellStep]
  | some cell =>
      cases h : cell.type <;> simp only [rangeCellStep, h] <;>
        first
        | simp
        | (split_ifs <;> simp)

theorem rangeCellStep_sum (cell? : Option Cell) :
    (rangeCellStep cell?).1.sum = cellContrib cell? := by
  cases cell? with
  | none => simp [rangeCellStep, cellContrib]
  | some cell =>
      cases h : cell.type <;> simp [rangeCellStep, cellContrib, h]
      split_ifs <;> simp

theorem func_sum_eq_sum (l : List Rat) : func_sum l = l.sum := by
  have h : ∀ (l : List Rat) (a : Rat), l.foldl (· + ·) a = a + l.sum := by
    intro l
    induction l with
    | nil => intro a; simp
    | cons x xs ih => intro a; simp [List.foldl_cons, ih, add_assoc]
  simpa using h l 0

theorem sum_flatMap {α : Type} (f : α → List Rat) (l : List α) :
    (l.flatMap f).sum = (l.map fun x => (f x).sum).sum := by
  induction l with
  | nil => simp
  | cons x xs ih => simp [ih]

theorem intRange_length (start : Int) (n : Nat) : (intRange start n).length = n := by
  unfold intRange
  rw [List.length_map, List.length_range]

/-- Unfolding of one `grvStep` application. -/
theorem grvStep_eq (s : Sheet) (mx : Nat) (row : Int) (acc : List Rat × Bool)
    (col : Int) :
    grvStep s mx row acc col =
      if mx ≤ acc.1.length then acc
      else (acc.1 ++ (rangeCellStep (sheet_get_cell s row col)).1,
            acc.2 || (rangeCellStep (sheet_get_cell s row col)).2) := by
  unfold grvStep
  cases rangeCellStep (sheet_get_cell s row col)
  rfl

/-- One row of `get_range_values`'s fold, below the cap. -/
theorem grv_cols (s : Sheet) (row : Int) (colIdx : List Int) (mx : Nat) :
    ∀ acc : List Rat × Bool, acc.1.length + colIdx.length ≤ mx →
      (colIdx.foldl (grvStep s mx row) acc).1 =
      acc.1 ++ colIdx.flatMap
        (fun col => (rangeCellStep (sheet_get_cell s row col)).1) := by
  induction colIdx with
  | nil => intro acc _; simp
  | cons col rest ih =>
      intro acc hlen
      simp only [List.length_cons] at hlen
      have hnot : ¬ mx ≤ acc.1.length := by omega
      have hstep := rangeCellStep_len (sheet_get_cell s row col)
      rw [List.foldl_cons, grvStep_eq, if_neg hnot]
      rw [ih ((acc.1 ++ (rangeCellStep (sheet_get_cell s row col)).1,
        acc.2 || (rangeCellStep (sheet_get_cell s row col)).2)) (by
          simp only [List.length_append]
          omega)]
      simp [List.append_assoc]

theorem grv_cols_len (s : Sheet) (row : Int) (colIdx : List Int) (mx : Nat) :
    ∀ acc : List Rat × Bool,
      (colIdx.foldl (grvStep s mx row) acc).1.length ≤
        acc.1.length + colIdx.length := by
  induction colIdx with
  | nil => intro acc; simp
  | cons col rest ih =>
      intro acc
      rw [List.foldl_cons, grvStep_eq]
      by_cases hc : mx ≤ acc.1.length
      · rw [if_pos hc]
        have h1 := ih acc
        simp only [List.length_cons]
        omega
      · rw [if_neg hc]
        have h2 := rangeCellStep_len (sheet_get_cell s row col)
        have h1 := ih ((acc.1 ++ (rangeCellStep (sheet_get_cell s row col)).1,
          acc.2 || (rangeCellStep (sheet_get_cell s row col)).2))
        simp only [List.length_append] at h1
        simp only [List.length_cons]
        omega

/-- Below the cap, `get_range_values` collects exactly the row-major
per-cell contributions. -/
theorem get_range_values_list (s : Sheet) (range : CellRange) (mx : Nat)
    (hsz : (range.end_row - range.start_row + 1).toNat *
           (range.end_col - range.start_col + 1).toNat ≤ mx) :
    (get_range_values s range mx).1 =
      (intRange range.start_row ((range.end_row - range.start_row + 1).toNat)).flatMap
        fun r =>
        ((intRange range.start_col ((range.end_col - range.start_col + 1).toNat)).flatMap
          fun c => (rangeCellStep (sheet_get_cell s r c)).1) := by
  unfold get_range_values
  set rowIdx := intRange range.start_row ((range.end_row - range.start_row + 1).toNat)
    with hrowIdx
  set colIdx := intRange range.start_col ((range.end_col - range.start_col + 1).toNat)
    with hcolIdx
  have hlenr : rowIdx.length = (range.end_row - range.start_row + 1).toNat := by
    rw [hrowIdx, intRange_length]
  have hlenc : colIdx.length = (range.end_col - range.start_col + 1).toNat := by
    rw [hcolIdx, intRange_length]
  have main : ∀ (rows : List Int) (acc : List Rat × Bool),
      acc.1.length + rows.length * colIdx.length ≤ mx →
      (rows.foldl (fun acc row => colIdx.foldl (grvStep s mx row) acc) acc).1 =
      acc.1 ++ rows.flatMap (fun r => colIdx.flatMap
        (fun c => (rangeCellStep (sheet_get_cell s r c)).1)) := by
    intro rows
    induction rows with
    | nil => intro acc _; simp
    | cons row rest ihr =>
        intro acc hlen
        simp only [List.foldl_cons]
        simp only [List.length_cons, Nat.succ_mul] at hlen
        have hinner := grv_cols s row colIdx mx acc (by omega)
        have hinnerlen := grv_cols_len s row colIdx mx acc
        rw [ihr _ (by omega)]
        rw [hinner]
        simp [List.append_assoc]
  have hfin := main rowIdx ([], false) (by
    simp only [List.length_nil, Nat.zero_add, hlenr, hlenc]
    exact hsz)
  simpa using hfin

theorem sheet_get_cell_eq (s : Sheet) (row col : Int) :
    sheet_get_cell s row col =
      if 0 ≤ row ∧ row < (s.rows : Int) ∧ 0 ≤ col ∧ col < (s.cols : Int) then
        s.cells row.toNat col.toNat
      else Option.none := by
  unfold sheet_get_cell
  split_ifs with h1 h2
  · simp only [Bool.or_eq_true, decide_eq_true_eq] at h1
    omega
  · rfl
  · rfl
  · simp only [Bool.or_eq_true, decide_eq_true_eq, not_or, not_lt, not_le] at h1
    omega

theorem sheet_get_or_create_cell_eq (s : Sheet) (row col : Int)
    (h : 0 ≤ row ∧ row < (s.rows : Int) ∧ 0 ≤ col ∧ col < (s.cols : Int)) :
    sheet_get_or_create_cell s row col =
      match s.cells row.toNat col.toNat with
      | Option.some cell => Option.some (cell, s)
      | Option.none =>
          Option.some (cell_new row.toNat col.toNat,
            sheet_put_cell s row.toNat col.toNat
              (Option.some (cell_new row.toNat col.toNat))) := by
  unfold sheet_get_or_create_cell
  have : (row < 0 || row ≥ (s.rows : Int) || col < 0 || col ≥ (s.cols : Int)) = false := by
    simp only [Bool.or_eq_false_iff, decide_eq_false_iff_not, not_lt, not_le]
    omega
  rw [this]
  simp

theorem sheet_get_or_create_cell_oob (s : Sheet) (row col : Int)
    (h : ¬ (0 ≤ row ∧ row < (s.rows : Int) ∧ 0 ≤ col ∧ col < (s.cols : Int))) :
    sheet_get_or_create_cell s row col = Option.none := by
  unfold sheet_get_or_create_cell
  have : (row < 0 || row ≥ (s.rows : Int) || col < 0 || col ≥ (s.cols : Int)) = true := by
    simp only [Bool.or_eq_true, decide_eq_true_eq]
    omega
  rw [this]
  rfl

theorem sheet_put_cell_cells (s : Sheet) (row col : Nat) (v : Option Cell)
    (r c : Nat) :
    (sheet_put_cell s row col v).cells r c =
      if r = row ∧ c = col then v else s.cells r c := rfl

/-! ### Lemmas: sizing bounds (claim C5) -/

/-- The restriction forced by the counterexample: direct width/height sets
must not exceed the maximum, because `sheet_set_column_width` and
`sheet_set_row_height` do not clamp from above. -/
def sizeOpBounded : SizeOp → Prop
  | SizeOp.setW _ width => width ≤ MAX_COLUMN_WIDTH
  | SizeOp.setH _ height => height ≤ MAX_ROW_HEIGHT
  | _ => True

def SizeInv (s : Sheet) : Prop :=
  (∀ c, MIN_COLUMN_WIDTH ≤ s.col_widths c ∧ s.col_widths c ≤ MAX_COLUMN_WIDTH) ∧
  (∀ r, MIN_ROW_HEIGHT ≤ s.row_heights r ∧ s.row_heights r ≤ MAX_ROW_HEIGHT)

theorem sizeInv_step {s : Sheet} (hs : SizeInv s) (op : SizeOp)
    (hb : sizeOpBounded op) : SizeInv (applySizeOp s op) := by
  obtain ⟨hw, hh⟩ := hs
  cases op with
  | setW col width =>
      simp only [sizeOpBounded] at hb
      simp only [applySizeOp, sheet_set_column_width]
      split_ifs with hg
      · exact ⟨hw, hh⟩
      · simp only [Bool.or_eq_true, decide_eq_true_eq, not_or, not_lt] at hg
        refine ⟨fun c => ?_, hh⟩
        dsimp only
        split_ifs with hc
        · exact ⟨by simpa [MIN_COLUMN_WIDTH] using hg.2, hb⟩
        · exact hw c
  | setH row height =>
      simp only [sizeOpBounded] at hb
      simp only [applySizeOp, sheet_set_row_height]
      split_ifs with hg
      · exact ⟨hw, hh⟩
      · simp only [Bool.or_eq_true, decide_eq_true_eq, not_or, not_lt] at hg
        refine ⟨hw, fun r => ?_⟩
        dsimp only
        split_ifs with hr
        · exact ⟨by simpa [MIN_ROW_HEIGHT] using hg.2, hb⟩
        · exact hh r
  | resizeW a b d =>
      simp only [applySizeOp, sheet_resize_columns_in_range]
      split_ifs with hg
      · exact ⟨hw, hh⟩
      · refine ⟨fun c => ?_, hh⟩
        dsimp only
        split_ifs with hc
        · unfold clampWidth MIN_COLUMN_WIDTH MAX_COLUMN_WIDTH
          split_ifs <;> omega
        · exact hw c
  | resizeH a b d =>
      simp only [applySizeOp, sheet_resize_rows_in_range]
      split_ifs with hg
      · exact ⟨hw, hh⟩
      · refine ⟨hw, fun r => ?_⟩
        dsimp only
        split_ifs with hr
        · unfold clampHeight MIN_ROW_HEIGHT MAX_ROW_HEIGHT
          split_ifs <;> omega
        · exact hh r

theorem sizeInv_ops {ops : List SizeOp} :
    ∀ {s : Sheet}, SizeInv s → (∀ op ∈ ops, sizeOpBounded op) →
      SizeInv (applySizeOps s ops) := by
  induction ops with
  | nil => intro s hs _; exact hs
  | cons op rest ih =>
      intro s hs hb
      exact ih (sizeInv_step hs op (hb op (by simp)))
        (fun o ho => hb o (by simp [ho]))

theorem sizeInv_new (rows cols : Nat) : SizeInv (sheet_new rows cols) := by
  constructor
  · intro c
    exact ⟨by norm_num [sheet_new, DEFAULT_COLUMN_WIDTH, MIN_COLUMN_WIDTH],
      by norm_num [sheet_new, DEFAULT_COLUMN_WIDTH, MAX_COLUMN_WIDTH]⟩
  · intro r
    exact ⟨by norm_num [sheet_new, MIN_ROW_HEIGHT],
      by norm_num [sheet_new, MAX_ROW_HEIGHT]⟩

/-! ### Lemmas: the position-stamping invariant (claim C7) -/

theorem wellStamped_of_cells_eq {s s' : Sheet} (h : WellStamped s)
    (he : s'.cells = s.cells) : WellStamped s' := by
  intro r c cell hc
  exact h r c cell (by rw [← he]; exact hc)

theorem wellStamped_put {s : Sheet} (h : WellStamped s) {row col : Nat}
    {v : Option Cell}
    (hv : ∀ cell, v = Option.some cell → cell.row = row ∧ cell.col = col) :
    WellStamped (sheet_put_cell s row col v) := by
  intro r c cell hc
  rw [sheet_put_cell_cells] at hc
  by_cases hrc : r = row ∧ c = col
  · rw [if_pos hrc] at hc
    obtain ⟨h1, h2⟩ := hv cell hc
    exact ⟨by rw [hrc.1]; exact h1, by rw [hrc.2]; exact h2⟩
  · rw [if_neg hrc] at hc
    exact h r c cell hc

/-- Reading an existing slot of a well-stamped sheet yields a cell stamped
with that slot's coordinates. -/
theorem wellStamped_get {s : Sheet} (h : WellStamped s) {row col : Int}
    {cell : Cell} (hg : sheet_get_cell s row col = Option.some cell) :
    cell.row = row.toNat ∧ cell.col = col.toNat := by
  rw [sheet_get_cell_eq] at hg
  by_cases hb : 0 ≤ row ∧ row < (s.rows : Int) ∧ 0 ≤ col ∧ col < (s.cols : Int)
  · rw [if_pos hb] at hg
    exact h _ _ _ hg
  · rw [if_neg hb] at hg
    exact absurd hg (by simp)

theorem wellStamped_goc {s : Sheet} (h : WellStamped s) {row col : Int}
    {cell : Cell} {s' : Sheet}
    (hg : sheet_get_or_create_cell s row col = Option.some (cell, s')) :
    WellStamped s' ∧ cell.row = row.toNat ∧ cell.col = col.toNat := by
  by_cases hb : 0 ≤ row ∧ row < (s.rows : Int) ∧ 0 ≤ col ∧ col < (s.cols : Int)
  · rw [sheet_get_or_create_cell_eq s row col hb] at hg
    cases hc : s.cells row.toNat col.toNat with
    | some c0 =>
        rw [hc] at hg
        simp only [Option.some.injEq, Prod.mk.injEq] at hg
        obtain ⟨h1, h2⟩ := hg
        obtain ⟨hr, hcc⟩ := h _ _ _ hc
        subst h1
        subst h2
        exact ⟨h, hr, hcc⟩
    | none =>
        rw [hc] at hg
        simp only [Option.some.injEq, Prod.mk.injEq] at hg
        obtain ⟨h1, h2⟩ := hg
        subst h1
        subst h2
        refine ⟨wellStamped_put h ?_, rfl, rfl⟩
        intro c0 hc0
        obtain rfl := Option.some.inj hc0
        exact ⟨rfl, rfl⟩
  · rw [sheet_get_or_create_cell_oob s row col hb] at hg
    exact absurd hg (by simp)

theorem ws_set_number {s : Sheet} (h : WellStamped s) (row col : Int) (v : Rat) :
    WellStamped (sheet_set_number s row col v) := by
  unfold sheet_set_number
  cases hg : sheet_get_or_create_cell s row col with
  | none => exact h
  | some p =>
      obtain ⟨cell, s'⟩ := p
      obtain ⟨hws, hr, hc⟩ := wellStamped_goc h hg
      have hv : ∀ c0, Option.some (cell_set_number cell v) = Option.some c0 →
          c0.row = row.toNat ∧ c0.col = col.toNat := by
        intro c0 hc0
        obtain rfl := Option.some.inj hc0
        exact ⟨hr, hc⟩
      exact wellStamped_of_cells_eq (wellStamped_put hws hv) rfl

theorem ws_set_string {s : Sheet} (h : WellStamped s) (row col : Int)
    (str : String) : WellStamped (sheet_set_string s row col str) := by
  unfold sheet_set_string
  cases hg : sheet_get_or_create_cell s row col with
  | none => exact h
  | some p =>
      obtain ⟨cell, s'⟩ := p
      obtain ⟨hws, hr, hc⟩ := wellStamped_goc h hg
      refine wellStamped_put hws ?_
      intro c0 hc0
      obtain rfl := Option.some.inj hc0
      exact ⟨hr, hc⟩

theorem ws_set_formula {s : Sheet} (h : WellStamped s) (row col : Int)
    (f : String) : WellStamped (sheet_set_formula s row col f) := by
  unfold sheet_set_formula
  cases hg : sheet_get_or_create_cell s row col with
  | none => exact h
  | some p =>
      obtain ⟨cell, s'⟩ := p
      obtain ⟨hws, hr, hc⟩ := wellStamped_goc h hg
      have hv : ∀ c0, Option.some (cell_set_formula cell f) = Option.some c0 →
          c0.row = row.toNat ∧ c0.col = col.toNat := by
        intro c0 hc0
        obtain rfl := Option.some.inj hc0
        exact ⟨hr, hc⟩
      exact wellStamped_of_cells_eq (wellStamped_put hws hv) rfl

theorem ws_clear_cell {s : Sheet} (h : WellStamped s) (row col : Int) :
    WellStamped (sheet_clear_cell s row col) := by
  unfold sheet_clear_cell
  cases hg : sheet_get_cell s row col with
  | none => exact h
  | some cell =>
      obtain ⟨hr, hc⟩ := wellStamped_get h hg
      have hv : ∀ c0, Option.some (cell_clear cell) = Option.some c0 →
          c0.row = row.toNat ∧ c0.col = col.toNat := by
        intro c0 hc0
        obtain rfl := Option.some.inj hc0
        exact ⟨hr, hc⟩
      exact wellStamped_of_cells_eq (wellStamped_put h hv) rfl

theorem ws_foldl {α : Type} {f : Sheet → α → Sheet}
    (hf : ∀ s a, WellStamped s → WellStamped (f s a)) :
    ∀ (l : List α) (s : Sheet), WellStamped s → WellStamped (l.foldl f s) := by
  intro l
  induction l with
  | nil => intro s hs; exact hs
  | cons a rest ih => intro s hs; exact ih _ (hf s a hs)

theorem ws_insert_row_step {s : Sheet} (h : WellStamped s) (r : Nat) :
    WellStamped (insert_row_step s r) := by
  intro r' c cell hc
  unfold insert_row_step at hc
  dsimp only at hc
  by_cases hcols : c < s.cols
  · rw [if_pos hcols] at hc
    by_cases hr : r' = r
    · rw [if_pos hr] at hc
      cases hx : s.cells (r - 1) c with
      | some x =>
          rw [hx] at hc
          obtain rfl := Option.some.inj hc
          exact ⟨hr.symm, (h _ _ _ hx).2⟩
      | none =>
          rw [hx] at hc
          exact h _ _ _ hc
    · rw [if_neg hr] at hc
      by_cases hr1 : r' = r - 1
      · rw [if_pos hr1] at hc
        cases hx : s.cells (r - 1) c with
        | some x => rw [hx] at hc; exact absurd hc (by simp)
        | none => rw [hx] at hc; exact h _ _ _ hc
      · rw [if_neg hr1] at hc
        exact h _ _ _ hc
  · rw [if_neg hcols] at hc
    exact h _ _ _ hc

theorem ws_insert_col_step {s : Sheet} (h : WellStamped s) (c0 : Nat) :
    WellStamped (insert_col_step s c0) := by
  intro r c' cell hc
  unfold insert_col_step at hc
  dsimp only at hc
  by_cases hrows : r < s.rows
  · rw [if_pos hrows] at hc
    by_cases hcc : c' = c0
    · rw [if_pos hcc] at hc
      cases hx : s.cells r (c0 - 1) with
      | some x =>
          rw [hx] at hc
          obtain rfl := Option.some.inj hc
          exact ⟨(h _ _ _ hx).1, hcc.symm⟩
      | none =>
          rw [hx] at hc
          exact h _ _ _ hc
    · rw [if_neg hcc] at hc
      by_cases hc1 : c' = c0 - 1
      · rw [if_pos hc1] at hc
        cases hx : s.cells r (c0 - 1) with
        | some x => rw [hx] at hc; exact absurd hc (by simp)
        | none => rw [hx] at hc; exact h _ _ _ hc
      · rw [if_neg hc1] at hc
        exact h _ _ _ hc
  · rw [if_neg hrows] at hc
    exact h _ _ _ hc

theorem ws_delete_row_step {s : Sheet} (h : WellStamped s) (r : Nat) :
    WellStamped (delete_row_step s r) := by
  intro r' c cell hc
  unfold delete_row_step at hc
  dsimp only at hc
  by_cases hcols : c < s.cols
  · rw [if_pos hcols] at hc
    by_cases hr : r' = r
    · rw [if_pos hr] at hc
      cases hx : s.cells (r + 1) c with
      | some x =>
          rw [hx] at hc
          obtain rfl := Option.some.inj hc
          exact ⟨hr.symm, (h _ _ _ hx).2⟩
      | none =>
          rw [hx] at hc
          exact h _ _ _ hc
    · rw [if_neg hr] at hc
      by_cases hr1 : r' = r + 1
      · rw [if_pos hr1] at hc
        cases hx : s.cells (r + 1) c with
        | some x => rw [hx] at hc; exact absurd hc (by simp)
        | none => rw [hx] at hc; exact h _ _ _ hc
      · rw [if_neg hr1] at hc
        exact h _ _ _ hc
  · rw [if_neg hcols] at hc
    exact h _ _ _ hc

theorem ws_delete_col_step {s : Sheet} (h : WellStamped s) (c0 : Nat) :
    WellStamped (delete_col_step s c0) := by
  intro r c' cell hc
  unfold delete_col_step at hc
  dsimp only at hc
  by_cases hrows : r < s.rows
  · rw [if_pos hrows] at hc
    by_cases hcc : c' = c0
    · rw [if_pos hcc] at hc
      cases hx : s.cells r (c0 + 1) with
      | some x =>
          rw [hx] at hc
          obtain rfl := Option.some.inj hc
          exact ⟨(h _ _ _ hx).1, hcc.symm⟩
      | none =>
          rw [hx] at hc
          exact h _ _ _ hc
    · rw [if_neg hcc] at hc
      by_cases hc1 : c' = c0 + 1
      · rw [if_pos hc1] at hc
        cases hx : s.cells r (c0 + 1) with
        | some x => rw [hx] at hc; exact absurd hc (by simp)
        | none => rw [hx] at hc; exact h _ _ _ hc
      · rw [if_neg hc1] at hc
        exact h _ _ _ hc
  · rw [if_neg hrows] at hc
    exact h _ _ _ hc

/-- A sheet whose cells are those of a well-stamped sheet with some slots
forced empty is well-stamped. -/
theorem ws_masked {s s' : Sheet} (h : WellStamped s)
    (he : ∀ r c, s'.cells r c = s.cells r c ∨ s'.cells r c = Option.none) :
    WellStamped s' := by
  intro r c cell hc
  cases he r c with
  | inl h1 => exact h r c cell (by rw [← h1]; exact hc)
  | inr h1 => rw [h1] at hc; exact absurd hc (by simp)

theorem ws_insert_row {s : Sheet} (h : WellStamped s) (row : Int) :
    WellStamped (sheet_insert_row s row) := by
  unfold sheet_insert_row
  split_ifs with hg
  · exact h
  · dsimp only
    refine ws_masked (ws_foldl (fun s r hs => ws_insert_row_step hs r)
      ((List.range' (row.toNat + 1) (s.rows - 1 - row.toNat)).reverse) s h) ?_
    intro r c
    dsimp only
    split_ifs with hrc
    · exact Or.inr rfl
    · exact Or.inl rfl

theorem ws_insert_column {s : Sheet} (h : WellStamped s) (col : Int) :
    WellStamped (sheet_insert_column s col) := by
  unfold sheet_insert_column
  split_ifs with hg
  · exact h
  · dsimp only
    refine ws_masked (ws_foldl (fun s c hs => ws_insert_col_step hs c)
      ((List.range' (col.toNat + 1) (s.cols - 1 - col.toNat)).reverse) s h) ?_
    intro r c
    dsimp only
    split_ifs with hrc
    · exact Or.inr rfl
    · exact Or.inl rfl

theorem ws_delete_row {s : Sheet} (h : WellStamped s) (row : Int) :
    WellStamped (sheet_delete_row s row) := by
  unfold sheet_delete_row
  split_ifs with hg
  · exact h
  · have h0 : WellStamped { s with cells := fun r c =>
        if r = row.toNat ∧ c < s.cols then Option.none else s.cells r c } := by
      refine ws_masked h ?_
      intro r c
      dsimp only
      split_ifs with hrc
      · exact Or.inr rfl
      · exact Or.inl rfl
    dsimp only
    refine ws_masked (ws_foldl (fun s r hs => ws_delete_row_step hs r)
      (List.range' row.toNat (s.rows - 1 - row.toNat)) _ h0) ?_
    intro r c
    dsimp only
    split_ifs with hrc
    · exact Or.inr rfl
    · exact Or.inl rfl

theorem ws_delete_column {s : Sheet} (h : WellStamped s) (col : Int) :
    WellStamped (sheet_delete_column s col) := by
  unfold sheet_delete_column
  split_ifs with hg
  · exact h
  · have h0 : WellStamped { s with cells := fun r c =>
        if c = col.toNat ∧ r < s.rows then Option.none else s.cells r c } := by
      refine ws_masked h ?_
      intro r c
      dsimp only
      split_ifs with hrc
      · exact Or.inr rfl
      · exact Or.inl rfl
    dsimp only
    refine ws_masked (ws_foldl (fun s c hs => ws_delete_col_step hs c)
      (List.range' col.toNat (s.cols - 1 - col.toNat)) _ h0) ?_
    intro r c
    dsimp only
    split_ifs with hrc
    · exact Or.inr rfl
    · exact Or.inl rfl

theorem ws_recalc_step {s : Sheet} (h : WellStamped s) (fuel : Nat)
    (rc : Nat × Nat) : WellStamped (recalcCellStep fuel s rc) := by
  unfold recalcCellStep
  cases hc : s.cells rc.1 rc.2 with
  | none => exact h
  | some cell =>
      obtain ⟨hr, hcc⟩ := h _ _ _ hc
      refine wellStamped_put h ?_
      intro c0 hc0
      obtain rfl := Option.some.inj hc0
      split <;> exact ⟨hr, hcc⟩

theorem ws_recalc_smart {s : Sheet} (h : WellStamped s) (fuel : Nat) :
    WellStamped (sheet_recalculate_smart fuel s) :=
  ws_foldl (fun _s rc hs => ws_recalc_step hs fuel rc) _ _ h

theorem ws_recalculate {s : Sheet} (h : WellStamped s) (fuel : Nat) :
    WellStamped (sheet_recalculate fuel s) := by
  unfold sheet_recalculate
  split_ifs with hg
  · exact h
  · exact wellStamped_of_cells_eq (ws_recalc_smart h fuel) rfl

theorem ws_paste_cell_step {s : Sheet} (h : WellStamped s)
    (start_row start_col : Int) (clip : RangeClipboard) (i j : Nat) :
    WellStamped (paste_cell_step start_row start_col clip s i j) := by
  unfold paste_cell_step
  dsimp only
  split_ifs with hg
  · exact h
  · cases clip.cells i j with
    | none => exact ws_clear_cell h _ _
    | some src =>
        cases hgoc : sheet_get_or_create_cell s (start_row + (i : Int))
          (start_col + (j : Int)) with
        | none => exact h
        | some p =>
            obtain ⟨dest, s'⟩ := p
            obtain ⟨hws, hr, hc⟩ := wellStamped_goc h hgoc
            refine wellStamped_put hws ?_
            intro c0 hc0
            obtain rfl := Option.some.inj hc0
            cases src.type <;> exact ⟨hr, hc⟩

theorem ws_paste_range {s : Sheet} (h : WellStamped s) (fuel : Nat)
    (start_row start_col : Int) :
    WellStamped (sheet_paste_range fuel s start_row start_col) := by
  unfold sheet_paste_range
  split_ifs with hg
  · exact h
  · refine ws_recalculate ?_ fuel
    exact ws_foldl (fun s2 i hs2 =>
      ws_foldl (fun s3 j hs3 => ws_paste_cell_step hs3 start_row start_col
        s.range_clipboard i j) (List.range s.range_clipboard.cols) s2 hs2)
      (List.range s.range_clipboard.rows) s h

theorem ws_copy_cell {s : Sheet} (h : WellStamped s) (fuel : Nat)
    (sr sc dr dc : Int) :
    WellStamped (sheet_copy_cell fuel s sr sc dr dc) := by
  unfold sheet_copy_cell
  cases hsrc : sheet_get_cell s sr sc with
  | none => exact ws_clear_cell h _ _
  | some src =>
      refine ws_recalculate ?_ fuel
      have h1 : WellStamped
          (match src.type with
          | CellType.number => sheet_set_number s dr dc src.number
          | CellType.string => sheet_set_string s dr dc src.string
          | CellType.formula => sheet_set_formula s dr dc src.expression
          | _ => sheet_clear_cell s dr dc) := by
        cases src.type with
        | number => exact ws_set_number h _ _ _
        | string => exact ws_set_string h _ _ _
        | formula => exact ws_set_formula h _ _ _
        | empty => exact ws_clear_cell h _ _
        | error => exact ws_clear_cell h _ _
      cases hdst : sheet_get_cell
          (match src.type with
          | CellType.number => sheet_set_number s dr dc src.number
          | CellType.string => sheet_set_string s dr dc src.string
          | CellType.formula => sheet_set_formula s dr dc src.expression
          | _ => sheet_clear_cell s dr dc) dr dc with
      | none => exact h1
      | some dest =>
          obtain ⟨hr, hc⟩ := wellStamped_get h1 hdst
          refine wellStamped_put h1 ?_
          intro c0 hc0
          obtain rfl := Option.some.inj hc0
          exact ⟨hr, hc⟩

theorem ws_applyOp {s : Sheet} (h : WellStamped s) (op : Op) :
    WellStamped (applyOp s op) := by
  cases op with
  | setNumber r c v => exact ws_set_number h r c v
  | setString r c str => exact ws_set_string h r c str
  | setFormula r c f => exact ws_set_formula h r c f
  | clearCell r c => exact ws_clear_cell h r c
  | insertRow r => exact ws_insert_row h r
  | insertColumn c => exact ws_insert_column h c
  | deleteRow r => exact ws_delete_row h r
  | deleteColumn c => exact ws_delete_column h c
  | startSelection r c => exact wellStamped_of_cells_eq h rfl
  | extendSelection r c =>
      simp only [applyOp]
      unfold sheet_extend_range_selection
      split_ifs <;> exact wellStamped_of_cells_eq h rfl
  | clearSelection => exact wellStamped_of_cells_eq h rfl
  | copyRange =>
      simp only [applyOp]
      unfold sheet_copy_range
      split_ifs <;> exact wellStamped_of_cells_eq h rfl
  | pasteRange fuel r c => exact ws_paste_range h fuel r c
  | copyCell fuel sr sc dr dc => exact ws_copy_cell h fuel sr sc dr dc
  | sizing op =>
      cases op with
      | setW col w =>
          simp only [applyOp, applySizeOp]
          unfold sheet_set_column_width
          split_ifs <;> exact wellStamped_of_cells_eq h rfl
      | setH row hh =>
          simp only [applyOp, applySizeOp]
          unfold sheet_set_row_height
          split_ifs <;> exact wellStamped_of_cells_eq h rfl
      | resizeW a b d =>
          simp only [applyOp, applySizeOp]
          unfold sheet_resize_columns_in_range
          split_ifs <;> exact wellStamped_of_cells_eq h rfl
      | resizeH a b d =>
          simp only [applyOp, applySizeOp]
          unfold sheet_resize_rows_in_range
          split_ifs <;> exact wellStamped_of_cells_eq h rfl
  | recalculate fuel => exact ws_recalculate h fuel

theorem ws_sheet_new (rows cols : Nat) : WellStamped (sheet_new rows cols) := by
  intro r c cell hc
  exact absurd hc (by simp [sheet_new])

/-! ### Claim C7: the stamping invariant holds after every mutation -/

/-- C7: starting from a fresh sheet, after any sequence of public
mutations (cell writes, clears, row/column inserts and deletes, selection
and clipboard operations, range paste, cell copy, sizing, recalculation),
every stored cell's `row`/`col` fields equal its slot coordinates. -/
theorem claim_C7_stamping (rows cols : Nat) (ops : List Op) :
    WellStamped (applyOps (sheet_new rows cols) ops) := by
  unfold applyOps
  exact ws_foldl (fun s op hs => ws_applyOp hs op) ops _ (ws_sheet_new rows cols)

/-! ### Claim C4: which writes set `needs_recalc` -/

/-- C4 (amended): at an in-bounds address, `sheet_set_number` and
`sheet_set_formula` always set `needs_recalc`; `sheet_set_string` never
modifies it; `sheet_clear_cell` sets it exactly when the slot holds a
cell. -/
theorem claim_C4_amended (s : Sheet) (row col : Int)
    (h1 : 0 ≤ row) (h2 : row < (s.rows : Int))
    (h3 : 0 ≤ col) (h4 : col < (s.cols : Int)) :
    (∀ v, (sheet_set_number s row col v).needs_recalc = true) ∧
    (∀ f, (sheet_set_formula s row col f).needs_recalc = true) ∧
    (∀ str, (sheet_set_string s row col str).needs_recalc = s.needs_recalc) ∧
    ((s.cells row.toNat col.toNat).isSome →
      (sheet_clear_cell s row col).needs_recalc = true) ∧
    ((s.cells row.toNat col.toNat).isNone →
      (sheet_clear_cell s row col).needs_recalc = s.needs_recalc) := by
  have hgoc := sheet_get_or_create_cell_eq s row col ⟨h1, h2, h3, h4⟩
  have hget := sheet_get_cell_eq s row col
  rw [if_pos ⟨h1, h2, h3, h4⟩] at hget
  refine ⟨?_, ?_, ?_, ?_, ?_⟩
  · intro v
    unfold sheet_set_number
    rw [hgoc]
    cases s.cells row.toNat col.toNat <;> rfl
  · intro f
    unfold sheet_set_formula
    rw [hgoc]
    cases s.cells row.toNat col.toNat <;> rfl
  · intro str
    unfold sheet_set_string
    rw [hgoc]
    cases s.cells row.toNat col.toNat <;> rfl
  · intro hsome
    unfold sheet_clear_cell
    rw [hget]
    cases hc : s.cells row.toNat col.toNat with
    | none => rw [hc] at hsome; simp at hsome
    | some cell => rfl
  · intro hnone
    unfold sheet_clear_cell
    rw [hget]
    cases hc : s.cells row.toNat col.toNat with
    | none => rfl
    | some cell => rw [hc] at hnone; simp at hnone

/-- C4 counterexample: `sheet_set_string` at an in-bounds address leaves
`needs_recalc` false on a fresh sheet, refuting "all writes mark
`needs_recalc = true`". -/
theorem claim_C4_counterexample :
    ¬ ((sheet_set_string (sheet_new 3 3) 0 0 "hi").needs_recalc = true) := by
  decide

theorem claim_C4_witness :
    (0 : Int) ≤ 0 ∧ (0 : Int) < ((sheet_new 3 3).rows : Int) ∧
    (sheet_set_number (sheet_new 3 3) 0 0 1).needs_recalc = true ∧
    (sheet_set_string (sheet_new 3 3) 0 0 "x").needs_recalc =
      (sheet_new 3 3).needs_recalc :=
  ⟨by decide, by decide,
    (claim_C4_amended (sheet_new 3 3) 0 0 (by decide) (by decide) (by decide)
      (by decide)).1 1,
    (claim_C4_amended (sheet_new 3 3) 0 0 (by decide) (by decide) (by decide)
      (by decide)).2.2.1 "x"⟩

/-! ### Claim C5: sizing bounds -/

/-- C5 (amended): after any sequence of sizing operations on a fresh
sheet, every column width lies in `[MIN_COLUMN_WIDTH, MAX_COLUMN_WIDTH]`
and every row height in `[MIN_ROW_HEIGHT, MAX_ROW_HEIGHT]`, provided the
direct `sheet_set_column_width` / `sheet_set_row_height` requests do not
exceed the maxima — those two functions only reject values below 1 and do
not clamp from above; the range-resize operations clamp to both bounds. -/
theorem claim_C5_amended (rows cols : Nat) (ops : List SizeOp)
    (h : ∀ op ∈ ops, sizeOpBounded op) :
    SizeInv (applySizeOps (sheet_new rows cols) ops) :=
  sizeInv_ops (sizeInv_new rows cols) h

/-- C5 counterexample: `sheet_set_column_width` stores 51, above
`MAX_COLUMN_WIDTH = 50`, so the claimed clamping invariant fails. -/
theorem claim_C5_counterexample :
    sheet_get_column_width (applySizeOps (sheet_new 3 3) [SizeOp.setW 0 51]) 0 = 51 ∧
    MAX_COLUMN_WIDTH = 50 := by
  constructor <;> decide

theorem claim_C5_witness :
    (∀ op ∈ [SizeOp.setW 0 20, SizeOp.resizeW 0 0 100], sizeOpBounded op) ∧
    SizeInv (applySizeOps (sheet_new 3 3) [SizeOp.setW 0 20, SizeOp.resizeW 0 0 100]) := by
  have hb : ∀ op ∈ [SizeOp.setW 0 20, SizeOp.resizeW 0 0 100], sizeOpBounded op := by
    intro op hop
    fin_cases hop
    · norm_num [sizeOpBounded, MAX_COLUMN_WIDTH]
    · exact trivial
  exact ⟨hb, claim_C5_amended 3 3 _ hb⟩

/-! ### Claim C6: `sheet_insert_row` and the last row -/

/-- C6: the code contradicts the specified shift at the failing input.
On a 3×2 sheet whose only cell sits in the last row at (2,0), slot (1,0)
is empty before `sheet_insert_row 0`; the claim requires slot (2,0) to
hold slot (1,0)'s prior contents (nothing), but the code leaves the old
cell in place because the shifting loop neither frees nor clears the last
row. -/
theorem claim_C6_bug_eval :
    (sheet_set_number (sheet_new 3 2) 2 0 7).cells 1 0 = Option.none ∧
    (sheet_insert_row (sheet_set_number (sheet_new 3 2) 2 0 7) 0).cells 2 0 =
      Option.some (cell_set_number (cell_new 2 0) 7) := by
  constructor <;> decide

/-! ### Claim C8: the reference grammar round-trips -/

/-- C8: for every 0-based `(row, col)` whose printed reference fits the
16-byte `snprintf` buffer, `parse_cell_reference` applied to
`cell_reference_to_string row col` succeeds and yields exactly
`(row, col)` (bijective base-26 columns included). -/
theorem claim_C8_roundtrip (row col : Nat)
    (h : (colLettersAux (col + 1) (col + 1)).length +
         (natDigitsAux (row + 1) (row + 1)).length ≤ 15) :
    parse_cell_reference (cell_reference_to_string row col) =
      Option.some ((row : Int), (col : Int)) :=
  parse_of_print row col h

theorem claim_C8_witness :
    (colLettersAux 53 53).length + (natDigitsAux 1 1).length ≤ 15 ∧
    parse_cell_reference (cell_reference_to_string 0 52) =
      Option.some ((0 : Int), (52 : Int)) ∧
    cell_reference_to_string 0 26 = "AA1".data ∧
    cell_reference_to_string 51 26 = "AA52".data ∧
    cell_reference_to_string 0 51 = "AZ1".data ∧
    cell_reference_to_string 0 52 = "BA1".data :=
  ⟨by decide, claim_C8_roundtrip 0 52 (by decide), by decide, by decide,
    by decide, by decide⟩

/-! ### Claim C9: clearing preserves the format descriptor -/

/-- C9: `cell_clear` resets the kind to empty and keeps the format kind
and style; `sheet_clear_cell` on an existing cell stores exactly the
cleared cell back in its slot. -/
theorem claim_C9_clear_keeps_format :
    (∀ cell : Cell, (cell_clear cell).type = CellType.empty ∧
      (cell_clear cell).format = cell.format ∧
      (cell_clear cell).format_style = cell.format_style) ∧
    (∀ (s : Sheet) (row col : Int) (cell : Cell),
      sheet_get_cell s row col = Option.some cell →
      sheet_get_cell (sheet_clear_cell s row col) row col =
        Option.some (cell_clear cell)) := by
  constructor
  · intro cell
    exact ⟨rfl, rfl, rfl⟩
  · intro s row col cell h
    have h' := h
    rw [sheet_get_cell_eq] at h'
    by_cases hb : 0 ≤ row ∧ row < (s.rows : Int) ∧ 0 ≤ col ∧ col < (s.cols : Int)
    · rw [if_pos hb] at h'
      unfold sheet_clear_cell
      rw [h, sheet_get_cell_eq]
      have hb2 : 0 ≤ row ∧
          row < (({ sheet_put_cell s row.toNat col.toNat
            (Option.some (cell_clear cell)) with needs_recalc := true } : Sheet).rows : Int) ∧
          0 ≤ col ∧ col < (({ sheet_put_cell s row.toNat col.toNat
            (Option.some (cell_clear cell)) with needs_recalc := true } : Sheet).cols : Int) := hb
      rw [if_pos hb2]
      show (if row.toNat = row.toNat ∧ col.toNat = col.toNat then
        Option.some (cell_clear cell) else s.cells row.toNat col.toNat) = _
      rw [if_pos ⟨rfl, rfl⟩]
    · rw [if_neg hb] at h'
      exact absurd h' (by simp)

theorem claim_C9_witness :
    sheet_get_cell exampleFormatSheet 0 0 = Option.some exampleFormatCell ∧
    sheet_get_cell (sheet_clear_cell exampleFormatSheet 0 0) 0 0 =
      Option.some (cell_clear exampleFormatCell) ∧
    (cell_clear exampleFormatCell).type = CellType.empty ∧
    (cell_clear exampleFormatCell).format = DataFormat.currency ∧
    (cell_clear exampleFormatCell).format_style = 3 :=
  ⟨by decide,
    (claim_C9_clear_keeps_format).2 exampleFormatSheet 0 0 exampleFormatCell (by decide),
    by decide, by decide, by decide⟩

/-! ### Claim C10: failed `fopen` leaves the sheet untouched -/

/-- C10: when the file cannot be opened, `sheet_load_csv` returns 0 and
the sheet is returned entirely unchanged — the clearing of existing cells
happens only after a successful open. -/
theorem claim_C10_load_fail_unchanged (fuel : Nat) (s : Sheet) (preserve : Bool) :
    sheet_load_csv fuel s Option.none preserve = (s, false) := rfl

end LiveLedger
namespace LiveLedger

theorem printRef_len (row col : Nat) : (cell_reference_to_string row col).length ≤ 15 := by
  unfold cell_reference_to_string
  simp [List.length_take]

theorem printRef_ne_nil (row col : Nat) : cell_reference_to_string row col ≠ [] := by
  unfold cell_reference_to_string
  intro h
  have h2 := congrArg List.length h
  obtain ⟨l0, L', hLeq⟩ := List.exists_cons_of_ne_nil (colLettersAux_ne_nil col)
  rw [List.length_take, hLeq] at h2
  simp at h2

theorem contains_colon (xs ys : List Char) : ((xs ++ ':' :: ys).contains ':') = true := by
  induction xs with
  | nil => simp [List.contains_cons]
  | cons c cs ih => simp [List.contains_cons, ih]

theorem parse_range_of_print (r1 c1 r2 c2 : Nat)
    (hfit1 : (colLettersAux (c1 + 1) (c1 + 1)).length +
             (natDigitsAux (r1 + 1) (r1 + 1)).length ≤ 15)
    (hfit2 : (colLettersAux (c2 + 1) (c2 + 1)).length +
             (natDigitsAux (r2 + 1) (r2 + 1)).length ≤ 15)
    (hr : r1 ≤ r2) (hc : c1 ≤ c2) :
    parse_range (cell_reference_to_string r1 c1 ++ ':' ::
        cell_reference_to_string r2 c2) =
      Option.some ⟨(r1 : Int), (c1 : Int), (r2 : Int), (c2 : Int)⟩ := by
  have hnc : ∀ c ∈ cell_reference_to_string r1 c1, c ≠ ':' :=
    fun c hcm => (printChar_classes (printRef_mem hcm)).2.2.1
  unfold parse_range
  rw [splitFirstColon_append hnc]
  have hlen : ((cell_reference_to_string r1 c1).length ≥ 16) = False := by
    have := printRef_len r1 c1
    simp
    omega
  simp only [hlen, if_false, parse_of_print r1 c1 hfit1,
    parse_of_print r2 c2 hfit2, Option.some.injEq]
  congr 1
  · exact min_eq_left (by exact_mod_cast hr)
  · exact min_eq_left (by exact_mod_cast hc)
  · exact max_eq_right (by exact_mod_cast hr)
  · exact max_eq_right (by exact_mod_cast hc)

/-! ### Claim C3: `SUM` over a range with an errored formula cell -/

/-- Characters of a printed `r:c` range argument are alphanumeric scan
material: not parentheses, not commas, not quotes, not whitespace. -/
theorem argChar_classes {r1 c1 r2 c2 : Nat} {c : Char}
    (h : c ∈ cell_reference_to_string r1 c1 ++ ':' ::
      cell_reference_to_string r2 c2) :
    c ≠ '(' ∧ c ≠ ')' := by
  rcases List.mem_append.mp h with h1 | h1
  · exact ⟨(printChar_classes (printRef_mem h1)).1,
      (printChar_classes (printRef_mem h1)).2.1⟩
  · rcases List.mem_cons.mp h1 with rfl | h2
    · exact ⟨by decide, by decide⟩
    · exact ⟨(printChar_classes (printRef_mem h2)).1,
        (printChar_classes (printRef_mem h2)).2.1⟩

theorem sumPrefix_take_alnum (X : List Char) :
    takeWhileCap (fun c => c_isalpha c || c_isdigit c) 31
      ('S' :: 'U' :: 'M' :: '(' :: X) = (['S', 'U', 'M'], '(' :: X) := by
  have h : takeWhileCap (fun c => c_isalpha c || c_isdigit c) 31
      (['S', 'U', 'M'] ++ '(' :: X) = (['S', 'U', 'M'], '(' :: X) :=
    takeWhileCap_append (by decide) (by decide) (by decide) X
  simpa using h

theorem sumPrefix_take_alpha (X : List Char) :
    takeWhileCap c_isalpha 31 ('S' :: 'U' :: 'M' :: '(' :: X) =
      (['S', 'U', 'M'], '(' :: X) := by
  have h : takeWhileCap c_isalpha 31
      (['S', 'U', 'M'] ++ '(' :: X) = (['S', 'U', 'M'], '(' :: X) :=
    takeWhileCap_append (by decide) (by decide) (by decide) X
  simpa using h

theorem sumPrefix_dropWhile (X : List Char) :
    ('S' :: 'U' :: 'M' :: '(' :: X).dropWhile c_isalpha = '(' :: X := by
  have h1 : c_isalpha 'S' = true := by decide
  have h2 : c_isalpha 'U' = true := by decide
  have h3 : c_isalpha 'M' = true := by decide
  have h4 : c_isalpha '(' = false := by decide
  simp [List.dropWhile_cons, h1, h2, h3, h4]

theorem parseCmpOp_paren (X : List Char) :
    parseCmpOp ('(' :: X) = ([], '(' :: X) := rfl



theorem skipWs_pr (r c : Nat) (X : List Char) :
    skip_whitespace (cell_reference_to_string r c ++ X) =
      cell_reference_to_string r c ++ X := by
  obtain ⟨a, t, hEq⟩ := List.exists_cons_of_ne_nil (printRef_ne_nil r c)
  have ha : c_isspace a = false :=
    (printChar_classes (printRef_mem (hEq ▸ List.mem_cons_self a t))).2.2.2.2.2.1
  rw [hEq]
  simp only [List.cons_append]
  exact skip_whitespace_not_space ha _

theorem aggArm_sum (s : Sheet) (r1 c1 r2 c2 : Nat)
    (hfit1 : (colLettersAux (c1 + 1) (c1 + 1)).length +
             (natDigitsAux (r1 + 1) (r1 + 1)).length ≤ 15)
    (hfit2 : (colLettersAux (c2 + 1) (c2 + 1)).length +
             (natDigitsAux (r2 + 1) (r2 + 1)).length ≤ 15)
    (hr : r1 ≤ r2) (hc : c1 ≤ c2) (b : Bool) :
    aggArm "SUM".data s
      ⟨cell_reference_to_string r1 c1 ++
        (':' :: (cell_reference_to_string r2 c2 ++ [')'])), ErrorType.none, b,
        Option.none⟩ =
      (func_sum (get_range_values s
          ⟨(r1 : Int), (c1 : Int), (r2 : Int), (c2 : Int)⟩ MAX_RANGE_VALUES).1,
       ⟨[], ErrorType.none,
        b || (get_range_values s
          ⟨(r1 : Int), (c1 : Int), (r2 : Int), (c2 : Int)⟩ MAX_RANGE_VALUES).2,
        Option.none⟩) := by
  have hscan : scanArgEnd (cell_reference_to_string r1 c1 ++
      (':' :: (cell_reference_to_string r2 c2 ++ [')']))) 1 =
      (cell_reference_to_string r1 c1 ++ ':' ::
        cell_reference_to_string r2 c2, []) := by
    have h : scanArgEnd ((cell_reference_to_string r1 c1 ++ ':' ::
        cell_reference_to_string r2 c2) ++ ')' :: []) 1 =
        (cell_reference_to_string r1 c1 ++ ':' ::
          cell_reference_to_string r2 c2, []) :=
      scanArgEnd_no_paren (fun c hc => argChar_classes hc) []
    simpa using h
  have hlen : ¬ 256 ≤ (cell_reference_to_string r1 c1 ++ ':' ::
      cell_reference_to_string r2 c2).length := by
    have h1 := printRef_len r1 c1
    have h2 := printRef_len r2 c2
    simp only [List.length_append, List.length_cons]
    omega
  have hcol : ((cell_reference_to_string r1 c1 ++ ':' ::
      cell_reference_to_string r2 c2).contains ':') = true :=
    contains_colon _ _
  have hpr := parse_range_of_print r1 c1 r2 c2 hfit1 hfit2 hr hc
  simp only [aggArm, M_bind_apply, skipWs_apply, getRest_apply, setRest_apply,
    M_pure_apply, skipWs_pr, hscan, hcol, hpr, getRangeValuesM_apply,
    if_neg hlen, if_true]

theorem armFn_sum (g : Tag → M Rat) (s : Sheet) (r1 c1 r2 c2 : Nat)
    (hfit1 : (colLettersAux (c1 + 1) (c1 + 1)).length +
             (natDigitsAux (r1 + 1) (r1 + 1)).length ≤ 15)
    (hfit2 : (colLettersAux (c2 + 1) (c2 + 1)).length +
             (natDigitsAux (r2 + 1) (r2 + 1)).length ≤ 15)
    (hr : r1 ≤ r2) (hc : c1 ≤ c2) (b : Bool) :
    armFn g s
      ⟨'S' :: 'U' :: 'M' :: '(' ::
        (cell_reference_to_string r1 c1 ++
          (':' :: (cell_reference_to_string r2 c2 ++ [')']))),
        ErrorType.none, b, Option.none⟩ =
      (func_sum (get_range_values s
          ⟨(r1 : Int), (c1 : Int), (r2 : Int), (c2 : Int)⟩ MAX_RANGE_VALUES).1,
       ⟨[], ErrorType.none,
        b || (get_range_values s
          ⟨(r1 : Int), (c1 : Int), (r2 : Int), (c2 : Int)⟩ MAX_RANGE_VALUES).2,
        Option.none⟩) := by
  have hsw : c_isspace 'S' = false := by decide
  have hsw2 : c_isspace '(' = false := by decide
  simp only [armFn, M_bind_apply, skipWs_apply, getRest_apply, setRest_apply,
    M_pure_apply, skip_whitespace_not_space hsw, skip_whitespace_not_space hsw2,
    sumPrefix_take_alpha]
  rw [if_neg (by decide), if_pos (Or.inl (by decide))]
  exact aggArm_sum s r1 c1 r2 c2 hfit1 hfit2 hr hc b

theorem armTermLoop_nil (g : Tag → M Rat) (acc : Rat) (s : Sheet)
    (e : ErrorType) (b : Bool) (i : Option (Option String)) :
    armTermLoop g acc s ⟨[], e, b, i⟩ = (acc, ⟨[], e, b, i⟩) := by
  simp only [armTermLoop, M_bind_apply, skipWs_apply, getRest_apply,
    skip_whitespace, M_pure_apply]

theorem armArithLoop_nil (g : Tag → M Rat) (acc : Rat) (s : Sheet)
    (e : ErrorType) (b : Bool) (i : Option (Option String)) :
    armArithLoop g acc s ⟨[], e, b, i⟩ = (acc, ⟨[], e, b, i⟩) := by
  simp only [armArithLoop, M_bind_apply, skipWs_apply, getRest_apply,
    skip_whitespace, M_pure_apply]

theorem evalStep_factor_sum (k : Nat) (s : Sheet) (r1 c1 r2 c2 : Nat)
    (hfit1 : (colLettersAux (c1 + 1) (c1 + 1)).length +
             (natDigitsAux (r1 + 1) (r1 + 1)).length ≤ 15)
    (hfit2 : (colLettersAux (c2 + 1) (c2 + 1)).length +
             (natDigitsAux (r2 + 1) (r2 + 1)).length ≤ 15)
    (hr : r1 ≤ r2) (hc : c1 ≤ c2) (b : Bool) :
    evalStep (k + 2) Tag.factor s
      ⟨'S' :: 'U' :: 'M' :: '(' ::
        (cell_reference_to_string r1 c1 ++
          (':' :: (cell_reference_to_string r2 c2 ++ [')']))),
        ErrorType.none, b, Option.none⟩ =
      (func_sum (get_range_values s
          ⟨(r1 : Int), (c1 : Int), (r2 : Int), (c2 : Int)⟩ MAX_RANGE_VALUES).1,
       ⟨[], ErrorType.none,
        b || (get_range_values s
          ⟨(r1 : Int), (c1 : Int), (r2 : Int), (c2 : Int)⟩ MAX_RANGE_VALUES).2,
        Option.none⟩) := by
  show armFactor (evalStep (k + 1)) s _ = _
  have h1 : c_isspace 'S' = false := by decide
  have h2 : c_isspace '(' = false := by decide
  simp only [armFactor, M_bind_apply, skipWs_apply, getRest_apply,
    setRest_apply, M_pure_apply, skip_whitespace_not_space h1,
    sumPrefix_dropWhile, skip_whitespace_not_space h2, List.head?_cons]
  split
  · exact armFn_sum (evalStep k) s r1 c1 r2 c2 hfit1 hfit2 hr hc b
  · rename_i h
    exact absurd trivial h

theorem evalStep_term_sum (k : Nat) (s : Sheet) (r1 c1 r2 c2 : Nat)
    (hfit1 : (colLettersAux (c1 + 1) (c1 + 1)).length +
             (natDigitsAux (r1 + 1) (r1 + 1)).length ≤ 15)
    (hfit2 : (colLettersAux (c2 + 1) (c2 + 1)).length +
             (natDigitsAux (r2 + 1) (r2 + 1)).length ≤ 15)
    (hr : r1 ≤ r2) (hc : c1 ≤ c2) (b : Bool) :
    evalStep (k + 3) Tag.term s
      ⟨'S' :: 'U' :: 'M' :: '(' ::
        (cell_reference_to_string r1 c1 ++
          (':' :: (cell_reference_to_string r2 c2 ++ [')']))),
        ErrorType.none, b, Option.none⟩ =
      (func_sum (get_range_values s
          ⟨(r1 : Int), (c1 : Int), (r2 : Int), (c2 : Int)⟩ MAX_RANGE_VALUES).1,
       ⟨[], ErrorType.none,
        b || (get_range_values s
          ⟨(r1 : Int), (c1 : Int), (r2 : Int), (c2 : Int)⟩ MAX_RANGE_VALUES).2,
        Option.none⟩) := by
  show armTerm (evalStep (k + 2)) s _ = _
  simp only [armTerm, M_bind_apply, getErr_apply, M_pure_apply,
    evalStep_factor_sum k s r1 c1 r2 c2 hfit1 hfit2 hr hc b]
  rw [if_neg (by simp)]
  exact armTermLoop_nil (evalStep (k + 1)) _ s _ _ _

theorem evalStep_arith_sum (k : Nat) (s : Sheet) (r1 c1 r2 c2 : Nat)
    (hfit1 : (colLettersAux (c1 + 1) (c1 + 1)).length +
             (natDigitsAux (r1 + 1) (r1 + 1)).length ≤ 15)
    (hfit2 : (colLettersAux (c2 + 1) (c2 + 1)).length +
             (natDigitsAux (r2 + 1) (r2 + 1)).length ≤ 15)
    (hr : r1 ≤ r2) (hc : c1 ≤ c2) (b : Bool) :
    evalStep (k + 4) Tag.arith s
      ⟨'S' :: 'U' :: 'M' :: '(' ::
        (cell_reference_to_string r1 c1 ++
          (':' :: (cell_reference_to_string r2 c2 ++ [')']))),
        ErrorType.none, b, Option.none⟩ =
      (func_sum (get_range_values s
          ⟨(r1 : Int), (c1 : Int), (r2 : Int), (c2 : Int)⟩ MAX_RANGE_VALUES).1,
       ⟨[], ErrorType.none,
        b || (get_range_values s
          ⟨(r1 : Int), (c1 : Int), (r2 : Int), (c2 : Int)⟩ MAX_RANGE_VALUES).2,
        Option.none⟩) := by
  show armArith (evalStep (k + 3)) s _ = _
  simp only [armArith, M_bind_apply, getErr_apply, M_pure_apply,
    evalStep_term_sum k s r1 c1 r2 c2 hfit1 hfit2 hr hc b]
  rw [if_neg (by simp)]
  exact armArithLoop_nil (evalStep (k + 2)) _ s _ _ _

theorem func_sum_range (s : Sheet) (range : CellRange) (mx : Nat)
    (hsz : (range.end_row - range.start_row + 1).toNat *
           (range.end_col - range.start_col + 1).toNat ≤ mx) :
    func_sum (get_range_values s range mx).1 = rangeContribSum s range := by
  rw [func_sum_eq_sum, get_range_values_list s range mx hsz, sum_flatMap]
  unfold rangeContribSum
  simp only [sum_flatMap, rangeCellStep_sum]

/-- C3 (amended): `SUM` over any printed range (both endpoints fitting the
reference buffer, rectangle within `MAX_RANGE_VALUES`) evaluates, on every
sheet, to the sum of the per-cell numeric contributions in which formula
cells with a stored error contribute nothing, and the enclosing formula
finishes with `error = none`: errored contributors are skipped silently,
never propagated. -/
theorem claim_C3_amended (n : Nat) (s : Sheet) (r1 c1 r2 c2 : Nat)
    (hfit1 : (colLettersAux (c1 + 1) (c1 + 1)).length +
             (natDigitsAux (r1 + 1) (r1 + 1)).length ≤ 15)
    (hfit2 : (colLettersAux (c2 + 1) (c2 + 1)).length +
             (natDigitsAux (r2 + 1) (r2 + 1)).length ≤ 15)
    (hr : r1 ≤ r2) (hc : c1 ≤ c2)
    (hsz : (r2 - r1 + 1) * (c2 - c1 + 1) ≤ MAX_RANGE_VALUES) :
    evaluate_formula (n + 5) s (sumFormulaText r1 c1 r2 c2) =
      (rangeContribSum s ⟨(r1 : Int), (c1 : Int), (r2 : Int), (c2 : Int)⟩,
       ⟨[], ErrorType.none,
        (get_range_values s ⟨(r1 : Int), (c1 : Int), (r2 : Int), (c2 : Int)⟩
          MAX_RANGE_VALUES).2, Option.none⟩) := by
  have e1 : ((r2 : Int) - (r1 : Int) + 1).toNat = r2 - r1 + 1 := by omega
  have e2 : ((c2 : Int) - (c1 : Int) + 1).toNat = c2 - c1 + 1 := by omega
  have hsz' : ((r2 : Int) - (r1 : Int) + 1).toNat *
      ((c2 : Int) - (c1 : Int) + 1).toNat ≤ MAX_RANGE_VALUES := by
    rw [e1, e2]
    exact hsz
  have hfs := func_sum_range s
    ⟨(r1 : Int), (c1 : Int), (r2 : Int), (c2 : Int)⟩ MAX_RANGE_VALUES hsz'
  simp only [evaluate_formula, sumFormulaText, List.head?_cons, Option.some.injEq,
    if_true, List.drop_succ_cons, List.drop_zero, List.append_assoc,
    List.cons_append]
  show armCmp (evalStep (n + 4)) s _ = _
  have h2 : c_isspace '(' = false := by decide
  simp only [armCmp, M_bind_apply, getRest_apply, M_pure_apply,
    sumPrefix_take_alnum, List.length_cons, List.length_nil,
    List.drop_succ_cons, List.drop_zero, skip_whitespace_not_space h2,
    parseCmpOp_paren]
  rw [if_neg (fun h => h.2.1 rfl)]
  simp only [M_bind_apply, getErr_apply, M_pure_apply, skipWs_apply,
    evalStep_arith_sum n s r1 c1 r2 c2 hfit1 hfit2 hr hc false]
  rw [if_neg (fun h => h rfl)]
  simp only [M_bind_apply, skipWs_apply, getRest_apply, skip_whitespace,
    M_pure_apply, Bool.false_or, hfs]

theorem claim_C3_witness :
    ((colLettersAux (0 + 1) (0 + 1)).length +
       (natDigitsAux (0 + 1) (0 + 1)).length ≤ 15 ∧
     (colLettersAux (0 + 1) (0 + 1)).length +
       (natDigitsAux (1 + 1) (1 + 1)).length ≤ 15 ∧
     0 ≤ 1 ∧ 0 ≤ 0 ∧ (1 - 0 + 1) * (0 - 0 + 1) ≤ MAX_RANGE_VALUES) ∧
    evaluate_formula (0 + 5) exampleSumErrSheet (sumFormulaText 0 0 1 0) =
      (rangeContribSum exampleSumErrSheet
        ⟨((0 : Nat) : Int), ((0 : Nat) : Int), ((1 : Nat) : Int),
          ((0 : Nat) : Int)⟩,
       ⟨[], ErrorType.none,
        (get_range_values exampleSumErrSheet
          ⟨((0 : Nat) : Int), ((0 : Nat) : Int), ((1 : Nat) : Int),
            ((0 : Nat) : Int)⟩ MAX_RANGE_VALUES).2, Option.none⟩) :=
  ⟨⟨by decide, by decide, by decide, by decide, by decide⟩,
   claim_C3_amended 0 exampleSumErrSheet 0 0 1 0 (by decide) (by decide)
     (by decide) (by decide) (by decide)⟩

/-- C3 counterexample: in `exampleSumErrSheet`, after the recalculation
sweep the formula at (0,0) (`=1/0`) carries `ERROR_DIV_ZERO`, the range
`A1:A2` of the `SUM` at (1,1) contains it, yet the `SUM` formula ends with
`error = none` and cached value 5: the errored contributor was skipped
silently, not propagated. -/
theorem claim_C3_counterexample :
    ((sheet_recalculate_smart 12 exampleSumErrSheet).cells 0 0).map
        Cell.error = Option.some ErrorType.divZero ∧
    ((sheet_recalculate_smart 12 exampleSumErrSheet).cells 1 1).map
        Cell.expression = Option.some "=SUM(A1:A2)" ∧
    ((sheet_recalculate_smart 12 exampleSumErrSheet).cells 1 1).map
        Cell.error = Option.some ErrorType.none ∧
    ((sheet_recalculate_smart 12 exampleSumErrSheet).cells 1 1).map
        Cell.cached_value = Option.some 5 := by
  with_unfolding_all decide

/-! ### Claim C2: the CSV round-trip -/

theorem safe_ne_nil {f : List Char} (hs : csvSafeText f = true) : f ≠ [] := by
  unfold csvSafeText at hs
  simp only [Bool.and_eq_true, decide_eq_true_eq] at hs
  exact hs.1.1.1.1.1

theorem safe_mem {f : List Char} (hs : csvSafeText f = true) {c : Char}
    (hc : c ∈ f) : c ≠ ',' ∧ c ≠ '\n' ∧ c ≠ '\r' ∧ c ≠ '"' := by
  unfold csvSafeText at hs
  simp only [Bool.and_eq_true, List.all_eq_true, Bool.not_eq_true',
    Bool.or_eq_false_iff, decide_eq_false_iff_not] at hs
  have h := hs.1.1.1.1.2 c hc
  exact ⟨h.1.1.1, h.1.1.2, h.1.2, h.2⟩

theorem safe_head {f : List Char} (hs : csvSafeText f = true) {c : Char}
    (hh : f.head? = Option.some c) : c ≠ ' ' ∧ c ≠ '\t' ∧ c ≠ '=' := by
  unfold csvSafeText at hs
  rw [hh] at hs
  simp only [Bool.and_eq_true, Bool.not_eq_true', Bool.or_eq_false_iff,
    decide_eq_false_iff_not] at hs
  exact ⟨hs.1.1.1.2.1.1, hs.1.1.1.2.1.2, hs.1.1.1.2.2⟩

theorem safe_last {f : List Char} (hs : csvSafeText f = true) {c : Char}
    (hl : f.getLast? = Option.some c) : c ≠ ' ' ∧ c ≠ '\t' := by
  unfold csvSafeText at hs
  rw [hl] at hs
  simp only [Bool.and_eq_true, Bool.not_eq_true', Bool.or_eq_false_iff,
    decide_eq_false_iff_not] at hs
  exact ⟨hs.1.1.2.1, hs.1.1.2.2⟩

theorem safe_not_full {f : List Char} (hs : csvSafeText f = true) :
    strtodFull f = false := by
  unfold csvSafeText at hs
  simp only [Bool.and_eq_true, Bool.not_eq_true'] at hs
  exact hs.1.2

theorem escape_safe {f : List Char} (hs : csvSafeText f = true) :
    escape_csv_string f = f := by
  unfold escape_csv_string
  have h : f.any (fun c => c = ',' || c = '\n' || c = '\r' || c = '"') = false := by
    simp only [List.any_eq_false, Bool.or_eq_false_iff, decide_eq_false_iff_not]
    intro c hc
    have h2 := safe_mem hs hc
    simp [h2.1, h2.2.1, h2.2.2.1, h2.2.2.2]
  rw [h]
  simp

theorem csvStoreField_safe (s : Sheet) (row col : Nat) {f : List Char}
    (hs : csvSafeText f = true) :
    csvStoreField s true row col f =
      sheet_set_string s (row : Int) (col : Int) (String.mk f) := by
  unfold csvStoreField
  have hne : f ≠ [] := safe_ne_nil hs
  have hh : f.head? ≠ Option.some '=' := by
    intro h
    exact (safe_head hs h).2.2 rfl
  rw [if_neg (fun h => hh h.2)]
  have hfull := safe_not_full hs
  unfold strtodFull at hfull
  simp only [decide_eq_false_iff_not, Decidable.not_and_iff_or_not,
    Decidable.not_not] at hfull
  rcases hfull with h | h
  · rcases hstrtod : strtod f with ⟨v, consumed⟩
    simp only [hstrtod] at h ⊢
    show (if consumed = f.length then
        sheet_set_number s (row : Int) (col : Int) v
      else sheet_set_string s (row : Int) (col : Int) (String.mk f)) =
      sheet_set_string s (row : Int) (col : Int) (String.mk f)
    rw [if_neg h]
  · exact absurd (List.length_eq_zero.mp h) hne




theorem takeWhile_all_append {p : Char → Bool} {xs : List Char}
    (h : ∀ c ∈ xs, p c = true) {b : Char} (hb : p b = false) (t : List Char) :
    (xs ++ b :: t).takeWhile p = xs := by
  induction xs with
  | nil => simp [List.takeWhile_cons, hb]
  | cons c cs ih =>
      simp only [List.cons_append, List.takeWhile_cons, h c (by simp)]
      rw [ih (fun x hx => h x (by simp [hx]))]
      simp

theorem dropWhile_none_append {p : Char → Bool} {c : Char} (hc : p c = false)
    (cs : List Char) : (c :: cs).dropWhile p = c :: cs := by
  simp [List.dropWhile_cons, hc]

theorem trimTrailing_safe {f : List Char} (hs : csvSafeText f = true) :
    trimTrailing f = f := by
  unfold trimTrailing
  cases hrev : f.reverse with
  | nil =>
      exact absurd (by simpa using congrArg List.reverse hrev) (safe_ne_nil hs)
  | cons a as =>
      have hlast : f.getLast? = Option.some a := by
        rw [← List.head?_reverse, hrev]
        rfl
      have ha := safe_last hs hlast
      rw [List.dropWhile_cons]
      rw [if_neg (by simp [ha.1, ha.2])]
      rw [← hrev, List.reverse_reverse]

theorem parse_field_safe {f : List Char} (hs : csvSafeText f = true)
    {b : Char} (hb : (!(b = ',' || b = '\n' || b = '\r')) = false)
    (t : List Char) :
    parse_csv_field (f ++ b :: t) =
      (Option.some f, (b :: t).drop (if b = ',' then 1 else 0),
        !(b = ',')) := by
  obtain ⟨a, u, hEq⟩ := List.exists_cons_of_ne_nil (safe_ne_nil hs)
  have hh := safe_head hs (by rw [hEq]; rfl)
  have hm0 := safe_mem hs (by rw [hEq]; exact List.mem_cons_self a u)
  have hsp : ((a = ' ' || a = '\t') : Bool) = false := by
    simp [hh.1, hh.2.1]
  have hmem : ∀ c ∈ f, (!(c = ',' || c = '\n' || c = '\r')) = true := by
    intro c hc
    have h := safe_mem hs hc
    simp [h.1, h.2.1, h.2.2.1]
  have hdrop : (f ++ b :: t).dropWhile (fun c => c = ' ' || c = '\t') =
      f ++ b :: t := by
    rw [hEq, List.cons_append, dropWhile_none_append hsp, ← List.cons_append,
      ← hEq]
  have htake : (f ++ b :: t).takeWhile
      (fun c => !(c = ',' || c = '\n' || c = '\r')) = f :=
    takeWhile_all_append hmem hb t
  unfold parse_csv_field
  rw [hdrop]
  rw [hEq, List.cons_append]
  dsimp only
  rw [if_neg (fun h => h.elim hm0.2.1 hm0.2.2.1), if_neg hm0.2.2.2]
  rw [← List.cons_append, ← hEq]
  rw [htake, List.drop_left, trimTrailing_safe hs]
  by_cases hc : b = ','
  · subst hc
    simp
  · split
    · rename_i t1 heq
      simp only [List.cons.injEq] at heq
      exact absurd heq.1 hc
    · simp [hc]



theorem parse_field_comma_nil (t : List Char) :
    parse_csv_field (',' :: t) = (Option.some [], t, false) := rfl

theorem parse_field_newline (t : List Char) :
    parse_csv_field ('\n' :: t) = (Option.none, '\n' :: t, true) := rfl

theorem joinLine_eq (f : List Char) (gs : List (List Char)) :
    joinLine (f :: gs) =
      f ++ (gs.flatMap (fun x => ',' :: x) ++ ['\n']) := by
  induction gs generalizing f with
  | nil => simp [joinLine]
  | cons g rest ih => simp [joinLine, ih]

theorem save_line_join (g : Nat → List Char) (n : Nat) :
    ((List.range (n + 1)).map fun c =>
      (if 0 < c then [','] else []) ++ g c).flatten ++ ['\n'] =
      joinLine ((List.range (n + 1)).map g) := by
  rw [List.range_succ_eq_map]
  simp only [List.map_cons, List.flatten_cons, List.map_map, joinLine_eq,
    List.flatMap_def, Nat.lt_irrefl, if_false, List.nil_append,
    List.append_assoc, List.append_cancel_left_eq]
  congr 1
  congr 1
  apply List.map_congr_left
  intro i _
  simp [Function.comp]

theorem safe_length_pos {f : List Char} (hs : csvSafeText f = true) :
    0 < f.length :=
  List.length_pos.mpr (safe_ne_nil hs)

theorem parse_field_safe_comma {f : List Char} (hf : csvSafeText f = true)
    (t : List Char) :
    parse_csv_field (f ++ ',' :: t) = (Option.some f, t, false) := by
  have h := parse_field_safe hf (b := ',') (by simp) t
  simpa using h

theorem parse_field_safe_nl {f : List Char} (hf : csvSafeText f = true)
    (t : List Char) :
    parse_csv_field (f ++ '\n' :: t) = (Option.some f, '\n' :: t, true) := by
  have h := parse_field_safe hf (b := '\n') (by simp) t
  simpa using h

theorem loadFields_join (row : Nat) (F : List (List Char)) :
    ∀ (n col : Nat) (s : Sheet),
      (∀ f ∈ F, f = [] ∨ csvSafeText f = true) →
      F.length ≤ n →
      loadFields true row n col s (joinLine F) = applyFields row col s F := by
  induction F with
  | nil =>
      intro n col s _ _
      cases n with
      | zero => rfl
      | succ n => simp [loadFields, joinLine, parse_field_newline, applyFields]
  | cons f rest ih =>
      intro n col s hsafe hlen
      cases n with
      | zero => exact absurd hlen (by simp)
      | succ n =>
          have hf := hsafe f (by simp)
          cases rest with
          | nil =>
              rcases hf with rfl | hf
              · simp [loadFields, joinLine, parse_field_newline, applyFields]
              · have hp := parse_field_safe_nl hf []
                simp only [joinLine]
                simp only [loadFields, hp]
                have hpos : 0 < f.length := safe_length_pos hf
                simp [hpos, csvStoreField_safe _ _ _ hf, applyFields]
          | cons g rest' =>
              have hjoin : joinLine (f :: g :: rest') =
                  f ++ ',' :: joinLine (g :: rest') := rfl
              rcases hf with rfl | hf
              · rw [hjoin]
                simp only [List.nil_append]
                simp only [loadFields, parse_field_comma_nil]
                simp only [List.length_nil, Nat.lt_irrefl, if_false,
                  Bool.false_eq_true]
                rw [ih n (col + 1) s (fun x hx => hsafe x (by simp [hx]))
                  (by simpa using hlen)]
                rfl
              · rw [hjoin]
                have hp := parse_field_safe_comma hf (joinLine (g :: rest'))
                simp only [loadFields, hp]
                have hpos : 0 < f.length := safe_length_pos hf
                simp only [hpos, if_true, csvStoreField_safe _ _ _ hf,
                  Bool.false_eq_true, if_false]
                rw [ih n (col + 1) _ (fun x hx => hsafe x (by simp [hx]))
                  (by simpa using hlen)]
                simp only [applyFields, if_pos hpos]

theorem sheet_get_cell_inb (s : Sheet) {r c : Nat} (hr : r < s.rows)
    (hc : c < s.cols) :
    sheet_get_cell s (r : Int) (c : Int) = s.cells r c := by
  unfold sheet_get_cell
  rw [if_neg]
  · simp
  · simp only [Bool.or_eq_true, decide_eq_true_eq, not_or]
    omega

theorem csvField_cases {s : Sheet} (hts : TextOnlySheet s) {r c : Nat}
    (hr : r < s.rows) (hc : c < s.cols) :
    (csvField s true r c = [] ∧ slotNonEmpty s r c = false) ∨
    (∃ cell, s.cells r c = Option.some cell ∧ cell.type = CellType.string ∧
      csvSafeText cell.string.data = true ∧
      csvField s true r c = cell.string.data) := by
  have hok := hts r hr c hc
  unfold cellTextOK at hok
  unfold csvField slotNonEmpty
  cases hcell : s.cells r c with
  | none => exact Or.inl ⟨rfl, rfl⟩
  | some cell =>
      rw [hcell] at hok
      simp only [Bool.or_eq_true, Bool.and_eq_true, decide_eq_true_eq] at hok
      dsimp only
      rcases hok with hemp | ⟨hstr, hsafe⟩
      · left
        constructor
        · rw [if_pos hemp]
        · simp [hemp]
      · right
        refine ⟨cell, rfl, hstr, hsafe, ?_⟩
        rw [if_neg (by rw [hstr]; simp)]
        rw [if_neg (by rw [hstr]; simp)]
        have hdv : sheet_get_display_value s (r : Int) (c : Int) =
            cell.string.data := by
          unfold sheet_get_display_value cell_get_display_value
          rw [sheet_get_cell_inb s hr hc, hcell]
          unfold format_cell_value
          dsimp only
          rw [if_neg (by rw [hstr]; simp), hstr]
        rw [hdv, if_pos (List.length_pos.mpr (safe_ne_nil hsafe)),
          escape_safe hsafe]

theorem foldl_max_mem {P : Nat → Bool} (l : List Nat) :
    ∀ (m0 : Nat) (r : Nat), r ∈ l → P r = true →
      r ≤ l.foldl (fun m x => if P x then max m x else m) m0 := by
  induction l with
  | nil => intro m0 r h; cases h
  | cons x xs ih =>
      intro m0 r hmem hP
      rcases List.mem_cons.mp hmem with rfl | hmem2
      · have hmono : ∀ (a : Nat) (l' : List Nat), a ≤
            l'.foldl (fun m x => if P x then max m x else m) a := by
          intro a l'
          induction l' generalizing a with
          | nil => simp
          | cons y ys ihy =>
              simp only [List.foldl_cons]
              refine le_trans ?_ (ihy _)
              split
              · exact le_max_left a y
              · exact le_rfl
        simp only [List.foldl_cons, hP, if_true]
        exact le_trans (le_max_right m0 r) (hmono _ xs)
      · simp only [List.foldl_cons]
        exact ih _ r hmem2 hP

theorem foldl_max_lt {P : Nat → Bool} (l : List Nat) (bound : Nat) :
    ∀ m0, m0 < bound → (∀ x ∈ l, x < bound) →
      l.foldl (fun m x => if P x then max m x else m) m0 < bound := by
  induction l with
  | nil => intro m0 h _; simpa using h
  | cons x xs ih =>
      intro m0 h hall
      simp only [List.foldl_cons]
      apply ih
      · split
        · exact max_lt h (hall x (by simp))
        · exact h
      · intro y hy
        exact hall y (by simp [hy])

theorem csvMaxRow_ge {s : Sheet} {r c : Nat} (hr : r < s.rows)
    (hc : c < s.cols) (hne : slotNonEmpty s r c = true) :
    r ≤ csvMaxRow s := by
  unfold csvMaxRow
  apply foldl_max_mem
  · exact List.mem_range.mpr hr
  · simp only [List.any_eq_true]
    exact ⟨c, List.mem_range.mpr hc, hne⟩

theorem csvMaxCol_ge {s : Sheet} {r c : Nat} (hr : r < s.rows)
    (hc : c < s.cols) (hne : slotNonEmpty s r c = true) :
    c ≤ csvMaxCol s := by
  unfold csvMaxCol
  apply foldl_max_mem
  · exact List.mem_range.mpr hc
  · simp only [List.any_eq_true]
    exact ⟨r, List.mem_range.mpr hr, hne⟩

theorem csvMaxRow_lt {s : Sheet} (h : 0 < s.rows) : csvMaxRow s < s.rows := by
  unfold csvMaxRow
  apply foldl_max_lt
  · exact h
  · intro x hx
    exact List.mem_range.mp hx

theorem csvMaxCol_lt {s : Sheet} (h : 0 < s.cols) : csvMaxCol s < s.cols := by
  unfold csvMaxCol
  apply foldl_max_lt
  · exact h
  · intro x hx
    exact List.mem_range.mp hx

theorem save_as_lines (s : Sheet) :
    sheet_save_csv s true =
      ((List.range (csvMaxRow s + 1)).map fun r => joinLine (fieldsOf s r)).flatten := by
  unfold sheet_save_csv fieldsOf
  dsimp only
  congr 1
  apply List.map_congr_left
  intro r _
  exact save_line_join (fun c => csvField s true r c) (csvMaxCol s)

theorem findIdx_none_go {p : Char → Bool} {xs : List Char}
    (h : ∀ c ∈ xs, p c = false) {b : Char} (hb : p b = true) (t : List Char) :
    ∀ i, List.findIdx? p (xs ++ b :: t) i = Option.some (xs.length + i) := by
  induction xs with
  | nil => intro i; simp [List.findIdx?_cons, hb]
  | cons c cs ih =>
      intro i
      simp only [List.cons_append, List.findIdx?_cons, h c (by simp),
        Bool.false_eq_true, if_false]
      rw [ih (fun x hx => h x (by simp [hx])) (i + 1)]
      simp only [List.length_cons]
      congr 1
      omega

theorem findIdx_none_then {p : Char → Bool} {xs : List Char}
    (h : ∀ c ∈ xs, p c = false) {b : Char} (hb : p b = true) (t : List Char) :
    (xs ++ b :: t).findIdx? p = Option.some xs.length := by
  have h2 := findIdx_none_go h hb t 0
  simpa using h2

theorem fgetsLines_step (f : Nat) (c : Char) (cs : List Char) :
    fgetsLines (f + 1) (c :: cs) =
      (fgetsChunk (c :: cs)).1 :: fgetsLines f (fgetsChunk (c :: cs)).2 := rfl

theorem fgetsChunk_line {body : List Char}
    (hnl : ∀ c ∈ body, ((c = '\n') : Bool) = false)
    (hlen : body.length + 1 ≤ 4095) (rest : List Char) :
    fgetsChunk ((body ++ ['\n']) ++ rest) = (body ++ ['\n'], rest) := by
  have htk : ((body ++ ['\n']) ++ rest).take 4095 =
      body ++ '\n' :: rest.take (4095 - (body.length + 1)) := by
    rw [List.append_assoc, List.cons_append, List.nil_append,
      List.take_append_eq_append_take, List.take_of_length_le (by omega)]
    congr 1
    have h2 : 4095 - body.length = (4095 - (body.length + 1)) + 1 := by omega
    rw [h2, List.take_succ_cons]
  have hfind : (((body ++ ['\n']) ++ rest).take 4095).findIdx?
      (fun c => c = '\n') = Option.some body.length := by
    rw [htk]
    exact findIdx_none_then hnl (by simp) _
  unfold fgetsChunk
  dsimp only
  rw [hfind]
  dsimp only
  rw [List.take_left' (by simp), List.drop_left' (by simp)]

theorem fgetsLines_join (L : List (List Char)) :
    ∀ fuel,
      (∀ l ∈ L, ∃ body, l = body ++ ['\n'] ∧
        (∀ c ∈ body, ((c = '\n') : Bool) = false) ∧ body.length + 1 ≤ 4095) →
      L.length ≤ fuel →
      fgetsLines fuel L.flatten = L := by
  induction L with
  | nil =>
      intro fuel _ _
      cases fuel <;> rfl
  | cons l L' ih =>
      intro fuel hshape hlen
      cases fuel with
      | zero => exact absurd hlen (by simp)
      | succ f =>
          obtain ⟨body, hl, hnl, hblen⟩ := hshape l (by simp)
          have hflat : (l :: L').flatten = (body ++ ['\n']) ++ L'.flatten := by
            simp [hl]
          have hne : (body ++ ['\n']) ++ L'.flatten ≠ [] := by simp
          obtain ⟨c, cs, hcons⟩ := List.exists_cons_of_ne_nil hne
          rw [hflat, hcons, fgetsLines_step, ← hcons,
            fgetsChunk_line hnl hblen]
          rw [ih f (fun x hx => hshape x (by simp [hx])) (by simpa using hlen)]
          rw [← hl]

theorem goc_parts {s : Sheet} {row col : Int} {cell : Cell} {s' : Sheet}
    (h : sheet_get_or_create_cell s row col = Option.some (cell, s')) :
    0 ≤ row ∧ row < (s.rows : Int) ∧ 0 ≤ col ∧ col < (s.cols : Int) ∧
    s'.rows = s.rows ∧ s'.cols = s.cols ∧
    s'.needs_recalc = s.needs_recalc ∧
    (∀ r' c' : Nat, ¬(r' = row.toNat ∧ c' = col.toNat) →
      s'.cells r' c' = s.cells r' c') := by
  unfold sheet_get_or_create_cell at h
  rcases hg : (row < 0 || row ≥ (s.rows : Int) || col < 0 ||
      col ≥ (s.cols : Int)) with _ | _
  · rw [hg] at h
    simp only [Bool.false_eq_true, if_false] at h
    have hb : 0 ≤ row ∧ row < (s.rows : Int) ∧ 0 ≤ col ∧
        col < (s.cols : Int) := by
      simp only [Bool.or_eq_false_iff, decide_eq_false_iff_not, not_lt,
        not_le] at hg
      exact ⟨hg.1.1.1, hg.1.1.2, hg.1.2, hg.2⟩
    refine ⟨hb.1, hb.2.1, hb.2.2.1, hb.2.2.2, ?_⟩
    cases hcell : s.cells row.toNat col.toNat with
    | some cell0 =>
        rw [hcell] at h
        simp only [Option.some.injEq, Prod.mk.injEq] at h
        rw [← h.2]
        exact ⟨rfl, rfl, rfl, fun _ _ _ => rfl⟩
    | none =>
        rw [hcell] at h
        simp only [Option.some.injEq, Prod.mk.injEq] at h
        rw [← h.2]
        refine ⟨rfl, rfl, rfl, fun r' c' hne => ?_⟩
        rw [sheet_put_cell_cells, if_neg hne]
  · rw [hg] at h
    simp at h

theorem set_string_frame (s : Sheet) (row col : Int) (str : String)
    (r' c' : Nat) (h : ¬(r' = row.toNat ∧ c' = col.toNat)) :
    (sheet_set_string s row col str).cells r' c' = s.cells r' c' := by
  unfold sheet_set_string
  cases hg : sheet_get_or_create_cell s row col with
  | none => rfl
  | some pair =>
      rcases pair with ⟨cell, s2⟩
      have hp := goc_parts hg
      dsimp only
      rw [sheet_put_cell_cells, if_neg h]
      exact hp.2.2.2.2.2.2.2 r' c' h

theorem set_string_skel (s : Sheet) (row col : Int) (str : String) :
    (sheet_set_string s row col str).rows = s.rows ∧
    (sheet_set_string s row col str).cols = s.cols ∧
    (sheet_set_string s row col str).needs_recalc = s.needs_recalc := by
  unfold sheet_set_string
  cases hg : sheet_get_or_create_cell s row col with
  | none => exact ⟨rfl, rfl, rfl⟩
  | some pair =>
      rcases pair with ⟨cell, s2⟩
      have hp := goc_parts hg
      dsimp only
      exact ⟨hp.2.2.2.2.1, hp.2.2.2.2.2.1, hp.2.2.2.2.2.2.1⟩

theorem set_string_cells_none {s : Sheet} {row col : Nat}
    (hr : row < s.rows) (hc : col < s.cols)
    (hnone : s.cells row col = Option.none) (str : String) :
    (sheet_set_string s (row : Int) (col : Int) str).cells row col =
      Option.some (cell_set_string (cell_new row col) str) := by
  unfold sheet_set_string
  rw [sheet_get_or_create_cell_eq s _ _
    ⟨by omega, by exact_mod_cast hr, by omega, by exact_mod_cast hc⟩]
  simp only [Int.toNat_natCast]
  rw [hnone]
  dsimp only
  rw [sheet_put_cell_cells, if_pos ⟨rfl, rfl⟩]

theorem applyFields_skel (row : Nat) (F : List (List Char)) :
    ∀ (col : Nat) (s : Sheet),
      (applyFields row col s F).rows = s.rows ∧
      (applyFields row col s F).cols = s.cols ∧
      (applyFields row col s F).needs_recalc = s.needs_recalc := by
  induction F with
  | nil => intro col s; exact ⟨rfl, rfl, rfl⟩
  | cons f F' ih =>
      intro col s
      simp only [applyFields]
      split
      · have h1 := set_string_skel s (row : Int) (col : Int) (String.mk f)
        have h2 := ih (col + 1) (sheet_set_string s (row : Int) (col : Int)
          (String.mk f))
        exact ⟨h2.1.trans h1.1, h2.2.1.trans h1.2.1, h2.2.2.trans h1.2.2⟩
      · exact ih (col + 1) s

theorem applyFields_frame_row (row : Nat) (F : List (List Char)) :
    ∀ (col : Nat) (s : Sheet) (r' c' : Nat), r' ≠ row →
      (applyFields row col s F).cells r' c' = s.cells r' c' := by
  induction F with
  | nil => intro col s r' c' _; rfl
  | cons f F' ih =>
      intro col s r' c' hne
      simp only [applyFields]
      split
      · rw [ih (col + 1) _ r' c' hne]
        apply set_string_frame
        intro hcontra
        exact hne (by simpa using hcontra.1)
      · exact ih (col + 1) s r' c' hne

theorem applyFields_cells (row : Nat) (F : List (List Char)) :
    ∀ (col : Nat) (s : Sheet), row < s.rows → col + F.length ≤ s.cols →
      (∀ c', col ≤ c' → s.cells row c' = Option.none) →
      ∀ c', (applyFields row col s F).cells row c' =
        if col ≤ c' ∧ c' < col + F.length ∧ 0 < (F.getD (c' - col) []).length
        then Option.some (cell_set_string (cell_new row c')
              (String.mk (F.getD (c' - col) [])))
        else s.cells row c' := by
  induction F with
  | nil =>
      intro col s _ _ _ c'
      simp only [List.length_nil, Nat.add_zero]
      rw [if_neg (by omega)]
      rfl
  | cons f F' ih =>
      intro col s hrow hcols hnone c'
      simp only [List.length_cons] at hcols
      have hgd : col + 1 ≤ c' → (f :: F').getD (c' - col) [] =
          F'.getD (c' - (col + 1)) [] := by
        intro h
        have h3 : c' - col = (c' - (col + 1)) + 1 := by omega
        rw [h3]
        rfl
      have hf1 : (sheet_set_string s (row : Int) (col : Int)
          (String.mk f)).rows = s.rows :=
        (set_string_skel s _ _ _).1
      have hf2 : (sheet_set_string s (row : Int) (col : Int)
          (String.mk f)).cols = s.cols :=
        (set_string_skel s _ _ _).2.1
      simp only [applyFields]
      by_cases hfl : 0 < f.length
      · rw [if_pos hfl]
        have hwr := set_string_cells_none hrow
          (by omega : col < s.cols)
          (hnone col le_rfl) (String.mk f)
        have hfr : ∀ c'', c'' ≠ col →
            (sheet_set_string s (row : Int) (col : Int)
              (String.mk f)).cells row c'' = s.cells row c'' := by
          intro c'' hne
          apply set_string_frame
          intro hcontra
          exact hne (by simpa using hcontra.2)
        rw [ih (col + 1) _ (by rw [hf1]; exact hrow) (by rw [hf2]; omega)
          (by
            intro c'' hc''
            rw [hfr c'' (by omega)]
            exact hnone c'' (by omega))]
        simp only [List.length_cons]
        split_ifs with h1 h2 h3
        · rw [hgd h1.1]
        · refine absurd ⟨by omega, by omega, ?_⟩ h2
          rw [hgd h1.1]
          exact h1.2.2
        · by_cases hcc : c' = col
          · subst hcc
            rw [hwr]
            simp [Nat.sub_self]
          · have h4 := h3.2.2
            rw [hgd (by omega)] at h4
            exact absurd ⟨by omega, by omega, h4⟩ h1
        · by_cases hcc : c' = col
          · subst hcc
            refine absurd ⟨le_rfl, by omega, ?_⟩ h3
            simpa [Nat.sub_self] using hfl
          · exact hfr c' hcc
      · rw [if_neg hfl]
        rw [ih (col + 1) s hrow (by omega)
          (fun c'' hc'' => hnone c'' (by omega))]
        simp only [List.length_cons]
        split_ifs with h1 h2 h3
        · rw [hgd h1.1]
        · refine absurd ⟨by omega, by omega, ?_⟩ h2
          rw [hgd h1.1]
          exact h1.2.2
        · by_cases hcc : c' = col
          · subst hcc
            have h4 := h3.2.2
            simp only [Nat.sub_self] at h4
            exact absurd (by simpa using h4) hfl
          · have h4 := h3.2.2
            rw [hgd (by omega)] at h4
            exact absurd ⟨by omega, by omega, h4⟩ h1
        · rfl

theorem fieldsOf_safe {s : Sheet} (hts : TextOnlySheet s) (hr0 : 0 < s.rows)
    (hc0 : 0 < s.cols) {r : Nat} (hr : r < s.rows) :
    ∀ f ∈ fieldsOf s r, f = [] ∨ csvSafeText f = true := by
  intro f hf
  unfold fieldsOf at hf
  obtain ⟨c, hcmem, hceq⟩ := List.mem_map.mp hf
  have hc : c < s.cols := by
    have := List.mem_range.mp hcmem
    have := csvMaxCol_lt hc0
    omega
  rcases csvField_cases hts hr hc with ⟨hempty, _⟩ | ⟨cell, _, _, hsafe, hfield⟩
  · left
    rw [← hceq, hempty]
  · right
    rw [← hceq, hfield]
    exact hsafe

theorem fieldsOf_length (s : Sheet) (r : Nat) :
    (fieldsOf s r).length = csvMaxCol s + 1 := by
  unfold fieldsOf
  rw [List.length_map, List.length_range]

theorem load_rows_eq {s : Sheet} (hts : TextOnlySheet s) (hr0 : 0 < s.rows)
    (hc0 : 0 < s.cols) :
    ∀ (k i0 : Nat) (t : Sheet), i0 + k ≤ s.rows → t.cols = s.cols →
      (List.enumFrom i0 ((List.range' i0 k).map
        (fun r => joinLine (fieldsOf s r)))).foldl
        (fun t2 rl => loadFields true rl.1 t2.cols 0 t2 rl.2) t =
      (List.range' i0 k).foldl
        (fun t2 r => applyFields r 0 t2 (fieldsOf s r)) t := by
  intro k
  induction k with
  | zero => intro i0 t _ _; rfl
  | succ k ih =>
      intro i0 t hbound hcols
      rw [List.range'_succ, List.map_cons, List.enumFrom_cons,
        List.foldl_cons, List.foldl_cons]
      have hstep : loadFields true i0 t.cols 0 t (joinLine (fieldsOf s i0)) =
          applyFields i0 0 t (fieldsOf s i0) := by
        apply loadFields_join
        · exact fieldsOf_safe hts hr0 hc0 (by omega)
        · rw [fieldsOf_length, hcols]
          have := csvMaxCol_lt hc0
          omega
      simp only at hstep ⊢
      rw [hstep]
      apply ih
      · omega
      · rw [(applyFields_skel i0 (fieldsOf s i0) 0 t).2.1, hcols]

theorem rows_fold_skel (s : Sheet) (l : List Nat) :
    ∀ t : Sheet,
      ((l.foldl (fun t2 r => applyFields r 0 t2 (fieldsOf s r)) t)).rows = t.rows ∧
      ((l.foldl (fun t2 r => applyFields r 0 t2 (fieldsOf s r)) t)).cols = t.cols ∧
      ((l.foldl (fun t2 r => applyFields r 0 t2 (fieldsOf s r)) t)).needs_recalc =
        t.needs_recalc := by
  induction l with
  | nil => intro t; exact ⟨rfl, rfl, rfl⟩
  | cons r rest ih =>
      intro t
      rw [List.foldl_cons]
      have h1 := applyFields_skel r (fieldsOf s r) 0 t
      have h2 := ih (applyFields r 0 t (fieldsOf s r))
      exact ⟨h2.1.trans h1.1, h2.2.1.trans h1.2.1, h2.2.2.trans h1.2.2⟩

theorem rows_fold_frame (s : Sheet) (l : List Nat) :
    ∀ (t : Sheet) (r c : Nat), (∀ r' ∈ l, r' ≠ r) →
      (l.foldl (fun t2 r2 => applyFields r2 0 t2 (fieldsOf s r2)) t).cells r c =
        t.cells r c := by
  induction l with
  | nil => intro t r c _; rfl
  | cons r0 rest ih =>
      intro t r c hne
      rw [List.foldl_cons]
      rw [ih _ r c (fun r' hr' => hne r' (by simp [hr']))]
      exact applyFields_frame_row r0 (fieldsOf s r0) 0 t r c
        (Ne.symm (hne r0 (by simp)))

theorem rows_fold_cells {s : Sheet} :
    ∀ (k i0 : Nat) (t : Sheet), t.rows = s.rows → t.cols = s.cols →
      i0 + k ≤ s.rows → csvMaxCol s + 1 ≤ s.cols →
      (∀ r' c', i0 ≤ r' → t.cells r' c' = Option.none) →
      ∀ r c, i0 ≤ r → r < i0 + k →
        ((List.range' i0 k).foldl
          (fun t2 r2 => applyFields r2 0 t2 (fieldsOf s r2)) t).cells r c =
        if c < csvMaxCol s + 1 ∧ 0 < ((fieldsOf s r).getD c []).length
        then Option.some (cell_set_string (cell_new r c)
              (String.mk ((fieldsOf s r).getD c [])))
        else Option.none := by
  intro k
  induction k with
  | zero => intro i0 t _ _ _ _ _ r c h1 h2; omega
  | succ k ih =>
      intro i0 t hrows hcols hbound hmc hnone r c hr1 hr2
      rw [List.range'_succ, List.foldl_cons]
      have happ := applyFields_cells i0 (fieldsOf s i0) 0 t
        (by rw [hrows]; omega)
        (by rw [hcols, fieldsOf_length]; omega)
        (fun c' _ => hnone i0 c' le_rfl)
      have hskel := applyFields_skel i0 (fieldsOf s i0) 0 t
      by_cases hri : r = i0
      · subst hri
        rw [rows_fold_frame s _ _ r c (by
          intro r' hr'
          have := List.mem_range'_1.mp hr'
          omega)]
        rw [happ c]
        simp only [Nat.zero_add, Nat.zero_le, true_and, Nat.sub_zero,
          fieldsOf_length]
        split_ifs with h1
        · rfl
        · exact hnone r c le_rfl
      · apply ih (i0 + 1)
        · exact hskel.1.trans hrows
        · exact hskel.2.1.trans hcols
        · omega
        · exact hmc
        · intro r' c' hr'
          rw [applyFields_frame_row i0 (fieldsOf s i0) 0 t r' c' (by omega)]
          exact hnone r' c' (by omega)
        · omega
        · omega

theorem clear_cell_allnone {s : Sheet} (h : ∀ r c, s.cells r c = Option.none)
    (ri ci : Int) : sheet_clear_cell s ri ci = s := by
  unfold sheet_clear_cell sheet_get_cell
  split
  · rfl
  · rename_i cell heq
    rw [h] at heq
    split at heq <;> simp at heq

theorem clear_fold_id (rows cols : Nat) {s : Sheet}
    (h : ∀ r c, s.cells r c = Option.none) :
    (List.range rows).foldl
      (fun (s2 : Sheet) (r : Nat) => (List.range cols).foldl
        (fun (s3 : Sheet) (c : Nat) =>
          sheet_clear_cell s3 (Int.ofNat r) (Int.ofNat c)) s2) s = s := by
  have hinner : ∀ (l : List Nat) (r : Nat) (s0 : Sheet),
      (∀ r2 c2, s0.cells r2 c2 = Option.none) →
      l.foldl (fun (s3 : Sheet) (c : Nat) =>
        sheet_clear_cell s3 (Int.ofNat r) (Int.ofNat c)) s0 = s0 := by
    intro l r
    induction l with
    | nil => intro s0 _; rfl
    | cons c rest ihc =>
        intro s0 h0
        rw [List.foldl_cons, clear_cell_allnone h0, ihc s0 h0]
  have houter : ∀ (l : List Nat),
      l.foldl (fun (s2 : Sheet) (r : Nat) => (List.range cols).foldl
        (fun (s3 : Sheet) (c : Nat) =>
          sheet_clear_cell s3 (Int.ofNat r) (Int.ofNat c)) s2) s = s := by
    intro l
    induction l with
    | nil => rfl
    | cons r rest ihr =>
        rw [List.foldl_cons, hinner (List.range cols) r s h, ihr]
  exact houter _

theorem recalc_noop {s : Sheet} (h : s.needs_recalc = false) (fuel : Nat) :
    sheet_recalculate fuel s = s := by
  unfold sheet_recalculate
  rw [h]
  rfl

theorem joinLine_body (F : List (List Char))
    (hsafe : ∀ f ∈ F, f = [] ∨ csvSafeText f = true) :
    ∃ body, joinLine F = body ++ ['\n'] ∧
      ∀ c ∈ body, ((c = '\n') : Bool) = false := by
  induction F with
  | nil => exact ⟨[], rfl, by simp⟩
  | cons f F' ih =>
      have hfchars : ∀ c ∈ f, ((c = '\n') : Bool) = false := by
        intro c hc
        rcases hsafe f (by simp) with rfl | hsf
        · cases hc
        · simp [(safe_mem hsf hc).2.1]
      cases F' with
      | nil =>
          refine ⟨f, rfl, hfchars⟩
      | cons g rest =>
          obtain ⟨body', hb1, hb2⟩ := ih (fun x hx => hsafe x (by simp [hx]))
          refine ⟨f ++ ',' :: body', ?_, ?_⟩
          · show f ++ ',' :: joinLine (g :: rest) = (f ++ ',' :: body') ++ ['\n']
            rw [hb1]
            simp
          · intro c hc
            rcases List.mem_append.mp hc with hcf | hcr
            · exact hfchars c hcf
            · rcases List.mem_cons.mp hcr with rfl | hcb
              · simp
              · exact hb2 c hcb

theorem flatten_length_ge (L : List (List Char)) (h : ∀ l ∈ L, l ≠ []) :
    L.length ≤ L.flatten.length := by
  induction L with
  | nil => simp
  | cons l L' ih =>
      simp only [List.length_cons, List.flatten_cons, List.length_append]
      have h1 : 1 ≤ l.length := by
        have := h l (by simp)
        cases l with
        | nil => exact absurd rfl this
        | cons a as => simp
      have h2 := ih (fun x hx => h x (by simp [hx]))
      omega

theorem fieldsOf_getD {s : Sheet} {r c : Nat} (hc : c < csvMaxCol s + 1) :
    (fieldsOf s r).getD c [] = csvField s true r c := by
  unfold fieldsOf
  rw [List.getD_eq_getElem?_getD, List.getElem?_map, List.getElem?_range hc]
  rfl

theorem display_set_string (r c : Nat) (str : String) :
    format_cell_value (Option.some (cell_set_string (cell_new r c) str)) =
      str.data := rfl

theorem display_empty_type {cell : Cell} (h : cell.type = CellType.empty) :
    format_cell_value (Option.some cell) = [] := by
  unfold format_cell_value
  dsimp only
  rw [if_pos h]

theorem display_string_cell {cell : Cell} (h : cell.type = CellType.string) :
    format_cell_value (Option.some cell) = cell.string.data := by
  unfold format_cell_value
  dsimp only
  rw [if_neg (by rw [h]; simp), h]

/-- C2 (amended): the save/load round-trip preserves every display value
for sheets whose nonempty cells are all strings of round-trip-safe text
(no separators, quotes or newlines, no trimmable blanks, not classifiable
as formula or number) and whose saved lines fit the 4096-byte `fgets`
buffer.  In general the claim fails: the loader re-classifies fields, as
the counterexample `"00"` shows. -/
theorem claim_C2_amended (fuel : Nat) (s : Sheet)
    (hr0 : 0 < s.rows) (hc0 : 0 < s.cols) (hts : TextOnlySheet s)
    (hlen : ∀ r, r < s.rows → (joinLine (fieldsOf s r)).length ≤ 4095)
    (row col : Int) :
    sheet_get_display_value
      (sheet_load_csv fuel (sheet_new s.rows s.cols)
        (Option.some (sheet_save_csv s true)) true).1 row col =
    sheet_get_display_value s row col := by
  have hmrlt := csvMaxRow_lt hr0
  have hmclt := csvMaxCol_lt hc0
  have hlines_shape : ∀ l ∈ (List.range (csvMaxRow s + 1)).map
      (fun r => joinLine (fieldsOf s r)),
      ∃ body, l = body ++ ['\n'] ∧ (∀ c ∈ body, ((c = '\n') : Bool) = false) ∧
        body.length + 1 ≤ 4095 := by
    intro l hl
    obtain ⟨r, hrm, hleq⟩ := List.mem_map.mp hl
    have hrlt : r < s.rows := by
      have := List.mem_range.mp hrm
      omega
    obtain ⟨body, hb1, hb2⟩ := joinLine_body _ (fieldsOf_safe hts hr0 hc0 hrlt)
    refine ⟨body, by rw [← hleq, hb1], hb2, ?_⟩
    have h2 := hlen r hrlt
    rw [hb1] at h2
    simp only [List.length_append, List.length_cons, List.length_nil] at h2
    omega
  have hlines_ne : ∀ l ∈ (List.range (csvMaxRow s + 1)).map
      (fun r => joinLine (fieldsOf s r)), l ≠ [] := by
    intro l hl
    obtain ⟨body, hb1, _, _⟩ := hlines_shape l hl
    rw [hb1]
    simp
  have hflen := flatten_length_ge _ hlines_ne
  have hlines_len : ((List.range (csvMaxRow s + 1)).map
      (fun r => joinLine (fieldsOf s r))).length = csvMaxRow s + 1 := by
    simp
  have hfg := fgetsLines_join ((List.range (csvMaxRow s + 1)).map
      (fun r => joinLine (fieldsOf s r)))
    ((((List.range (csvMaxRow s + 1)).map
      (fun r => joinLine (fieldsOf s r))).flatten).length)
    (fun l hl => hlines_shape l hl) hflen
  unfold sheet_load_csv
  rw [save_as_lines]
  dsimp only
  rw [if_pos rfl]
  have hnew_rows : (sheet_new s.rows s.cols).rows = s.rows := rfl
  have hnew_cols : (sheet_new s.rows s.cols).cols = s.cols := rfl
  rw [hnew_rows, hnew_cols, clear_fold_id s.rows s.cols (fun _ _ => rfl), hfg]
  rw [hnew_rows, List.take_of_length_le (by rw [hlines_len]; omega)]
  simp only [List.enum]
  rw [List.range_eq_range']
  rw [load_rows_eq hts hr0 hc0 (csvMaxRow s + 1) 0 (sheet_new s.rows s.cols)
    (by omega) rfl]
  have hskel := rows_fold_skel s (List.range' 0 (csvMaxRow s + 1))
    (sheet_new s.rows s.cols)
  rw [recalc_noop (hskel.2.2.trans rfl)]
  have hs2rows : ((List.range' 0 (csvMaxRow s + 1)).foldl
      (fun t2 r => applyFields r 0 t2 (fieldsOf s r))
      (sheet_new s.rows s.cols)).rows = s.rows := hskel.1.trans rfl
  have hs2cols : ((List.range' 0 (csvMaxRow s + 1)).foldl
      (fun t2 r => applyFields r 0 t2 (fieldsOf s r))
      (sheet_new s.rows s.cols)).cols = s.cols := hskel.2.1.trans rfl
  unfold sheet_get_display_value cell_get_display_value sheet_get_cell
  rw [hs2rows, hs2cols]
  by_cases hb : (row < 0 || row ≥ (s.rows : Int) || col < 0 ||
      col ≥ (s.cols : Int)) = true
  · rw [if_pos hb, if_pos hb]
  · rw [if_neg hb, if_neg hb]
    simp only [Bool.or_eq_true, decide_eq_true_eq, not_or, not_lt,
      not_le] at hb
    have hrr : row.toNat < s.rows := by omega
    have hcc : col.toNat < s.cols := by omega
    rcases csvField_cases hts hrr hcc with ⟨hfe, hsne⟩ |
      ⟨cell, hcell, hstr, hsafe, hfield⟩
    · have horig : format_cell_value (s.cells row.toNat col.toNat) = [] := by
        unfold slotNonEmpty at hsne
        cases hcl : s.cells row.toNat col.toNat with
        | none => rfl
        | some cell =>
            rw [hcl] at hsne
            simp only [decide_eq_false_iff_not, Decidable.not_not] at hsne
            exact display_empty_type hsne
      rw [horig]
      by_cases hrm : row.toNat ≤ csvMaxRow s
      · rw [rows_fold_cells (s := s) (csvMaxRow s + 1) 0 (sheet_new s.rows s.cols)
          rfl rfl (by omega) (by omega) (fun _ _ _ => rfl)
          row.toNat col.toNat (by omega) (by omega)]
        by_cases hcm : col.toNat < csvMaxCol s + 1
        · rw [if_neg (by
            intro h
            have h3 := h.2
            rw [fieldsOf_getD hcm, hfe] at h3
            simp at h3)]
          rfl
        · rw [if_neg (fun h => hcm h.1)]
          rfl
      · rw [rows_fold_frame s _ _ row.toNat col.toNat (by
          intro r' hr'
          have := List.mem_range'_1.mp hr'
          omega)]
        rfl
    · have hsne : slotNonEmpty s row.toNat col.toNat = true := by
        unfold slotNonEmpty
        rw [hcell]
        simp [hstr]
      have hrm : row.toNat ≤ csvMaxRow s := csvMaxRow_ge hrr hcc hsne
      have hcm : col.toNat ≤ csvMaxCol s := csvMaxCol_ge hrr hcc hsne
      rw [rows_fold_cells (s := s) (csvMaxRow s + 1) 0 (sheet_new s.rows s.cols)
        rfl rfl (by omega) (by omega) (fun _ _ _ => rfl)
        row.toNat col.toNat (by omega) (by omega)]
      have hcond : col.toNat < csvMaxCol s + 1 ∧
          0 < ((fieldsOf s row.toNat).getD col.toNat []).length := by
        constructor
        · omega
        · rw [fieldsOf_getD (by omega), hfield]
          exact List.length_pos.mpr (safe_ne_nil hsafe)
      rw [if_pos hcond, display_set_string, hcell,
        display_string_cell hstr, fieldsOf_getD (by omega), hfield]

theorem claim_C2_witness :
    (0 < (sheet_set_string (sheet_new 2 2) 0 0 "hi").rows ∧
     0 < (sheet_set_string (sheet_new 2 2) 0 0 "hi").cols ∧
     TextOnlySheet (sheet_set_string (sheet_new 2 2) 0 0 "hi") ∧
     (∀ r, r < (sheet_set_string (sheet_new 2 2) 0 0 "hi").rows →
       (joinLine (fieldsOf (sheet_set_string (sheet_new 2 2) 0 0 "hi")
         r)).length ≤ 4095)) ∧
    sheet_get_display_value
      (sheet_load_csv 7 (sheet_new (sheet_set_string (sheet_new 2 2) 0 0
          "hi").rows (sheet_set_string (sheet_new 2 2) 0 0 "hi").cols)
        (Option.some (sheet_save_csv
          (sheet_set_string (sheet_new 2 2) 0 0 "hi") true)) true).1 0 0 =
    sheet_get_display_value (sheet_set_string (sheet_new 2 2) 0 0 "hi") 0 0 :=
  ⟨⟨by with_unfolding_all decide, by with_unfolding_all decide,
    by unfold TextOnlySheet; with_unfolding_all decide,
    by with_unfolding_all decide⟩,
   claim_C2_amended 7 (sheet_set_string (sheet_new 2 2) 0 0 "hi")
     (by with_unfolding_all decide) (by with_unfolding_all decide)
     (by unfold TextOnlySheet; with_unfolding_all decide)
     (by with_unfolding_all decide) 0 0⟩

/-- C2 counterexample: the text cell `"00"` displays as `00`, survives the
save verbatim, but the loader's full-`strtod` classification turns it into
the number 0, which displays as `0`. -/
theorem claim_C2_counterexample :
    sheet_get_display_value
      (sheet_set_string (sheet_new 2 2) 0 0 "00") 0 0 = "00".data ∧
    sheet_get_display_value
      (sheet_load_csv 4 (sheet_new 2 2)
        (Option.some (sheet_save_csv
          (sheet_set_string (sheet_new 2 2) 0 0 "00") true)) true).1 0 0 =
      "0".data := by
  with_unfolding_all decide

/-! ### Claim C1: cache consistency after the smart recalculation sweep -/

/-! ### Claim C1: the recalculation sweep -/

theorem goodM_pure {α : Type} (a : α) : GoodM (pure a : M α) :=
  ⟨fun _ _ h => h, fun _ _ _ _ _ => rfl⟩

theorem goodM_bind {α β : Type} {m : M α} {k : α → M β} (hm : GoodM m)
    (hk : ∀ a, GoodM (k a)) : GoodM (m >>= k) := by
  constructor
  · intro s st h
    rw [M_bind_apply]
    exact (hk _).1 s _ (hm.1 s st h)
  · intro s t st hag hfin
    rw [M_bind_apply] at hfin ⊢
    rw [M_bind_apply]
    have hmid : ((m t st).2).readF = false := by
      cases hmid : ((m t st).2).readF with
      | false => rfl
      | true => rw [(hk _).1 t _ hmid] at hfin; cases hfin
    rw [hm.2 s t st hag hmid]
    exact (hk _).2 s t _ hag hfin

theorem goodM_getRest : GoodM getRest :=
  ⟨fun _ _ h => h, fun _ _ _ _ _ => rfl⟩

theorem goodM_setRest (cs : List Char) : GoodM (setRest cs) :=
  ⟨fun _ _ h => h, fun _ _ _ _ _ => rfl⟩

theorem goodM_getErr : GoodM getErr :=
  ⟨fun _ _ h => h, fun _ _ _ _ _ => rfl⟩

theorem goodM_setErr (e : ErrorType) : GoodM (setErr e) :=
  ⟨fun _ _ h => h, fun _ _ _ _ _ => rfl⟩

theorem goodM_failWith (e : ErrorType) : GoodM (failWith e) :=
  ⟨fun _ _ h => h, fun _ _ _ _ _ => rfl⟩

theorem goodM_skipWs : GoodM skipWs :=
  ⟨fun _ _ h => h, fun _ _ _ _ _ => rfl⟩

theorem goodM_setIfRes (r : Option (Option String)) : GoodM (setIfRes r) :=
  ⟨fun _ _ h => h, fun _ _ _ _ _ => rfl⟩

theorem goodM_ite {α : Type} {c : Prop} [Decidable c] {m1 m2 : M α}
    (h1 : GoodM m1) (h2 : GoodM m2) : GoodM (if c then m1 else m2) := by
  split
  · exact h1
  · exact h2

theorem sheet_get_cell_agree {s t : Sheet} (hag : Agree s t) (row col : Int) :
    (sheet_get_cell s row col = Option.none ∧
     sheet_get_cell t row col = Option.none) ∨
    (∃ a b, sheet_get_cell s row col = Option.some a ∧
      sheet_get_cell t row col = Option.some b ∧
      a.type = b.type ∧ a.number = b.number ∧ a.string = b.string) := by
  obtain ⟨hrw, hcl, hcells⟩ := hag
  unfold sheet_get_cell
  rw [hrw, hcl]
  split
  · exact Or.inl ⟨rfl, rfl⟩
  · have h := hcells row.toNat col.toNat
    cases hs : s.cells row.toNat col.toNat with
    | none =>
        cases ht : t.cells row.toNat col.toNat with
        | none => exact Or.inl ⟨rfl, rfl⟩
        | some b => rw [hs, ht] at h; cases h
    | some a =>
        cases ht : t.cells row.toNat col.toNat with
        | none => rw [hs, ht] at h; cases h
        | some b =>
            rw [hs, ht] at h
            exact Or.inr ⟨a, b, rfl, rfl, h.1, h.2.1, h.2.2⟩

theorem goodM_factorRefValue (row col : Int) : GoodM (factorRefValue row col) := by
  constructor
  · intro s st h
    unfold factorRefValue
    split
    · exact h
    · split
      · exact h
      · exact h
      · split <;> simp
      · exact h
  · intro s t st hag hfin
    unfold factorRefValue at hfin ⊢
    rcases sheet_get_cell_agree hag row col with ⟨hs, ht⟩ |
      ⟨a, b, hs, ht, htype, hnum, hstr⟩
    · rw [hs, ht]
    · rw [hs, ht]
      rw [ht] at hfin
      dsimp only at hfin ⊢
      cases hbt : b.type with
      | empty => rw [htype, hbt]
      | number => rw [htype, hbt, hnum]
      | formula =>
          rw [hbt] at hfin
          dsimp only at hfin
          exfalso
          revert hfin
          split <;> simp
      | string => rw [htype, hbt]
      | error => rw [htype, hbt]

theorem goodM_gcsv (ref : List Char) : GoodM (get_cell_string_value ref) := by
  constructor
  · intro s st h
    unfold get_cell_string_value
    split
    · exact h
    · split
      · exact h
      · split
        · exact h
        · split <;> simp
        · exact h
  · intro s t st hag hfin
    unfold get_cell_string_value at hfin ⊢
    cases hpr : parse_cell_reference ref with
    | none => rfl
    | some rc =>
        rcases rc with ⟨row, col⟩
        rw [hpr] at hfin
        dsimp only at hfin ⊢
        rcases sheet_get_cell_agree hag row col with ⟨hs, ht⟩ |
          ⟨a, b, hs, ht, htype, hnum, hstr⟩
        · rw [hs, ht]
        · rw [hs, ht]
          rw [ht] at hfin
          dsimp only at hfin ⊢
          cases hbt : b.type with
          | empty => rw [htype, hbt]
          | number => rw [htype, hbt]
          | formula =>
              rw [hbt] at hfin
              dsimp only at hfin
              exfalso
              revert hfin
              split <;> simp
          | string => rw [htype, hbt, hstr]
          | error => rw [htype, hbt]

theorem goodM_aggSingleCell (row col : Int) : GoodM (aggSingleCell row col) := by
  constructor
  · intro s st h
    unfold aggSingleCell
    split
    · exact h
    · split
      · exact h
      · split <;> simp
      · exact h
      · exact h
  · intro s t st hag hfin
    unfold aggSingleCell at hfin ⊢
    rcases sheet_get_cell_agree hag row col with ⟨hs, ht⟩ |
      ⟨a, b, hs, ht, htype, hnum, hstr⟩
    · rw [hs, ht]
    · rw [hs, ht]
      rw [ht] at hfin
      dsimp only at hfin ⊢
      cases hbt : b.type with
      | empty => rw [htype, hbt]
      | number => rw [htype, hbt, hnum]
      | formula =>
          rw [hbt] at hfin
          dsimp only at hfin
          exfalso
          revert hfin
          split <;> simp
      | string => rw [htype, hbt]
      | error => rw [htype, hbt]

theorem rangeCellStep_agree {s t : Sheet} (hag : Agree s t) (r c : Int)
    (hf : (rangeCellStep (sheet_get_cell t r c)).2 = false) :
    rangeCellStep (sheet_get_cell s r c) =
      rangeCellStep (sheet_get_cell t r c) := by
  unfold rangeCellStep at hf ⊢
  rcases sheet_get_cell_agree hag r c with ⟨hs, ht⟩ |
    ⟨a, b, hs, ht, htype, hnum, hstr⟩
  · rw [hs, ht]
  · rw [hs, ht]
    rw [ht] at hf
    dsimp only at hf ⊢
    cases hbt : b.type with
    | empty => rw [htype, hbt]
    | number => rw [htype, hbt, hnum]
    | formula => rw [hbt] at hf; simp at hf
    | string => rw [htype, hbt]
    | error => rw [htype, hbt]

theorem grv_inner_mono (s : Sheet) (mx : Nat) (row : Int)
    (colIdx : List Int) :
    ∀ acc : List Rat × Bool, acc.2 = true →
      (colIdx.foldl (grvStep s mx row) acc).2 = true := by
  induction colIdx with
  | nil => intro acc h; exact h
  | cons col rest ih =>
      intro acc h
      rw [List.foldl_cons, grvStep_eq]
      split
      · exact ih acc h
      · exact ih _ (by simp [h])

theorem grv_outer_mono (s : Sheet) (mx : Nat) (colIdx : List Int)
    (rowIdx : List Int) :
    ∀ acc : List Rat × Bool, acc.2 = true →
      (rowIdx.foldl (fun acc row => colIdx.foldl (grvStep s mx row) acc)
        acc).2 = true := by
  induction rowIdx with
  | nil => intro acc h; exact h
  | cons row rest ih =>
      intro acc h
      rw [List.foldl_cons]
      exact ih _ (grv_inner_mono s mx row colIdx acc h)

theorem grv_inner_agree {s t : Sheet} (hag : Agree s t) (mx : Nat) (row : Int)
    (colIdx : List Int) :
    ∀ acc : List Rat × Bool,
      (colIdx.foldl (grvStep t mx row) acc).2 = false →
      colIdx.foldl (grvStep s mx row) acc =
        colIdx.foldl (grvStep t mx row) acc := by
  induction colIdx with
  | nil => intro acc _; rfl
  | cons col rest ih =>
      intro acc hfin
      rw [List.foldl_cons, grvStep_eq] at hfin ⊢
      rw [List.foldl_cons, grvStep_eq]
      split
      · exact ih acc (by rwa [if_pos (by assumption)] at hfin)
      · rw [if_neg (by assumption)] at hfin
        have hstep : (rangeCellStep (sheet_get_cell t row col)).2 = false := by
          cases hc : (rangeCellStep (sheet_get_cell t row col)).2 with
          | false => rfl
          | true =>
              rw [grv_inner_mono t mx row rest _ (by simp [hc])] at hfin
              cases hfin
        rw [rangeCellStep_agree hag row col hstep]
        exact ih _ hfin

theorem grv_outer_agree {s t : Sheet} (hag : Agree s t) (mx : Nat)
    (colIdx : List Int) (rowIdx : List Int) :
    ∀ acc : List Rat × Bool,
      (rowIdx.foldl (fun acc row => colIdx.foldl (grvStep t mx row) acc)
        acc).2 = false →
      rowIdx.foldl (fun acc row => colIdx.foldl (grvStep s mx row) acc) acc =
      rowIdx.foldl (fun acc row => colIdx.foldl (grvStep t mx row) acc) acc := by
  induction rowIdx with
  | nil => intro acc _; rfl
  | cons row rest ih =>
      intro acc hfin
      rw [List.foldl_cons] at hfin ⊢
      rw [List.foldl_cons]
      have hmid : (colIdx.foldl (grvStep t mx row) acc).2 = false := by
        cases hc : (colIdx.foldl (grvStep t mx row) acc).2 with
        | false => rfl
        | true =>
            rw [grv_outer_mono t mx colIdx rest _ hc] at hfin
            cases hfin
      rw [grv_inner_agree hag mx row colIdx acc hmid]
      exact ih _ hfin

theorem get_range_values_agree {s t : Sheet} (hag : Agree s t)
    (range : CellRange) (mx : Nat)
    (hf : (get_range_values t range mx).2 = false) :
    get_range_values s range mx = get_range_values t range mx := by
  unfold get_range_values at hf ⊢
  exact grv_outer_agree hag mx _ _ ([], false) hf

theorem goodM_getRangeValuesM (range : CellRange) (mx : Nat) :
    GoodM (getRangeValuesM range mx) := by
  constructor
  · intro s st h
    unfold getRangeValuesM
    dsimp only
    simp [h]
  · intro s t st hag hfin
    unfold getRangeValuesM at hfin ⊢
    dsimp only at hfin ⊢
    have hflag : (get_range_values t range mx).2 = false := by
      simp only [Bool.or_eq_false_iff] at hfin
      exact hfin.2
    rw [get_range_values_agree hag range mx hflag]

theorem xlookupNumCell_agree {s t : Sheet} (hag : Agree s t) (r c : Int)
    (hf : (xlookupNumCell (sheet_get_cell t r c)).2 = false) :
    xlookupNumCell (sheet_get_cell s r c) =
      xlookupNumCell (sheet_get_cell t r c) := by
  unfold xlookupNumCell at hf ⊢
  rcases sheet_get_cell_agree hag r c with ⟨hs, ht⟩ |
    ⟨a, b, hs, ht, htype, hnum, hstr⟩
  · rw [hs, ht]
  · rw [hs, ht]
    rw [ht] at hf
    dsimp only at hf ⊢
    cases hbt : b.type with
    | empty => rw [htype, hbt]
    | number => rw [htype, hbt, hnum]
    | formula => rw [hbt] at hf; simp at hf
    | string => rw [htype, hbt]
    | error => rw [htype, hbt]

theorem xlookupBetterScan_agree {s t : Sheet} (hag : Agree s t)
    (key cur : Rat) (l : List (Int × Int))
    (hf : (xlookupBetterScan t key cur l).2 = false) :
    xlookupBetterScan s key cur l = xlookupBetterScan t key cur l := by
  induction l with
  | nil => rfl
  | cons p rest ih =>
      rcases p with ⟨r, c⟩
      unfold xlookupBetterScan at hf ⊢
      rcases hnum : xlookupNumCell (sheet_get_cell t r c) with ⟨v?, f⟩
      rw [hnum] at hf
      cases v? with
      | none =>
          dsimp only at hf
          rcases hrec : xlookupBetterScan t key cur rest with ⟨b2, f2⟩
          rw [hrec] at hf
          dsimp only at hf
          simp only [Bool.or_eq_false_iff] at hf
          rw [xlookupNumCell_agree hag r c (by rw [hnum]; exact hf.1), hnum]
          dsimp only
          rw [ih (by rw [hrec]; exact hf.2), hrec]
      | some v =>
          dsimp only at hf
          by_cases hcmp : v ≤ key ∧ cur < v
          · rw [if_pos hcmp] at hf
            rw [xlookupNumCell_agree hag r c (by rw [hnum]; exact hf), hnum]
            dsimp only
            simp only [if_pos hcmp]
          · rw [if_neg hcmp] at hf
            rcases hrec : xlookupBetterScan t key cur rest with ⟨b2, f2⟩
            rw [hrec] at hf
            dsimp only at hf
            simp only [Bool.or_eq_false_iff] at hf
            rw [xlookupNumCell_agree hag r c (by rw [hnum]; exact hf.1), hnum]
            dsimp only
            simp only [if_neg hcmp]
            rw [ih (by rw [hrec]; exact hf.2), hrec]

theorem xlookupSearch_agree {s t : Sheet} (hag : Agree s t)
    (pos rpos : Nat → Int × Int) (ls? : Option String) (key : Rat)
    (exact : Bool) (l : List Nat) :
    (xlookupSearch t pos rpos ls? key exact l).2 = false →
    xlookupSearch s pos rpos ls? key exact l =
      xlookupSearch t pos rpos ls? key exact l := by
  induction l with
  | nil => intro _; rfl
  | cons i rest ih =>
      intro hfin
      rcases hrec : xlookupSearch t pos rpos ls? key exact rest with ⟨rv, f2⟩
      unfold xlookupSearch at hfin ⊢
      dsimp only at hfin ⊢
      rw [hrec] at hfin ⊢
      rcases sheet_get_cell_agree hag (pos i).1 (pos i).2 with ⟨hs, ht⟩ |
        ⟨a, b, hs, ht, htype, hnum, hstr⟩
      · rw [hs, ht]
        rw [ht] at hfin
        dsimp only at hfin ⊢
        simp only [Bool.false_or] at hfin
        rw [ih (by rw [hrec]; exact hfin), hrec]
      · rw [hs, ht]
        rw [ht] at hfin
        dsimp only at hfin ⊢
        cases ls? with
        | some ls =>
            cases hbt : b.type with
            | string =>
                rw [hbt] at hfin
                rw [htype, hbt, hstr]
                dsimp only at hfin ⊢
                split
                next hM =>
                  rw [if_pos hM] at hfin
                  rcases sheet_get_cell_agree hag (rpos i).1 (rpos i).2 with
                    ⟨hs2, ht2⟩ | ⟨a2, b2, hs2, ht2, htype2, hnum2, hstr2⟩
                  · rw [hs2, ht2]
                  · rw [hs2, ht2]
                    rw [ht2] at hfin
                    dsimp only at hfin ⊢
                    cases hbt2 : b2.type with
                    | number => rw [htype2, hbt2]; dsimp only; rw [hnum2]
                    | empty => rw [htype2, hbt2]
                    | formula =>
                        rw [hbt2] at hfin
                        dsimp only at hfin
                        exfalso
                        repeat' split at hfin
                        all_goals simp_all
                    | string =>
                        rw [hbt2] at hfin
                        rw [htype2, hbt2]
                        dsimp only at hfin ⊢
                        simp only [Bool.false_or] at hfin ⊢
                        rw [ih (by rw [hrec]; exact hfin), hrec]
                    | error =>
                        rw [hbt2] at hfin
                        rw [htype2, hbt2]
                        dsimp only at hfin ⊢
                        simp only [Bool.false_or] at hfin ⊢
                        rw [ih (by rw [hrec]; exact hfin), hrec]
                next hM =>
                  rw [if_neg hM] at hfin
                  dsimp only at hfin ⊢
                  simp only [Bool.false_or] at hfin ⊢
                  rw [ih (by rw [hrec]; exact hfin), hrec]
            | formula =>
                rw [hbt] at hfin
                dsimp only at hfin
                exfalso
                repeat' split at hfin
                all_goals simp_all
            | empty =>
                rw [hbt] at hfin
                rw [htype, hbt]
                dsimp only at hfin ⊢
                simp only [if_neg Bool.false_ne_true] at hfin ⊢
                simp only [Bool.false_or] at hfin ⊢
                rw [ih (by rw [hrec]; exact hfin), hrec]
            | number =>
                rw [hbt] at hfin
                rw [htype, hbt]
                dsimp only at hfin ⊢
                simp only [if_neg Bool.false_ne_true] at hfin ⊢
                simp only [Bool.false_or] at hfin ⊢
                rw [ih (by rw [hrec]; exact hfin), hrec]
            | error =>
                rw [hbt] at hfin
                rw [htype, hbt]
                dsimp only at hfin ⊢
                simp only [if_neg Bool.false_ne_true] at hfin ⊢
                simp only [Bool.false_or] at hfin ⊢
                rw [ih (by rw [hrec]; exact hfin), hrec]
        | none =>
            cases hbt : b.type with
            | formula =>
                simp only [xlookupNumCell, hbt] at hfin
                exfalso
                repeat' split at hfin
                all_goals simp_all
            | empty =>
                simp only [xlookupNumCell, hbt, htype] at hfin ⊢
                simp only [if_neg Bool.false_ne_true] at hfin ⊢
                simp only [Bool.false_or] at hfin ⊢
                rw [ih (by rw [hrec]; exact hfin), hrec]
            | string =>
                simp only [xlookupNumCell, hbt, htype] at hfin ⊢
                simp only [if_neg Bool.false_ne_true] at hfin ⊢
                simp only [Bool.false_or] at hfin ⊢
                rw [ih (by rw [hrec]; exact hfin), hrec]
            | error =>
                simp only [xlookupNumCell, hbt, htype] at hfin ⊢
                simp only [if_neg Bool.false_ne_true] at hfin ⊢
                simp only [Bool.false_or] at hfin ⊢
                rw [ih (by rw [hrec]; exact hfin), hrec]
            | number =>
                simp only [xlookupNumCell, hbt, htype, hnum] at hfin ⊢
                cases hex : exact with
                | true =>
                    subst hex
                    simp only [eq_self_iff_true, if_true] at hfin ⊢
                    split
                    next hM =>
                      rw [if_pos hM] at hfin
                      rcases sheet_get_cell_agree hag (rpos i).1 (rpos i).2 with
                        ⟨hs2, ht2⟩ | ⟨a2, b2, hs2, ht2, htype2, hnum2, hstr2⟩
                      · rw [hs2, ht2]
                      · rw [hs2, ht2]
                        rw [ht2] at hfin
                        dsimp only at hfin ⊢
                        cases hbt2 : b2.type with
                        | number => rw [htype2, hbt2]; dsimp only; rw [hnum2]
                        | empty => rw [htype2, hbt2]
                        | formula =>
                            rw [hbt2] at hfin
                            dsimp only at hfin
                            exfalso
                            repeat' split at hfin
                            all_goals simp_all
                        | string =>
                            rw [hbt2] at hfin
                            rw [htype2, hbt2]
                            dsimp only at hfin ⊢
                            simp only [Bool.false_or] at hfin ⊢
                            rw [ih (by rw [hrec]; exact hfin), hrec]
                        | error =>
                            rw [hbt2] at hfin
                            rw [htype2, hbt2]
                            dsimp only at hfin ⊢
                            simp only [Bool.false_or] at hfin ⊢
                            rw [ih (by rw [hrec]; exact hfin), hrec]
                    next hM =>
                      rw [if_neg hM] at hfin
                      dsimp only at hfin ⊢
                      simp only [Bool.false_or] at hfin ⊢
                      rw [ih (by rw [hrec]; exact hfin), hrec]
                | false =>
                    subst hex
                    simp only [if_neg Bool.false_ne_true] at hfin ⊢
                    by_cases hle : b.number ≤ key
                    · simp only [if_pos hle] at hfin ⊢
                      rcases hbs : xlookupBetterScan t key b.number
                          (List.map pos rest) with ⟨bb, fb⟩
                      rw [hbs] at hfin
                      have hfb : fb = false := by
                        cases fb
                        · rfl
                        · exfalso
                          repeat' split at hfin
                          all_goals simp_all
                      subst hfb
                      have hbsf : (xlookupBetterScan t key b.number
                          (List.map pos rest)).2 = false := by rw [hbs]
                      have hsc := xlookupBetterScan_agree hag key b.number
                        (List.map pos rest) hbsf
                      rw [hsc, hbs]
                      simp only [Bool.or_false] at hfin ⊢
                      split
                      next hM =>
                        rw [if_pos hM] at hfin
                        rcases sheet_get_cell_agree hag (rpos i).1 (rpos i).2 with
                          ⟨hs2, ht2⟩ | ⟨a2, b2, hs2, ht2, htype2, hnum2, hstr2⟩
                        · rw [hs2, ht2]
                        · rw [hs2, ht2]
                          rw [ht2] at hfin
                          dsimp only at hfin ⊢
                          cases hbt2 : b2.type with
                          | number => rw [htype2, hbt2]; dsimp only; rw [hnum2]
                          | empty => rw [htype2, hbt2]
                          | formula =>
                              rw [hbt2] at hfin
                              dsimp only at hfin
                              exfalso
                              repeat' split at hfin
                              all_goals simp_all
                          | string =>
                              rw [hbt2] at hfin
                              rw [htype2, hbt2]
                              dsimp only at hfin ⊢
                              simp only [Bool.false_or] at hfin ⊢
                              rw [ih (by rw [hrec]; exact hfin), hrec]
                          | error =>
                              rw [hbt2] at hfin
                              rw [htype2, hbt2]
                              dsimp only at hfin ⊢
                              simp only [Bool.false_or] at hfin ⊢
                              rw [ih (by rw [hrec]; exact hfin), hrec]
                      next hM =>
                        rw [if_neg hM] at hfin
                        dsimp only at hfin ⊢
                        simp only [Bool.false_or] at hfin ⊢
                        rw [ih (by rw [hrec]; exact hfin), hrec]
                    · simp only [if_neg hle] at hfin ⊢
                      simp only [if_neg Bool.false_ne_true] at hfin ⊢
                      simp only [Bool.false_or] at hfin ⊢
                      rw [ih (by rw [hrec]; exact hfin), hrec]

theorem func_xlookup_agree {s t : Sheet} (hag : Agree s t)
    (lv : Rat) (ls? : Option String) (la ra : List Char) (ex : Bool)
    (hf : (func_xlookup t lv ls? la ra ex).2.2 = false) :
    func_xlookup s lv ls? la ra ex = func_xlookup t lv ls? la ra ex := by
  unfold func_xlookup at hf ⊢
  cases hpl : parse_range la with
  | none => rfl
  | some lr =>
      rw [hpl] at hf
      cases hpr : parse_range ra with
      | none => rfl
      | some rr =>
          rw [hpr] at hf
          dsimp only at hf ⊢
          split
          next h => rfl
          next h =>
            rw [if_neg h] at hf
            split at hf
            next v f heq =>
              dsimp only at hf
              have hsag := xlookupSearch_agree hag _ _ ls? lv ex _
                ((congrArg Prod.snd heq).trans hf)
              rw [hsag, heq]
            next f heq =>
              dsimp only at hf
              have hsag := xlookupSearch_agree hag _ _ ls? lv ex _
                ((congrArg Prod.snd heq).trans hf)
              rw [hsag, heq]

theorem goodM_xlookupM (lv : Rat) (ls? : Option String) (la ra : List Char)
    (ex : Bool) : GoodM (xlookupM lv ls? la ra ex) := by
  constructor
  · intro s st h
    unfold xlookupM
    dsimp only
    rcases hx : func_xlookup s lv ls? la ra ex with ⟨v, e, f⟩
    simp [h]
  · intro s t st hag hfin
    unfold xlookupM at hfin ⊢
    dsimp only at hfin ⊢
    rcases hx : func_xlookup t lv ls? la ra ex with ⟨v, e, f⟩
    rw [hx] at hfin
    dsimp only at hfin
    have hflag : (func_xlookup t lv ls? la ra ex).2.2 = false := by
      rw [hx]
      exact (Bool.or_eq_false_iff.mp hfin).2
    rw [func_xlookup_agree hag lv ls? la ra ex hflag, hx]

theorem goodM_armArith (g : Tag → M Rat) (hg : ∀ tag, GoodM (g tag)) :
    GoodM (armArith g) := by
  unfold armArith
  repeat' first
    | exact goodM_pure _
    | exact goodM_failWith _
    | exact goodM_getRest
    | exact goodM_getErr
    | exact goodM_skipWs
    | exact goodM_setRest _
    | exact goodM_setErr _
    | exact goodM_setIfRes _
    | exact hg _
    | apply goodM_ite
    | apply goodM_bind
    | intro _
    | dsimp only
    | split

theorem goodM_armArithLoop (g : Tag → M Rat) (hg : ∀ tag, GoodM (g tag))
    (acc : Rat) : GoodM (armArithLoop g acc) := by
  unfold armArithLoop
  repeat' first
    | exact goodM_pure _
    | exact goodM_failWith _
    | exact goodM_getRest
    | exact goodM_getErr
    | exact goodM_skipWs
    | exact goodM_setRest _
    | exact goodM_setErr _
    | exact goodM_setIfRes _
    | exact hg _
    | apply goodM_ite
    | apply goodM_bind
    | intro _
    | dsimp only
    | split

theorem goodM_armTerm (g : Tag → M Rat) (hg : ∀ tag, GoodM (g tag)) :
    GoodM (armTerm g) := by
  unfold armTerm
  repeat' first
    | exact goodM_pure _
    | exact goodM_failWith _
    | exact goodM_getRest
    | exact goodM_getErr
    | exact goodM_skipWs
    | exact goodM_setRest _
    | exact goodM_setErr _
    | exact goodM_setIfRes _
    | exact hg _
    | apply goodM_ite
    | apply goodM_bind
    | intro _
    | dsimp only
    | split

theorem goodM_armTermLoop (g : Tag → M Rat) (hg : ∀ tag, GoodM (g tag))
    (acc : Rat) : GoodM (armTermLoop g acc) := by
  unfold armTermLoop
  repeat' first
    | exact goodM_pure _
    | exact goodM_failWith _
    | exact goodM_getRest
    | exact goodM_getErr
    | exact goodM_skipWs
    | exact goodM_setRest _
    | exact goodM_setErr _
    | exact goodM_setIfRes _
    | exact hg _
    | apply goodM_ite
    | apply goodM_bind
    | intro _
    | dsimp only
    | split

set_option maxHeartbeats 2000000 in
theorem goodM_armFactor (g : Tag → M Rat) (hg : ∀ tag, GoodM (g tag)) :
    GoodM (armFactor g) := by
  unfold armFactor
  apply goodM_bind goodM_skipWs; intro u
  apply goodM_bind goodM_getRest; intro rest
  split
  · apply goodM_bind (goodM_setRest _); intro u2
    apply goodM_bind (hg _); intro v
    apply goodM_bind goodM_getErr; intro e
    apply goodM_ite
    · exact goodM_pure _
    · apply goodM_bind goodM_skipWs; intro u3
      apply goodM_bind goodM_getRest; intro rest2
      split
      · apply goodM_bind (goodM_setRest _); intro u4
        exact goodM_pure _
      · exact goodM_failWith _
  · dsimp only
    apply goodM_ite
    · exact hg _
    · apply goodM_bind (goodM_setRest _); intro u2
      apply goodM_ite
      · split
        · apply goodM_bind (goodM_getRangeValuesM _ _); intro vals
          exact goodM_pure _
        · exact goodM_failWith _
      · split
        · exact goodM_factorRefValue _ _
        · apply goodM_bind (goodM_setRest _); intro u3
          rcases hsd : strtod rest with ⟨v, consumed⟩
          dsimp only
          apply goodM_ite
          · apply goodM_bind (goodM_setRest _); intro u4
            exact goodM_pure _
          · exact goodM_failWith _

set_option maxHeartbeats 2000000 in
theorem goodM_armCmp (g : Tag → M Rat) (hg : ∀ tag, GoodM (g tag)) :
    GoodM (armCmp g) := by
  unfold armCmp
  repeat' first
    | exact goodM_pure _
    | exact goodM_failWith _
    | exact goodM_getRest
    | exact goodM_getErr
    | exact goodM_skipWs
    | exact goodM_setRest _
    | exact goodM_setErr _
    | exact goodM_setIfRes _
    | exact goodM_gcsv _
    | exact goodM_getRangeValuesM _ _
    | exact goodM_aggSingleCell _ _
    | exact goodM_factorRefValue _ _
    | exact goodM_xlookupM _ _ _ _ _
    | exact hg _
    | apply goodM_ite
    | apply goodM_bind
    | intro _
    | dsimp only
    | split

set_option maxHeartbeats 2000000 in
theorem goodM_aggArm (name : List Char) : GoodM (aggArm name) := by
  unfold aggArm
  apply goodM_bind goodM_skipWs; intro u
  apply goodM_bind goodM_getRest; intro rest
  dsimp only
  apply goodM_ite
  · exact goodM_failWith _
  · rcases hsd : strtod (scanArgEnd rest 1).1 with ⟨v, consumed⟩
    dsimp only
    repeat' first
      | exact goodM_pure _
      | exact goodM_failWith _
      | exact goodM_getRest
      | exact goodM_getErr
      | exact goodM_skipWs
      | exact goodM_setRest _
      | exact goodM_setErr _
      | exact goodM_setIfRes _
      | exact goodM_getRangeValuesM _ _
      | exact goodM_aggSingleCell _ _
      | apply goodM_ite
      | apply goodM_bind
      | intro _
      | dsimp only
      | split

set_option maxHeartbeats 2000000 in
theorem goodM_powerArm (g : Tag → M Rat) (hg : ∀ tag, GoodM (g tag)) :
    GoodM (powerArm g) := by
  unfold powerArm
  repeat' first
    | exact goodM_pure _
    | exact goodM_failWith _
    | exact goodM_getRest
    | exact goodM_getErr
    | exact goodM_skipWs
    | exact goodM_setRest _
    | exact goodM_setErr _
    | exact goodM_setIfRes _
    | exact hg _
    | apply goodM_ite
    | apply goodM_bind
    | intro _
    | dsimp only
    | split

set_option maxHeartbeats 2000000 in
theorem goodM_ifValueArm (g : Tag → M Rat) (hg : ∀ tag, GoodM (g tag))
    (sc : Bool) : GoodM (ifValueArm g sc) := by
  unfold ifValueArm
  repeat' first
    | exact goodM_pure _
    | exact goodM_failWith _
    | exact goodM_getRest
    | exact goodM_getErr
    | exact goodM_skipWs
    | exact goodM_setRest _
    | exact goodM_setErr _
    | exact goodM_setIfRes _
    | exact hg _
    | apply goodM_ite
    | apply goodM_bind
    | intro _
    | dsimp only
    | split

set_option maxHeartbeats 2000000 in
theorem goodM_ifArm (g : Tag → M Rat) (hg : ∀ tag, GoodM (g tag)) :
    GoodM (ifArm g) := by
  unfold ifArm
  repeat' first
    | exact goodM_pure _
    | exact goodM_failWith _
    | exact goodM_getRest
    | exact goodM_getErr
    | exact goodM_skipWs
    | exact goodM_setRest _
    | exact goodM_setErr _
    | exact goodM_setIfRes _
    | exact goodM_ifValueArm _ hg _
    | exact hg _
    | apply goodM_ite
    | apply goodM_bind
    | intro _
    | dsimp only
    | split

set_option maxHeartbeats 2000000 in
theorem goodM_xlookupAfterKey (g : Tag → M Rat) (hg : ∀ tag, GoodM (g tag))
    (key : Rat) (kstr : Option String) : GoodM (xlookupAfterKey g key kstr) := by
  unfold xlookupAfterKey
  repeat' first
    | exact goodM_pure _
    | exact goodM_failWith _
    | exact goodM_getRest
    | exact goodM_getErr
    | exact goodM_skipWs
    | exact goodM_setRest _
    | exact goodM_setErr _
    | exact goodM_setIfRes _
    | exact goodM_xlookupM _ _ _ _ _
    | exact hg _
    | apply goodM_ite
    | apply goodM_bind
    | intro _
    | dsimp only
    | split

set_option maxHeartbeats 2000000 in
theorem goodM_xlookupArm (g : Tag → M Rat) (hg : ∀ tag, GoodM (g tag)) :
    GoodM (xlookupArm g) := by
  unfold xlookupArm
  repeat' first
    | exact goodM_pure _
    | exact goodM_failWith _
    | exact goodM_getRest
    | exact goodM_getErr
    | exact goodM_skipWs
    | exact goodM_setRest _
    | exact goodM_setErr _
    | exact goodM_setIfRes _
    | exact goodM_xlookupAfterKey _ hg _ _
    | exact hg _
    | apply goodM_ite
    | apply goodM_bind
    | intro _
    | dsimp only
    | split

set_option maxHeartbeats 2000000 in
theorem goodM_armFn (g : Tag → M Rat) (hg : ∀ tag, GoodM (g tag)) :
    GoodM (armFn g) := by
  unfold armFn
  repeat' first
    | exact goodM_pure _
    | exact goodM_failWith _
    | exact goodM_getRest
    | exact goodM_getErr
    | exact goodM_skipWs
    | exact goodM_setRest _
    | exact goodM_setErr _
    | exact goodM_setIfRes _
    | exact goodM_xlookupArm _ hg
    | exact goodM_aggArm _
    | exact goodM_powerArm _ hg
    | exact goodM_ifArm _ hg
    | apply goodM_ite
    | apply goodM_bind
    | intro _
    | dsimp only
    | split

theorem goodM_evalArms (g : Tag → M Rat) (hg : ∀ tag, GoodM (g tag)) :
    ∀ tag, GoodM (evalArms g tag) := by
  intro tag
  cases tag
  case cmp => exact goodM_armCmp g hg
  case arith => exact goodM_armArith g hg
  case arithLoop acc => exact goodM_armArithLoop g hg acc
  case term => exact goodM_armTerm g hg
  case termLoop acc => exact goodM_armTermLoop g hg acc
  case factor => exact goodM_armFactor g hg
  case fn => exact goodM_armFn g hg

theorem goodM_evalStep : ∀ (n : Nat) (tag : Tag), GoodM (evalStep n tag) := by
  intro n
  induction n with
  | zero => intro tag; exact goodM_failWith _
  | succ n ih => intro tag; exact goodM_evalArms _ ih tag

theorem agree_refl (s : Sheet) : Agree s s := by
  refine ⟨rfl, rfl, fun r c => ?_⟩
  cases s.cells r c with
  | none => trivial
  | some a => exact ⟨rfl, rfl, rfl⟩

theorem recalcCellStep_eq (fuel : Nat) (t : Sheet) (p : Nat × Nat) :
    recalcCellStep fuel t p =
      (match t.cells p.1 p.2 with
      | Option.none => t
      | Option.some cell =>
          sheet_put_cell t p.1 p.2
            (Option.some (recalcResult fuel t cell))) := rfl

theorem recalcResult_fields (fuel : Nat) (u : Sheet) (cell : Cell) :
    (recalcResult fuel u cell).type = cell.type ∧
    (recalcResult fuel u cell).number = cell.number ∧
    (recalcResult fuel u cell).string = cell.string ∧
    (recalcResult fuel u cell).expression = cell.expression ∧
    (recalcResult fuel u cell).cached_value =
      (evaluate_formula fuel u cell.expression.data).1 ∧
    (recalcResult fuel u cell).error =
      (evaluate_formula fuel u cell.expression.data).2.err := by
  unfold recalcResult
  rcases heval : evaluate_formula fuel u cell.expression.data with ⟨v, st⟩
  dsimp only
  cases hif : st.ifRes with
  | none => exact ⟨rfl, rfl, rfl, rfl, rfl, rfl⟩
  | some o => cases o <;> exact ⟨rfl, rfl, rfl, rfl, rfl, rfl⟩

theorem agree_put {u t : Sheet} (hag : Agree u t) (rp cp : Nat)
    (cell cell' : Cell) (hc : t.cells rp cp = Option.some cell)
    (ht : cell'.type = cell.type) (hn : cell'.number = cell.number)
    (hs : cell'.string = cell.string) :
    Agree u (sheet_put_cell t rp cp (Option.some cell')) := by
  refine ⟨hag.1, hag.2.1, fun r c => ?_⟩
  have h3 := hag.2.2 r c
  unfold sheet_put_cell
  dsimp only
  by_cases hrc : r = rp ∧ c = cp
  · rw [if_pos hrc]
    obtain ⟨rfl, rfl⟩ := hrc
    rw [hc] at h3
    cases hu : u.cells r c with
    | none => rw [hu] at h3; exact h3.elim
    | some a =>
        rw [hu] at h3
        exact ⟨h3.1.trans ht.symm, h3.2.1.trans hn.symm, h3.2.2.trans hs.symm⟩
  · rw [if_neg hrc]
    exact h3

theorem agree_step {u t : Sheet} (fuel : Nat) (p : Nat × Nat)
    (hag : Agree u t) : Agree u (recalcCellStep fuel t p) := by
  rw [recalcCellStep_eq]
  cases hc : t.cells p.1 p.2 with
  | none => exact hag
  | some cell =>
      exact agree_put hag p.1 p.2 cell (recalcResult fuel t cell) hc
        (recalcResult_fields fuel t cell).1
        (recalcResult_fields fuel t cell).2.1
        (recalcResult_fields fuel t cell).2.2.1

theorem agree_fold {u t : Sheet} (fuel : Nat) (L : List (Nat × Nat))
    (hag : Agree u t) :
    Agree u (List.foldl (recalcCellStep fuel) t L) := by
  induction L generalizing t with
  | nil => exact hag
  | cons p L ih => exact ih (agree_step fuel p hag)

theorem recalcStep_frame (fuel : Nat) (t : Sheet) (p : Nat × Nat) (r c : Nat)
    (hne : ¬(r = p.1 ∧ c = p.2)) :
    (recalcCellStep fuel t p).cells r c = t.cells r c := by
  rw [recalcCellStep_eq]
  cases hc : t.cells p.1 p.2 with
  | none => rfl
  | some cell =>
      unfold sheet_put_cell
      dsimp only
      rw [if_neg hne]

theorem recalcFold_frame (fuel : Nat) (L : List (Nat × Nat)) (t : Sheet)
    (r c : Nat) (hn : (r, c) ∉ L) :
    (List.foldl (recalcCellStep fuel) t L).cells r c = t.cells r c := by
  induction L generalizing t with
  | nil => rfl
  | cons p L ih =>
      have h1 : (r, c) ∉ L := fun h => hn (List.mem_cons_of_mem _ h)
      have h2 : ¬(r = p.1 ∧ c = p.2) := by
        rintro ⟨rfl, rfl⟩
        exact hn (List.mem_cons_self _ _)
      rw [List.foldl_cons, ih (recalcCellStep fuel t p) h1,
        recalcStep_frame fuel t p r c h2]

theorem sweep_spec (fuel : Nat) :
    ∀ (L : List (Nat × Nat)) (t : Sheet) (r c : Nat) (cell0 : Cell),
      (r, c) ∈ L → t.cells r c = Option.some cell0 →
      ∃ (u : Sheet) (cellu : Cell),
        Agree u (List.foldl (recalcCellStep fuel) t L) ∧
        u.cells r c = Option.some cellu ∧
        cellu.expression = cell0.expression ∧
        (List.foldl (recalcCellStep fuel) t L).cells r c =
          Option.some (recalcResult fuel u cellu) := by
  intro L
  induction L with
  | nil => intro t r c cell0 hm; exact absurd hm (List.not_mem_nil _)
  | cons p L ih =>
      intro t r c cell0 hm hc
      rw [List.foldl_cons]
      by_cases hmem : (r, c) ∈ L
      · by_cases hp : r = p.1 ∧ c = p.2
        · obtain ⟨hp1, hp2⟩ := hp
          subst hp1
          subst hp2
          have hc' : (recalcCellStep fuel t p).cells p.1 p.2 =
              Option.some (recalcResult fuel t cell0) := by
            rw [recalcCellStep_eq, hc]
            unfold sheet_put_cell
            dsimp only
            rw [if_pos ⟨rfl, rfl⟩]
          obtain ⟨u, cellu, hagree, hu, hexpr, hfold⟩ :=
            ih (recalcCellStep fuel t p) p.1 p.2 (recalcResult fuel t cell0)
              hmem hc'
          exact ⟨u, cellu, hagree, hu,
            hexpr.trans (recalcResult_fields fuel t cell0).2.2.2.1, hfold⟩
        · have hc' : (recalcCellStep fuel t p).cells r c =
              Option.some cell0 := by
            rw [recalcStep_frame fuel t p r c hp, hc]
          exact ih (recalcCellStep fuel t p) r c cell0 hmem hc'
      · have hp : p = (r, c) := by
          rcases List.mem_cons.mp hm with h | h
          · exact h.symm
          · exact absurd h hmem
        subst hp
        have hc' : (recalcCellStep fuel t (r, c)).cells r c =
            Option.some (recalcResult fuel t cell0) := by
          rw [recalcCellStep_eq]
          dsimp only
          rw [hc]
          unfold sheet_put_cell
          dsimp only
          rw [if_pos ⟨rfl, rfl⟩]
        refine ⟨t, cell0, ?_, hc, rfl, ?_⟩
        · exact agree_fold fuel L (agree_step fuel (r, c) (agree_refl t))
        · rw [recalcFold_frame fuel L _ r c hmem, hc']

theorem mem_formulaCells {s : Sheet} {r c : Nat} {cell : Cell}
    (hr : r < s.rows) (hc : c < s.cols)
    (hcell : s.cells r c = Option.some cell)
    (htype : cell.type = CellType.formula) :
    (r, c) ∈ formulaCellsRowMajor s := by
  unfold formulaCellsRowMajor
  rw [List.mem_flatMap]
  refine ⟨r, List.mem_range.mpr hr, ?_⟩
  rw [List.mem_filterMap]
  refine ⟨c, List.mem_range.mpr hc, ?_⟩
  rw [hcell]
  dsimp only
  rw [htype]
  simp

theorem evaluate_formula_agree {u t : Sheet} (hag : Agree u t) (fuel : Nat)
    (e : List Char)
    (hro : (evaluate_formula fuel t e).2.readF = false) :
    evaluate_formula fuel u e = evaluate_formula fuel t e := by
  unfold evaluate_formula at hro ⊢
  exact (goodM_evalStep fuel Tag.cmp).2 u t _ hag hro

/-- C1: after the smart recalculation sweep, every formula cell whose
re-evaluation against the final sheet consults no formula-typed cell
(`readF = false`) carries a cached value and error equal to evaluating its
expression against the final sheet.  (The unconditional claim is refuted
by `claim_C1_counterexample`: the single row-major pass reads stale caches
of formula cells that appear later in the sweep.) -/
theorem claim_C1_amended (fuel : Nat) (s : Sheet) (r c : Nat) (cell0 : Cell)
    (hr : r < s.rows) (hc : c < s.cols)
    (hcell : s.cells r c = Option.some cell0)
    (htype : cell0.type = CellType.formula) :
    ∃ cellF : Cell,
      (sheet_recalculate_smart fuel s).cells r c = Option.some cellF ∧
      cellF.expression = cell0.expression ∧
      ((evaluate_formula fuel (sheet_recalculate_smart fuel s)
          cell0.expression.data).2.readF = false →
        cellF.cached_value =
          (evaluate_formula fuel (sheet_recalculate_smart fuel s)
            cell0.expression.data).1 ∧
        cellF.error =
          (evaluate_formula fuel (sheet_recalculate_smart fuel s)
            cell0.expression.data).2.err) := by
  obtain ⟨u, cellu, hag, hu, hexpr, hfold⟩ :=
    sweep_spec fuel (formulaCellsRowMajor s) s r c cell0
      (mem_formulaCells hr hc hcell htype) hcell
  refine ⟨recalcResult fuel u cellu, hfold, ?_, ?_⟩
  · exact ((recalcResult_fields fuel u cellu).2.2.2.1).trans hexpr
  · intro hro
    have hev : evaluate_formula fuel u cell0.expression.data =
        evaluate_formula fuel (sheet_recalculate_smart fuel s)
          cell0.expression.data :=
      evaluate_formula_agree hag fuel _ hro
    have h1 := (recalcResult_fields fuel u cellu).2.2.2.2.1
    have h2 := (recalcResult_fields fuel u cellu).2.2.2.2.2
    rw [hexpr] at h1 h2
    exact ⟨h1.trans (congrArg Prod.fst hev),
      h2.trans (congrArg (fun q => q.2.err) hev)⟩

/-- Witness for C1: a 2×2 sheet with `A1 = 2` and the formula `B1 = A1+1`;
the hypotheses of `claim_C1_amended` hold concretely. -/
theorem claim_C1_witness :
    ∃ cellF : Cell,
      (sheet_recalculate_smart 10 (sheet_set_formula
          (sheet_set_number (sheet_new 2 2) 0 0 2) 0 1 "=A1+1")).cells 0 1 =
        Option.some cellF ∧
      cellF.expression = (cell_set_formula (cell_new 0 1) "=A1+1").expression ∧
      ((evaluate_formula 10 (sheet_recalculate_smart 10 (sheet_set_formula
            (sheet_set_number (sheet_new 2 2) 0 0 2) 0 1 "=A1+1"))
          (cell_set_formula (cell_new 0 1) "=A1+1").expression.data).2.readF =
          false →
        cellF.cached_value =
          (evaluate_formula 10 (sheet_recalculate_smart 10 (sheet_set_formula
              (sheet_set_number (sheet_new 2 2) 0 0 2) 0 1 "=A1+1"))
            (cell_set_formula (cell_new 0 1) "=A1+1").expression.data).1 ∧
        cellF.error =
          (evaluate_formula 10 (sheet_recalculate_smart 10 (sheet_set_formula
              (sheet_set_number (sheet_new 2 2) 0 0 2) 0 1 "=A1+1"))
            (cell_set_formula (cell_new 0 1) "=A1+1").expression.data).2.err) :=
  claim_C1_amended 10
    (sheet_set_formula (sheet_set_number (sheet_new 2 2) 0 0 2) 0 1 "=A1+1")
    0 1 (cell_set_formula (cell_new 0 1) "=A1+1")
    (by with_unfolding_all decide) (by with_unfolding_all decide)
    (by with_unfolding_all decide) (by with_unfolding_all decide)

set_option maxHeartbeats 8000000 in
set_option maxRecDepth 4000 in
/-- Counterexample to the unconditional C1: with `A1 = 5`, `B1 = "=A2"` and
`A2 = "=A1+1"`, the row-major sweep evaluates `B1` before `A2`, so after
recalculation `B1` stores cached value `0` with `error = none`, while
evaluating its expression `=A2` against the final sheet yields `6`. -/
theorem claim_C1_counterexample :
    Option.map (fun cl => cl.expression)
        ((sheet_recalculate_smart 12 (sheet_set_formula (sheet_set_formula
          (sheet_set_number (sheet_new 2 2) 0 0 5) 0 1 "=A2") 1 0
          "=A1+1")).cells 0 1) = Option.some "=A2" ∧
    Option.map (fun cl => cl.error)
        ((sheet_recalculate_smart 12 (sheet_set_formula (sheet_set_formula
          (sheet_set_number (sheet_new 2 2) 0 0 5) 0 1 "=A2") 1 0
          "=A1+1")).cells 0 1) = Option.some ErrorType.none ∧
    Option.map (fun cl => cl.cached_value)
        ((sheet_recalculate_smart 12 (sheet_set_formula (sheet_set_formula
          (sheet_set_number (sheet_new 2 2) 0 0 5) 0 1 "=A2") 1 0
          "=A1+1")).cells 0 1) = Option.some 0 ∧
    (evaluate_formula 12 (sheet_recalculate_smart 12 (sheet_set_formula
        (sheet_set_formula (sheet_set_number (sheet_new 2 2) 0 0 5) 0 1
          "=A2") 1 0 "=A1+1")) "=A2".data).1 = 6 ∧
    (evaluate_formula 12 (sheet_recalculate_smart 12 (sheet_set_formula
        (sheet_set_formula (sheet_set_number (sheet_new 2 2) 0 0 5) 0 1
          "=A2") 1 0 "=A1+1")) "=A2".data).2.err = ErrorType.none := by
  with_unfolding_all decide

end LiveLedger
